import Mathlib

/-!
# pgcluster: the Sentinel control loop

A shallow embedding of `internal/sentinel/sentinel.go`.

* Go interfaces (`pg.Cluster`, `storage.Storage`) are records of functions over an
  abstract world `σ`; every call takes the world and returns its results together with
  the new world.
* The services of the Go runtime the agent uses (`select` on `ctx.Done()`, `ctx.Err()`,
  `time.Sleep`, `time.Now`) are a third record, `Runtime`.  It also carries `StoreState`,
  the store to `w.state` that concurrent `State()` readers observe, so that a world that
  keeps a log can order the writes of the state against the calls.
* `error` is `Option GoError` (`none` is `nil`), a pointer that may be `nil` is an `Option`.
* The three polling loops of the source (`awaitMaster`, `getMaster`, the recovery wait of
  `promote`) take fuel: `none` means the fuel ran out before the loop returned.
-/

namespace PgCluster

/-! ## Data model -/

/-- A Go `[]byte`, as the list of its bytes. -/
abbrev Bytes := List Nat

/-- A Go `error` value, as its message. -/
abbrev GoError := String

/-- The Go `time.Duration`, in nanoseconds. -/
abbrev Duration := Nat

/-- One second, `time.Second`. -/
def Second : Duration := 1000000000

/-- Timeout for a replica to wait the master to be ready: `60 * time.Second`. -/
def DefaultPgAwaitTimeout : Duration := 60 * Second

/-- Delay between two polls: `1 * time.Second`. -/
def DefaultPgPollDelay : Duration := 1 * Second

/-- The dictionary key `[]byte("master-info")`. -/
def dictKeyMasterInfo : Bytes := [109, 97, 115, 116, 101, 114, 45, 105, 110, 102, 111]

/-- The struct `hostinfo` of the source. -/
structure hostinfo where
  Host : String
  Port : Int
deriving DecidableEq, Repr

/-- The struct `pg.ConnectionInfo`. -/
structure ConnectionInfo where
  Host : String
  Port : Int
deriving DecidableEq, Repr

/-- The type `ClusterState int32`. -/
abbrev ClusterState := Int

/-- The constant `Detached ClusterState = iota + 1`. -/
def Detached : ClusterState := 1

/-- The constant `Master`, the second of the `iota + 1` block. -/
def Master : ClusterState := 2

/-- The constant `Replica`, the third of the `iota + 1` block. -/
def Replica : ClusterState := 3

/-- A `context.Context`: the timeouts layered on the top-level context, innermost first.
The top-level context is `[]`. -/
abbrev Ctx := List Duration

/-- The derived context of `context.WithTimeout(ctx, d)`. -/
def WithTimeout (ctx : Ctx) (d : Duration) : Ctx := d :: ctx

/-- The fields of `Sentinel` that hold data.  The collaborators `c` and `storage` are
passed to the methods as `Deps`; `interval` and `logger` do not influence the control
loop, and the lock `mu` has nothing to exclude where operations are atomic.  `errChan`
is the content of the channel of capacity 1, oldest first; `closeOnDone` records that
the goroutine closing `errChan` was started. -/
structure Sentinel where
  hostname : String
  port : Int
  errChan : List GoError
  closeOnDone : Bool
  done : Int
  state : ClusterState
  masterInfo : Option hostinfo
  payload : Bytes
  lastCheck : Nat
  counterCheckSuccess : Int
  counterCheckErrors : Int
deriving DecidableEq, Repr

/-! ## Collaborators -/

/-- The interface `pg.Cluster`, as far as the sentinel uses it. -/
structure Cluster (σ : Type) where
  Alive : σ → (Bool × Option GoError) × σ
  InRecovery : σ → (Bool × Option GoError) × σ
  MasterInfo : σ → (Option ConnectionInfo × Option GoError) × σ
  Stop : σ → Option GoError × σ
  Start : σ → Option GoError × σ
  Promote : σ → Option GoError × σ
  Backup : String → Int → σ → Option GoError × σ

/-- The interface `storage.Storage`.  `DictionaryGet` returns `none` for a `nil` slice. -/
structure Storage (σ : Type) where
  MutexTryLock : Ctx → σ → (Bool × Option GoError) × σ
  MutexUnlock : Ctx → σ → Option GoError × σ
  DictionaryPut : Ctx → Bytes → Bytes → σ → Option GoError × σ
  DictionaryGet : Ctx → Bytes → σ → (Option Bytes × Option GoError) × σ
  DictionaryRemove : Ctx → Bytes → σ → Option GoError × σ

/-- What the sentinel asks of the Go runtime: whether a context is done (the
`select` with a `default` branch), the error of a done context, sleeping, the wall
clock, and the store to `w.state`. -/
structure Runtime (σ : Type) where
  Done : Ctx → σ → Bool × σ
  Err : Ctx → σ → GoError
  Sleep : Duration → σ → σ
  Now : σ → Nat × σ
  StoreState : ClusterState → σ → σ

/-- The package `encoding/gob`, restricted to `hostinfo` values. -/
structure Gob where
  Encode : hostinfo → Except GoError Bytes
  Decode : Bytes → Except GoError hostinfo

/-- Everything a `Sentinel` method reaches through the receiver besides its data. -/
structure Deps (σ : Type) where
  c : Cluster σ
  storage : Storage σ
  rt : Runtime σ
  gob : Gob

/-! ## The sentinel -/

variable {σ : Type}

/-- The function `New`: the struct literal sets `hostname`, `port` and the channel;
every other field keeps the zero value of its type. -/
def New (selfHost : String) (selfPgPort : Int) : Sentinel :=
  { hostname := selfHost, port := selfPgPort, errChan := [], closeOnDone := false,
    done := 0, state := 0, masterInfo := none, payload := [], lastCheck := 0,
    counterCheckSuccess := 0, counterCheckErrors := 0 }

/-- The method `State`. -/
def State (s : Sentinel) : ClusterState := s.state

/-- The assignment `w.state = v`. -/
def setState (d : Deps σ) (v : ClusterState) (s : Sentinel) (w : σ) : Sentinel × σ :=
  ({ s with state := v }, d.rt.StoreState v w)

/-- The error of `getMaster` when its context is done. -/
def errMasterInfoTimeout : GoError := "master info is not available within: 1m0s"

/-- The error of `awaitMaster` when its context is done. -/
def errMasterNotReachable : GoError := "master is not reachable within: 1m0s"

/-- The error of `checkDetached` when it wins the mutex. -/
def errInconsistentState : GoError := "inconsistent state"

/-- The `for` loop of `getMaster`, under the derived context `ctx`.  The Go method
returns `(*hostinfo, error)` with exactly one of the two set: `.ok hi` is `(&hi, nil)`,
`.error err` is `(nil, err)`. -/
def getMasterLoop (d : Deps σ) (ctx : Ctx) : Nat → σ → Option (Except GoError hostinfo × σ)
  | 0, _ => none
  | fuel + 1, w =>
    match d.rt.Done ctx w with
    | (true, w) => some (.error errMasterInfoTimeout, w)
    | (false, w) =>
      match d.storage.DictionaryGet ctx dictKeyMasterInfo w with
      | ((_, some err), w) => some (.error err, w)
      | ((some payload, none), w) =>
        match d.gob.Decode payload with
        | .error err => some (.error err, w)
        | .ok hi => some (.ok hi, w)
      | ((none, none), w) => getMasterLoop d ctx fuel (d.rt.Sleep DefaultPgPollDelay w)

/-- The method `getMaster`. -/
def getMaster (d : Deps σ) (ctx : Ctx) (fuel : Nat) (w : σ) :
    Option (Except GoError hostinfo × σ) :=
  getMasterLoop d (WithTimeout ctx DefaultPgAwaitTimeout) fuel w

/-- The condition `w.masterInfo != nil && w.masterInfo.Host == actualMaster.Host &&
w.masterInfo.Port == actualMaster.Port` of `follow`. -/
def sameMaster (masterInfo : Option hostinfo) (actualMaster : hostinfo) : Bool :=
  match masterInfo with
  | none => false
  | some mi => mi.Host == actualMaster.Host && mi.Port == actualMaster.Port

/-- The method `follow`. -/
def follow (d : Deps σ) (ctx : Ctx) (fuel : Nat) (s : Sentinel) (w : σ) :
    Option (Option GoError × Sentinel × σ) :=
  match getMaster d ctx fuel w with
  | none => none
  | some (.error err, w) => some (some err, s, w)
  | some (.ok actualMaster, w) =>
    if sameMaster s.masterInfo actualMaster then
      some (none, s, w)
    else
      match d.c.Stop w with
      | (some err, w) =>
        let (s, w) := setState d Detached s w
        some (some err, s, w)
      | (none, w) =>
        match d.c.Backup actualMaster.Host actualMaster.Port w with
        | (some err, w) =>
          let (s, w) := setState d Detached s w
          some (some err, s, w)
        | (none, w) =>
          match d.c.Start w with
          | (some err, w) =>
            let (s, w) := setState d Detached s w
            some (some err, s, w)
          | (none, w) =>
            some (none,
              { s with masterInfo := some { Host := actualMaster.Host,
                                            Port := actualMaster.Port } }, w)

/-- The labelled `for` loop of `promote`, under the derived context `ctx`: `none` as
error means the loop was left by `break loop`. -/
def promoteWait (d : Deps σ) (ctx : Ctx) : Nat → σ → Option (Option GoError × σ)
  | 0, _ => none
  | fuel + 1, w =>
    match d.rt.Done ctx w with
    | (true, w) => some (some (d.rt.Err ctx w), w)
    | (false, w) =>
      match d.c.InRecovery w with
      | ((false, none), w) => some (none, d.rt.Sleep DefaultPgPollDelay w)
      | (_, w) => promoteWait d ctx fuel w

/-- The method `promote`. -/
def promote (d : Deps σ) (ctx : Ctx) (fuel : Nat) (s : Sentinel) (w : σ) :
    Option (Option GoError × Sentinel × σ) :=
  match d.storage.DictionaryRemove ctx dictKeyMasterInfo w with
  | (some err, w) => some (some err, s, w)
  | (none, w) =>
    match d.c.Promote w with
    | (some err, w) =>
      let (_, w) := d.storage.MutexUnlock ctx w
      some (some err, s, w)
    | (none, w) =>
      let ctx := WithTimeout ctx DefaultPgAwaitTimeout
      match promoteWait d ctx fuel w with
      | none => none
      | some (some err, w) => some (some err, s, w)
      | some (none, w) =>
        let (s, w) := setState d Master s w
        match d.storage.DictionaryPut ctx dictKeyMasterInfo s.payload w with
        | (some err, w) => some (some err, s, w)
        | (none, w) => some (none, s, w)

/-- The method `checkMaster`.  Its named result `err` is assigned by the probe and
then by `MutexUnlock`, so the value returned on the unlock path is the unlock's. -/
def checkMaster (d : Deps σ) (ctx : Ctx) (s : Sentinel) (w : σ) :
    Option GoError × Sentinel × σ :=
  match d.c.Alive w with
  | ((true, none), w) => (none, s, w)
  | (_, w) =>
    match d.storage.MutexUnlock ctx w with
    | (some err, w) =>
      let (s, w) := setState d Detached s w
      (some err, s, w)
    | (none, w) => (none, s, w)

/-- The method `checkReplica`. -/
def checkReplica (d : Deps σ) (ctx : Ctx) (fuel : Nat) (s : Sentinel) (w : σ) :
    Option (Option GoError × Sentinel × σ) :=
  let (_, w) := d.c.Alive w
  match d.storage.MutexTryLock ctx w with
  | ((_, some err), w) => some (some err, s, w)
  | ((true, none), w) => promote d ctx fuel s w
  | ((false, none), w) => follow d ctx fuel s w

/-- The method `checkDetached`.  The early `return` after the probe returns the named
result `err`, which holds the probe's error (`nil` when the probe answered `false`). -/
def checkDetached (d : Deps σ) (ctx : Ctx) (fuel : Nat) (s : Sentinel) (w : σ) :
    Option (Option GoError × Sentinel × σ) :=
  match d.c.Alive w with
  | ((_, some err), w) => some (some err, s, w)
  | ((false, none), w) => some (none, s, w)
  | ((true, none), w) =>
    match d.storage.MutexTryLock ctx w with
    | ((_, some err), w) => some (some err, s, w)
    | ((true, none), w) => some (some errInconsistentState, s, w)
    | ((false, none), w) =>
      match follow d ctx fuel s w with
      | none => none
      | some (some err, s, w) => some (some err, s, w)
      | some (none, s, w) =>
        let (s, w) := setState d Replica s w
        some (none, s, w)

/-- The method `setErr`: a send on the channel of capacity 1 that is dropped when the
channel is full. -/
def setErr (s : Sentinel) (err : GoError) : Sentinel :=
  { s with errChan := if s.errChan.length < 1 then s.errChan ++ [err] else s.errChan }

/-- The `switch w.state` of `check`. -/
def checkBody (d : Deps σ) (ctx : Ctx) (fuel : Nat) (s : Sentinel) (w : σ) :
    Option (Option GoError × Sentinel × σ) :=
  if s.state = Master then some (checkMaster d ctx s w)
  else if s.state = Replica then checkReplica d ctx fuel s w
  else checkDetached d ctx fuel s w

/-- The method `check`: the compare-and-swap on `done`, the `switch`, then the deferred
calls in reverse order (counters and `lastCheck`, the unlock of `mu`, `done = 0`). -/
def check (d : Deps σ) (ctx : Ctx) (fuel : Nat) (s : Sentinel) (w : σ) :
    Option (Sentinel × σ) :=
  if s.done ≠ 0 then some (s, w)
  else
    let s := { s with done := 1 }
    match checkBody d ctx fuel s w with
    | none => none
    | some (err, s, w) =>
      let s := match err with
        | some e => setErr { s with counterCheckErrors := s.counterCheckErrors + 1 } e
        | none => { s with counterCheckSuccess := s.counterCheckSuccess + 1 }
      let (now, w) := d.rt.Now w
      let s := { s with lastCheck := now }
      some ({ s with done := 0 }, w)

/-- The method `Reset`. -/
def Reset (s : Sentinel) : Sentinel :=
  { s with counterCheckSuccess := 0, counterCheckErrors := 0 }

/-- The method `prepareMaster`. -/
def prepareMaster (d : Deps σ) (ctx : Ctx) (fuel : Nat) (s : Sentinel) (w : σ) :
    Option (Option GoError × Sentinel × σ) :=
  match d.storage.MutexTryLock ctx w with
  | ((_, some err), w) => some (some err, s, w)
  | ((true, none), w) =>
    let (s, w) := setState d Master s w
    match d.storage.DictionaryPut ctx dictKeyMasterInfo s.payload w with
    | (err, w) => some (err, s, w)
  | ((false, none), w) =>
    match getMaster d ctx fuel w with
    | none => none
    | some (.error err, w) => some (some err, s, w)
    | some (.ok hi, w) =>
      match d.c.Stop w with
      | (some err, w) => some (some err, s, w)
      | (none, w) =>
        match d.c.Backup hi.Host hi.Port w with
        | (some err, w) => some (some err, s, w)
        | (none, w) =>
          match d.c.Start w with
          | (some err, w) => some (some err, s, w)
          | (none, w) =>
            let (s, w) := setState d Replica s w
            some (none, s, w)

/-- The `for` loop of `awaitMaster`, under the derived context `ctx`. -/
def awaitMasterLoop (d : Deps σ) (ctx : Ctx) :
    Nat → Sentinel → σ → Option (Option GoError × Sentinel × σ)
  | 0, _, _ => none
  | fuel + 1, s, w =>
    match d.rt.Done ctx w with
    | (true, w) => some (some errMasterNotReachable, s, w)
    | (false, w) =>
      match d.c.MasterInfo w with
      | ((_, some err), w) => some (some err, s, w)
      | ((some masterInfo, none), w) =>
        let (s, w) := setState d Replica s w
        some (none,
          { s with masterInfo := some { Host := masterInfo.Host, Port := masterInfo.Port } }, w)
      | ((none, none), w) => awaitMasterLoop d ctx fuel s (d.rt.Sleep DefaultPgPollDelay w)

/-- The method `awaitMaster`. -/
def awaitMaster (d : Deps σ) (ctx : Ctx) (fuel : Nat) (s : Sentinel) (w : σ) :
    Option (Option GoError × Sentinel × σ) :=
  awaitMasterLoop d (WithTimeout ctx DefaultPgAwaitTimeout) fuel s w

/-- The method `Prepare`. -/
def Prepare (d : Deps σ) (ctx : Ctx) (fuel : Nat) (s : Sentinel) (w : σ) :
    Option (Option GoError × Sentinel × σ) :=
  match d.gob.Encode { Host := s.hostname, Port := s.port } with
  | .error err => some (some err, s, w)
  | .ok buf =>
    let s := { s with payload := buf }
    match d.c.InRecovery w with
    | ((_, some err), w) => some (some err, s, w)
    | ((inRecovery, none), w) =>
      match (if !inRecovery then prepareMaster d ctx fuel s w
             else awaitMaster d ctx fuel s w) with
      | none => none
      | some (some err, s, w) => some (some err, s, w)
      | some (none, s, w) => some (none, { s with closeOnDone := true }, w)

/-- The two operations of an agent that the control loop is made of. -/
inductive Op
  | prepare
  | tick
deriving DecidableEq, Repr

/-- One operation of an agent: `Prepare`, whose error goes to the caller, or one tick. -/
def run (d : Deps σ) (ctx : Ctx) (fuel : Nat) : Op → Sentinel → σ → Option (Sentinel × σ)
  | .prepare, s, w => (Prepare d ctx fuel s w).map (fun r => (r.2.1, r.2.2))
  | .tick, s, w => check d ctx fuel s w

/-! ## A scripted environment

The counterpart of the `gomock` collaborators of `sentinel_test.go`: every interaction
of the agent with its environment is appended, with its result, to a trace, and the
`n`-th interaction of a kind is answered by the `n`-th entry of the script of that kind. -/

/-- The kinds of interaction. -/
inductive Kind
  | Alive | InRecovery | MasterInfo | Stop | Start | Promote | Backup
  | MutexTryLock | MutexUnlock | DictionaryPut | DictionaryGet | DictionaryRemove
  | Done | Sleep | Now | StoreState
deriving DecidableEq, Repr

/-- One interaction, with its arguments and its result. -/
inductive Event
  | Alive (r : Bool) (err : Option GoError)
  | InRecovery (r : Bool) (err : Option GoError)
  | MasterInfo (r : Option ConnectionInfo) (err : Option GoError)
  | Stop (err : Option GoError)
  | Start (err : Option GoError)
  | Promote (err : Option GoError)
  | Backup (host : String) (port : Int) (err : Option GoError)
  | MutexTryLock (locked : Bool) (err : Option GoError)
  | MutexUnlock (err : Option GoError)
  | DictionaryPut (k v : Bytes) (err : Option GoError)
  | DictionaryGet (k : Bytes) (v : Option Bytes) (err : Option GoError)
  | DictionaryRemove (k : Bytes) (err : Option GoError)
  | Done (ctx : Ctx) (r : Bool)
  | Sleep (d : Duration)
  | Now (t : Nat)
  | StoreState (v : ClusterState)
deriving DecidableEq, Repr

/-- The kind of an event. -/
def Event.kind : Event → Kind
  | .Alive _ _ => .Alive
  | .InRecovery _ _ => .InRecovery
  | .MasterInfo _ _ => .MasterInfo
  | .Stop _ => .Stop
  | .Start _ => .Start
  | .Promote _ => .Promote
  | .Backup _ _ _ => .Backup
  | .MutexTryLock _ _ => .MutexTryLock
  | .MutexUnlock _ => .MutexUnlock
  | .DictionaryPut _ _ _ => .DictionaryPut
  | .DictionaryGet _ _ _ => .DictionaryGet
  | .DictionaryRemove _ _ => .DictionaryRemove
  | .Done _ _ => .Done
  | .Sleep _ => .Sleep
  | .Now _ => .Now
  | .StoreState _ => .StoreState

/-- The trace of the interactions so far, oldest first. -/
abbrev Trace := List Event

/-- How many interactions of kind `k` the trace holds. -/
def seen (k : Kind) (t : Trace) : Nat := t.countP (fun e => e.kind == k)

/-- The programmed answers: for each kind, the answer to its `n`-th occurrence. -/
structure Script where
  Alive : Nat → Bool × Option GoError
  InRecovery : Nat → Bool × Option GoError
  MasterInfo : Nat → Option ConnectionInfo × Option GoError
  Stop : Nat → Option GoError
  Start : Nat → Option GoError
  Promote : Nat → Option GoError
  Backup : Nat → Option GoError
  MutexTryLock : Nat → Bool × Option GoError
  MutexUnlock : Nat → Option GoError
  DictionaryPut : Nat → Option GoError
  DictionaryGet : Nat → Option Bytes × Option GoError
  DictionaryRemove : Nat → Option GoError
  Done : Nat → Bool
  CtxErr : Nat → GoError
  Now : Nat → Nat
  gob : Gob

/-- The scripted `pg.Cluster`. -/
def mockCluster (env : Script) : Cluster Trace where
  Alive := fun t =>
    let a := env.Alive (seen .Alive t)
    (a, t ++ [.Alive a.1 a.2])
  InRecovery := fun t =>
    let a := env.InRecovery (seen .InRecovery t)
    (a, t ++ [.InRecovery a.1 a.2])
  MasterInfo := fun t =>
    let a := env.MasterInfo (seen .MasterInfo t)
    (a, t ++ [.MasterInfo a.1 a.2])
  Stop := fun t =>
    let a := env.Stop (seen .Stop t)
    (a, t ++ [.Stop a])
  Start := fun t =>
    let a := env.Start (seen .Start t)
    (a, t ++ [.Start a])
  Promote := fun t =>
    let a := env.Promote (seen .Promote t)
    (a, t ++ [.Promote a])
  Backup := fun host port t =>
    let a := env.Backup (seen .Backup t)
    (a, t ++ [.Backup host port a])

/-- The scripted `storage.Storage`. -/
def mockStorage (env : Script) : Storage Trace where
  MutexTryLock := fun _ t =>
    let a := env.MutexTryLock (seen .MutexTryLock t)
    (a, t ++ [.MutexTryLock a.1 a.2])
  MutexUnlock := fun _ t =>
    let a := env.MutexUnlock (seen .MutexUnlock t)
    (a, t ++ [.MutexUnlock a])
  DictionaryPut := fun _ k v t =>
    let a := env.DictionaryPut (seen .DictionaryPut t)
    (a, t ++ [.DictionaryPut k v a])
  DictionaryGet := fun _ k t =>
    let a := env.DictionaryGet (seen .DictionaryGet t)
    (a, t ++ [.DictionaryGet k a.1 a.2])
  DictionaryRemove := fun _ k t =>
    let a := env.DictionaryRemove (seen .DictionaryRemove t)
    (a, t ++ [.DictionaryRemove k a])

/-- The scripted runtime. -/
def mockRuntime (env : Script) : Runtime Trace where
  Done := fun ctx t =>
    let a := env.Done (seen .Done t)
    (a, t ++ [.Done ctx a])
  Err := fun _ t => env.CtxErr (seen .Done t)
  Sleep := fun d t => t ++ [.Sleep d]
  Now := fun t =>
    let a := env.Now (seen .Now t)
    (a, t ++ [.Now a])
  StoreState := fun v t => t ++ [.StoreState v]

/-- The collaborators of a sentinel that runs against the script `env`. -/
def mockDeps (env : Script) : Deps Trace :=
  { c := mockCluster env, storage := mockStorage env, rt := mockRuntime env, gob := env.gob }

/-- A codec for the examples: the sign of the port, its magnitude, then the code points
of the host. -/
def sampleGob : Gob where
  Encode := fun hi =>
    .ok ((if hi.Port < 0 then 1 else 0) :: hi.Port.natAbs :: hi.Host.toList.map Char.toNat)
  Decode := fun b =>
    match b with
    | sign :: p :: h =>
      .ok { Host := String.mk (h.map Char.ofNat),
            Port := if sign = 0 then (p : Int) else -(p : Int) }
    | _ => .error "unexpected EOF"

/-- A script in which every probe and every call succeeds and the mutex is free. -/
def calmScript : Script where
  Alive := fun _ => (true, none)
  InRecovery := fun _ => (false, none)
  MasterInfo := fun _ => (some { Host := "m", Port := 5432 }, none)
  Stop := fun _ => none
  Start := fun _ => none
  Promote := fun _ => none
  Backup := fun _ => none
  MutexTryLock := fun _ => (true, none)
  MutexUnlock := fun _ => none
  DictionaryPut := fun _ => none
  DictionaryGet := fun _ => (none, none)
  DictionaryRemove := fun _ => none
  Done := fun _ => false
  CtxErr := fun _ => "context deadline exceeded"
  Now := fun n => n
  gob := sampleGob

/-- The trace `es` repeated `n` times. -/
def repeatTrace (es : Trace) : Nat → Trace
  | 0 => []
  | n + 1 => es ++ repeatTrace es n

/-- The trace of `k` polls of the recovery status, none of which ends the wait of
`promote`; `i` is the index of the first `InRecovery` answer. -/
def recoveryPolls (env : Script) (ctx : Ctx) : Nat → Nat → Trace
  | _, 0 => []
  | i, k + 1 =>
    [.Done ctx false, .InRecovery (env.InRecovery i).1 (env.InRecovery i).2]
      ++ recoveryPolls env ctx (i + 1) k

/-- The payload of `{"other", 5432}` under `sampleGob`. -/
def otherPayload : Bytes := [0, 5432, 111, 116, 104, 101, 114]

/-- A script for a former master that restarts while another node holds the mutex:
the instance is not in recovery, the mutex is taken, and `master-info` names
`{"other", 5432}`. -/
def demotedScript : Script :=
  { calmScript with
    MutexTryLock := fun _ => (false, none)
    DictionaryGet := fun _ => (some otherPayload, none) }

/-- A script for a replica that streams from `{"m", 5432}` once two polls of
`MasterInfo` have returned `nil`, and that later finds the mutex free. -/
def replicaScript : Script :=
  { calmScript with
    InRecovery := fun n => (n < 3, none)
    MasterInfo := fun n => if n < 2 then (none, none) else (some { Host := "m", Port := 5432 }, none) }

/-- A script for a replica that wins the mutex and whose promotion fails. -/
def failedPromotionScript : Script :=
  { calmScript with Promote := fun _ => some "promotion timeout" }

/-- A script for a master whose instance is down and whose unlock fails. -/
def deadMasterScript : Script :=
  { calmScript with
    Alive := fun _ => (false, none)
    MutexUnlock := fun _ => some "unlock failed" }

/-- The sentinel that `Prepare` leaves under `demotedScript`. -/
def demotedReplica : Sentinel :=
  { New "localhost" 5432 with
    payload := [0, 5432, 108, 111, 99, 97, 108, 104, 111, 115, 116],
    state := Replica, closeOnDone := true }

/-- The trace that `Prepare` leaves under `demotedScript`. -/
def demotedTrace : Trace :=
  [.InRecovery false none, .MutexTryLock false none, .Done [DefaultPgAwaitTimeout] false,
   .DictionaryGet dictKeyMasterInfo (some otherPayload) none,
   .Stop none, .Backup "other" 5432 none, .Start none, .StoreState Replica]

/-- A replica of `{"m", 5432}` as `Prepare` leaves it. -/
def streamingReplica : Sentinel :=
  { New "localhost" 5432 with
    payload := [0, 5432, 108, 111, 99, 97, 108, 104, 111, 115, 116],
    state := Replica, masterInfo := some { Host := "m", Port := 5432 }, closeOnDone := true }

/-- A master as `Prepare` leaves it. -/
def bootstrappedMaster : Sentinel :=
  { New "localhost" 5432 with
    payload := [0, 5432, 108, 111, 99, 97, 108, 104, 111, 115, 116],
    state := Master, closeOnDone := true }

/-- Scans the interactions of one operation.  `held` tells whether a `MutexTryLock` of
the operation has answered `(true, nil)` with no `MutexUnlock` since; the result is
`false` when `Master` is stored while `held` is `false`. -/
def masterStoresGuarded : Bool → Trace → Bool
  | _, [] => true
  | _, .MutexTryLock true none :: t => masterStoresGuarded true t
  | _, .MutexUnlock _ :: t => masterStoresGuarded false t
  | held, .StoreState v :: t => (decide (v ≠ Master) || held) && masterStoresGuarded held t
  | held, _ :: t => masterStoresGuarded held t

/-- Whether every `DictionaryPut` of the trace writes `payload` under `"master-info"`. -/
def putsOnly (payload : Bytes) : Trace → Bool
  | [] => true
  | .DictionaryPut k v _ :: t =>
    decide (k = dictKeyMasterInfo) && decide (v = payload) && putsOnly payload t
  | _ :: t => putsOnly payload t

/-- The state after the stores of the trace, `st` being the state before. -/
def lastStore : Trace → ClusterState → ClusterState
  | [], st => st
  | .StoreState v :: t, _ => lastStore t v
  | _ :: t, st => lastStore t st

/-- An interaction that neither touches the mutex, nor stores `Master`, nor writes to the
dictionary. -/
def Event.harmless : Event → Bool
  | .MutexTryLock _ _ => false
  | .MutexUnlock _ => false
  | .DictionaryPut _ _ _ => false
  | .StoreState v => decide (v ≠ Master)
  | _ => true

/-- An interaction that is harmless and stores no state. -/
def Event.quiet : Event → Bool
  | .StoreState _ => false
  | e => e.harmless

/-- Every event of the trace is harmless. -/
def Harmless (new : Trace) : Prop := ∀ e ∈ new, e.harmless = true

/-- Every event of the trace is quiet. -/
def Quiet (new : Trace) : Prop := ∀ e ∈ new, e.quiet = true

/-- The two requirements on the interactions `new` of one operation of an agent whose
payload is `payload`: `Master` is stored only while the mutex is held, and every
`DictionaryPut` writes `payload` under `"master-info"`. -/
def Safe (payload : Bytes) (held : Bool) (new : Trace) : Prop :=
  masterStoresGuarded held new = true ∧ putsOnly payload new = true

/-- The trace of the tick in which `streamingReplica` promotes itself under
`replicaScript`. -/
def promotedTrace : Trace :=
  [.Alive true none, .MutexTryLock true none,
   .DictionaryRemove dictKeyMasterInfo none, .Promote none,
   .Done [DefaultPgAwaitTimeout] false, .InRecovery true none,
   .Done [DefaultPgAwaitTimeout] false, .InRecovery true none,
   .Done [DefaultPgAwaitTimeout] false, .InRecovery true none,
   .Done [DefaultPgAwaitTimeout] false, .InRecovery false none,
   .Sleep DefaultPgPollDelay, .StoreState Master,
   .DictionaryPut dictKeyMasterInfo [0, 5432, 108, 111, 99, 97, 108, 104, 111, 115, 116] none,
   .Now 0]

/-! ## A fleet of agents on one coordination service

The agents are numbered.  Each runs the code above against a script of its own; the
scripts are tied together by the coordination service, which accepts a trace only when its
Storage answers are ones the service can give in its current state, and which the
accepted trace moves to a new state.  An operation (`Prepare` or one tick) is atomic:
the operations of different agents interleave in any order.  Between two operations the
service may end the hold of the mutex on its own: the lease of the holder expires when
its session is lost. -/

/-- The coordination service: the session that holds the mutex `"pg"`, the dictionary,
and, as a record of the history, the agents whose last successful mutex operation was an
unlock and the agents whose hold of the mutex was ended by the expiry of their lease and
who have not won the mutex since. -/
structure Shared where
  holder : Option Nat
  dict : List (Bytes × Bytes)
  released : List Nat
  expired : List Nat
deriving DecidableEq, Repr

/-- Whether the service can give agent `i` the answer recorded in the event: the mutex is
granted only when it is free or already held by `i`, and a successful read returns what
the dictionary holds.  A lock attempt may always time out and any operation may fail. -/
def Shared.allows (i : Nat) (sh : Shared) : Event → Bool
  | .MutexTryLock true none => decide (sh.holder = none ∨ sh.holder = some i)
  | .DictionaryGet k v none => decide (v = sh.dict.lookup k)
  | _ => true

/-- The state of the service after the event of agent `i`.  Operations that answered an
error leave the state as it was. -/
def Shared.apply (i : Nat) (sh : Shared) : Event → Shared
  | .MutexTryLock true none =>
    { sh with holder := some i, released := sh.released.filter (fun j => j ≠ i),
              expired := sh.expired.filter (fun j => j ≠ i) }
  | .MutexUnlock none =>
    { sh with holder := if sh.holder = some i then none else sh.holder,
              released := i :: sh.released }
  | .DictionaryPut k v none => { sh with dict := (k, v) :: sh.dict.filter (fun kv => kv.1 ≠ k) }
  | .DictionaryRemove k none => { sh with dict := sh.dict.filter (fun kv => kv.1 ≠ k) }
  | _ => sh

/-- The lease of the holder expires (its session is lost, or its keep-alives stop): the
mutex becomes free.  The agent that held it is not told. -/
def Shared.expire (sh : Shared) : Shared :=
  match sh.holder with
  | none => sh
  | some i => { sh with holder := none, expired := i :: sh.expired }

/-- Plays the trace of one operation of agent `i` against the service: `none` when the
service cannot give one of the recorded answers. -/
def Shared.replay (i : Nat) : Shared → Trace → Option Shared
  | sh, [] => some sh
  | sh, e :: t => if sh.allows i e then Shared.replay i (sh.apply i e) t else none

/-- The fleet: its size, the agents, those whose `Prepare` has been called, and the
coordination service. -/
structure System where
  size : Nat
  agents : Nat → Sentinel
  started : List Nat
  shared : Shared

/-- The fleet at process start: every agent is freshly constructed, the mutex is free
and the dictionary is empty. -/
def System.init (size : Nat) (host : Nat → String) (port : Nat → Int) : System :=
  { size := size, agents := fun i => New (host i) (port i), started := [],
    shared := { holder := none, dict := [], released := [], expired := [] } }

/-- Whether agent `i` may perform `op`: `Prepare` is called once, and the ticks start
after `Prepare` has returned `nil`. -/
def System.enabled (g : System) (i : Nat) : Op → Bool
  | .prepare => decide (i < g.size) && decide (i ∉ g.started)
  | .tick => decide (i < g.size) && (g.agents i).closeOnDone

/-- One atomic operation of agent `i` under the script `env`: `none` when the operation
is not enabled, the fuel runs out, or the service does not accept the trace. -/
def System.step (g : System) (i : Nat) (op : Op) (env : Script) (ctx : Ctx) (fuel : Nat) :
    Option System :=
  if g.enabled i op then
    match run (mockDeps env) ctx fuel op (g.agents i) [] with
    | none => none
    | some (s', new) =>
      match g.shared.replay i new with
      | none => none
      | some sh' =>
        some { g with agents := Function.update g.agents i s',
                      started := if op = .prepare then i :: g.started else g.started,
                      shared := sh' }
  else none

/-- The fleet after the lease of the holder of the mutex has expired. -/
def System.expire (g : System) : System := { g with shared := g.shared.expire }

/-- The states the fleet can reach: by the operations of the agents and by the expiry of
the lease of whoever holds the mutex. -/
inductive Reachable : System → Prop
  | init (size : Nat) (host : Nat → String) (port : Nat → Int) :
      Reachable (System.init size host port)
  | step {g g' : System} (i : Nat) (op : Op) (env : Script) (ctx : Ctx) (fuel : Nat) :
      Reachable g → g.step i op env ctx fuel = some g' → Reachable g'
  | expire {g : System} : Reachable g → Reachable g.expire

/-- A schedule: who performs which operation under which script, with how much fuel. -/
abbrev Schedule := List (Nat × Op × Script × Nat)

/-- Runs a schedule, every operation under the top-level context. -/
def System.runSchedule : System → Schedule → Option System
  | g, [] => some g
  | g, (i, op, env, fuel) :: rest =>
    match g.step i op env [] fuel with
    | none => none
    | some g' => System.runSchedule g' rest

/-- A script for a master whose instance is down and whose unlock succeeds. -/
def cedingMasterScript : Script :=
  { calmScript with Alive := fun _ => (false, none) }

/-- The schedule of a failover in a fleet of two: agent 0 starts as master, agent 1 as a
replica; the instance of agent 0 goes down and its tick releases the mutex; the tick of
agent 1 wins the mutex and promotes. -/
def failoverSchedule : Schedule :=
  [(0, .prepare, calmScript, 0),
   (1, .prepare, replicaScript, 3),
   (0, .tick, cedingMasterScript, 0),
   (1, .tick, calmScript, 1)]

/-- The fleet of two before the failover. -/
def fleetOfTwo : System :=
  System.init 2 (fun i => if i = 0 then "a" else "b") (fun _ => 5432)

/-- The fleet of two after the failover. -/
def failedOver : System :=
  (fleetOfTwo.runSchedule failoverSchedule).getD fleetOfTwo

/-- The start of a fleet of two: agent 0 becomes the master, agent 1 a replica. -/
def startupSchedule : Schedule :=
  [(0, .prepare, calmScript, 0),
   (1, .prepare, replicaScript, 3)]

/-- The tick in which agent 1 wins the mutex and promotes. -/
def takeoverSchedule : Schedule :=
  [(1, .tick, calmScript, 1)]

/-- The fleet of two after a takeover without a release: agent 0 starts as master and
agent 1 as a replica; the lease of agent 0 expires while agent 0 performs no operation;
the tick of agent 1 wins the mutex and promotes. -/
def lapsedOver : System :=
  (((fleetOfTwo.runSchedule startupSchedule).map System.expire).bind
    (fun g => g.runSchedule takeoverSchedule)).getD fleetOfTwo

/-- The payload of `{"m", 5432}` under `sampleGob`. -/
def mPayload : Bytes := [0, 5432, 109]

/-- A script for a replica of `{"m", 5432}` that finds the mutex taken and `master-info`
still naming `{"m", 5432}`. -/
def followerScript : Script :=
  { calmScript with
    MutexTryLock := fun _ => (false, none)
    DictionaryGet := fun _ => (some mPayload, none) }

/-- A script for a replica whose master changed to `{"other", 5432}` and whose base
backup fails. -/
def failedBackupScript : Script :=
  { demotedScript with Backup := fun _ => some "pg_basebackup failed" }

/-- A script in which `master-info` is absent for two polls and then names
`{"other", 5432}`. -/
def slowDictionaryScript : Script :=
  { calmScript with
    DictionaryGet := fun n => if n < 2 then (none, none) else (some otherPayload, none) }

/-- A detached agent that followed `{"m", 5432}` before. -/
def detachedAgent : Sentinel :=
  { streamingReplica with state := Detached }

/-! ## The storage back-ends -/

/-- Timeout of one etcd operation: `2000 * time.Millisecond`. -/
def DefaultEtcdOpTimeout : Duration := 2 * Second

/-- The error `context.DeadlineExceeded`, as its message. -/
def contextDeadlineExceeded : GoError := "context deadline exceeded"

/-- The methods of `concurrency.Mutex` of the etcd client that the back-end calls. -/
structure ConcurrencyMutex (σ : Type) where
  Lock : Ctx → σ → Option GoError × σ
  Unlock : Ctx → σ → Option GoError × σ

/-- The field `m` of `etcdStorage`. -/
structure etcdStorage (σ : Type) where
  m : ConcurrencyMutex σ

/-- The method `MutexTryLock` of `etcdStorage`; `errorsIs` is `errors.Is`. -/
def etcdStorage.MutexTryLock (errorsIs : GoError → GoError → Bool) (s : etcdStorage σ)
    (ctx : Ctx) (w : σ) : (Bool × Option GoError) × σ :=
  let ctx := WithTimeout ctx DefaultEtcdOpTimeout
  match s.m.Lock ctx w with
  | (some err, w) =>
    if errorsIs err contextDeadlineExceeded then ((false, none), w)
    else ((false, some err), w)
  | (none, w) => ((true, none), w)

/-- The methods of `stoa.Mutex` that the back-end calls; the second result is the
payload of the mutex. -/
structure StoaMutex (σ : Type) where
  TryLock : Ctx → Option Bytes → σ → (Bool × Option Bytes × Option GoError) × σ
  Unlock : Ctx → σ → (Bool × Option Bytes × Option GoError) × σ

/-- The field `m` of `stoaStorage`. -/
structure stoaStorage (σ : Type) where
  m : StoaMutex σ

/-- The method `MutexTryLock` of `stoaStorage`: the named results `locked` and `err`
are those of `s.m.TryLock(ctx, nil)`. -/
def stoaStorage.MutexTryLock (s : stoaStorage σ) (ctx : Ctx) (w : σ) :
    (Bool × Option GoError) × σ :=
  match s.m.TryLock ctx none w with
  | ((locked, _, err), w) => ((locked, err), w)

/-- An etcd mutex whose `Lock` ends with the deadline of its context. -/
def busyEtcd : etcdStorage Unit :=
  { m := { Lock := fun _ w => (some contextDeadlineExceeded, w)
           Unlock := fun _ w => (none, w) } }

/-- A stoa mutex whose `TryLock` ends with the deadline of its context. -/
def timedOutStoa : stoaStorage Unit :=
  { m := { TryLock := fun _ _ w => ((false, none, some contextDeadlineExceeded), w)
           Unlock := fun _ w => ((false, none, none), w) } }

/-! ## Runs that differ in the liveness probe -/

/-- The script `env` with the answers of `Alive` replaced by `alive`. -/
def withAlive (env : Script) (alive : Nat → Bool × Option GoError) : Script :=
  { env with Alive := alive }

/-- The trace without the events of the liveness probe. -/
def eraseAlive (t : Trace) : Trace := t.filter (fun e => e.kind != .Alive)

/-- The collaborators `a`, over worlds `τ`, answer at the image `φ w` what `d` answers
at `w` and move to the image of the world that `d` moves to.  This is asked of every
operation but the probe `Alive`, of which it is asked that a call on `d` is invisible
through `φ`. -/
structure Mirrors {σ τ : Type} (φ : σ → τ) (d : Deps σ) (a : Deps τ) : Prop where
  Alive : ∀ w, φ (d.c.Alive w).2 = φ w
  InRecovery : ∀ w, a.c.InRecovery (φ w) = ((d.c.InRecovery w).1, φ (d.c.InRecovery w).2)
  Stop : ∀ w, a.c.Stop (φ w) = ((d.c.Stop w).1, φ (d.c.Stop w).2)
  Start : ∀ w, a.c.Start (φ w) = ((d.c.Start w).1, φ (d.c.Start w).2)
  Promote : ∀ w, a.c.Promote (φ w) = ((d.c.Promote w).1, φ (d.c.Promote w).2)
  Backup : ∀ host port w,
    a.c.Backup host port (φ w) = ((d.c.Backup host port w).1, φ (d.c.Backup host port w).2)
  MutexTryLock : ∀ ctx w,
    a.storage.MutexTryLock ctx (φ w)
      = ((d.storage.MutexTryLock ctx w).1, φ (d.storage.MutexTryLock ctx w).2)
  MutexUnlock : ∀ ctx w,
    a.storage.MutexUnlock ctx (φ w)
      = ((d.storage.MutexUnlock ctx w).1, φ (d.storage.MutexUnlock ctx w).2)
  DictionaryPut : ∀ ctx k v w,
    a.storage.DictionaryPut ctx k v (φ w)
      = ((d.storage.DictionaryPut ctx k v w).1, φ (d.storage.DictionaryPut ctx k v w).2)
  DictionaryGet : ∀ ctx k w,
    a.storage.DictionaryGet ctx k (φ w)
      = ((d.storage.DictionaryGet ctx k w).1, φ (d.storage.DictionaryGet ctx k w).2)
  DictionaryRemove : ∀ ctx k w,
    a.storage.DictionaryRemove ctx k (φ w)
      = ((d.storage.DictionaryRemove ctx k w).1, φ (d.storage.DictionaryRemove ctx k w).2)
  Done : ∀ ctx w, a.rt.Done ctx (φ w) = ((d.rt.Done ctx w).1, φ (d.rt.Done ctx w).2)
  Err : ∀ ctx w, a.rt.Err ctx (φ w) = d.rt.Err ctx w
  Sleep : ∀ dur w, a.rt.Sleep dur (φ w) = φ (d.rt.Sleep dur w)
  Now : ∀ w, a.rt.Now (φ w) = ((d.rt.Now w).1, φ (d.rt.Now w).2)
  StoreState : ∀ v w, a.rt.StoreState v (φ w) = φ (d.rt.StoreState v w)
  gob : a.gob = d.gob

/-! ## The encoding of `hostinfo`

The package `encoding/gob` is not part of the sources.  The spec describes the payload
as a length-prefixed, self-describing binary encoding of the struct
`{Host: string, Port: int}`; the definitions of this section give that description a
byte layout: two messages, each preceded by its length, the first describing the type
(its name, and the name and type of each field) and the second holding the value as
(field number, field value) pairs. -/

/-- Modelled from the spec: the bytes of one character of a Go string (UTF-8); strings
are missing from the sources as a type of their own. -/
def utf8EncodeChar (c : Char) : Bytes :=
  let n := c.toNat
  if n < 0x80 then [n]
  else if n < 0x800 then [0xC0 + n / 0x40, 0x80 + n % 0x40]
  else if n < 0x10000 then [0xE0 + n / 0x1000, 0x80 + n / 0x40 % 0x40, 0x80 + n % 0x40]
  else [0xF0 + n / 0x40000, 0x80 + n / 0x1000 % 0x40, 0x80 + n / 0x40 % 0x40,
        0x80 + n % 0x40]

/-- Modelled from the spec: the bytes of a Go string. -/
def stringBytes (s : String) : Bytes := (s.toList.map utf8EncodeChar).flatten

/-- Modelled from the spec: the characters that a sequence of bytes holds, `none` when
the sequence ends within a character. -/
def utf8Decode : Bytes → Option (List Char)
  | [] => some []
  | b0 :: bs =>
    if b0 < 0x80 then (utf8Decode bs).map (fun cs => Char.ofNat b0 :: cs)
    else
      match bs with
      | [] => none
      | b1 :: bs =>
        if b0 < 0xE0 then
          (utf8Decode bs).map
            (fun cs => Char.ofNat ((b0 - 0xC0) * 0x40 + (b1 - 0x80)) :: cs)
        else
          match bs with
          | [] => none
          | b2 :: bs =>
            if b0 < 0xF0 then
              (utf8Decode bs).map
                (fun cs => Char.ofNat ((b0 - 0xE0) * 0x1000 + (b1 - 0x80) * 0x40
                                        + (b2 - 0x80)) :: cs)
            else
              match bs with
              | [] => none
              | b3 :: bs =>
                (utf8Decode bs).map
                  (fun cs => Char.ofNat ((b0 - 0xF0) * 0x40000 + (b1 - 0x80) * 0x1000
                                          + (b2 - 0x80) * 0x40 + (b3 - 0x80)) :: cs)

/-- Modelled from the spec: the Go string that a sequence of bytes holds. -/
def bytesString (bs : Bytes) : Option String := (utf8Decode bs).map String.mk

/-- Modelled from the spec: the value of a big-endian sequence of bytes. -/
def bigEndian (bs : Bytes) : Nat := bs.foldl (fun acc b => acc * 256 + b) 0

/-- Modelled from the spec: the minimal big-endian bytes of an unsigned 64-bit
integer. -/
def uintBytes (n : Nat) : Bytes :=
  ([56, 48, 40, 32, 24, 16, 8, 0].map (fun k => n / 2 ^ k % 256)).dropWhile
    (fun b => b == 0)

/-- Modelled from the spec: an unsigned integer.  Below 128 it is one byte; otherwise
the negated count of its bytes, then the bytes. -/
def encodeUint (n : Nat) : Bytes :=
  if n < 128 then [n] else (256 - (uintBytes n).length) :: uintBytes n

/-- Modelled from the spec: reading an unsigned integer off the front of `bs`. -/
def decodeUint : Bytes → Option (Nat × Bytes)
  | [] => none
  | b :: rest =>
    if b < 128 then some (b, rest)
    else if 8 < 256 - b ∨ rest.length < 256 - b then none
    else some (bigEndian (rest.take (256 - b)), rest.drop (256 - b))

/-- Modelled from the spec: a signed integer, held in an unsigned one whose lowest bit
says whether the rest is complemented. -/
def encodeInt (i : Int) : Bytes :=
  encodeUint (if i < 0 then 2 * (-i - 1).toNat + 1 else 2 * i.toNat)

/-- Modelled from the spec: reading a signed integer off the front of `bs`. -/
def decodeInt (bs : Bytes) : Option (Int × Bytes) :=
  match decodeUint bs with
  | none => none
  | some (u, rest) =>
    some (if u % 2 = 1 then -((u / 2 : Nat) : Int) - 1 else ((u / 2 : Nat) : Int), rest)

/-- Modelled from the spec: a string, the count of its bytes and then the bytes. -/
def encodeString (s : String) : Bytes :=
  encodeUint (stringBytes s).length ++ stringBytes s

/-- Modelled from the spec: reading a string off the front of `bs`. -/
def decodeString (bs : Bytes) : Option (String × Bytes) :=
  match decodeUint bs with
  | none => none
  | some (n, rest) =>
    if rest.length < n then none
    else
      match bytesString (rest.take n) with
      | none => none
      | some s => some (s, rest.drop n)

/-- Modelled from the spec: the number under which the type `hostinfo` is sent. -/
def hostinfoTypeId : Int := 65

/-- Modelled from the spec: the description of the type `hostinfo`, a struct named
`hostinfo` with the fields `Host`, a string (type 6), and `Port`, an int (type 2). -/
def hostinfoDescriptor : Bytes :=
  [3, 1, 1] ++ encodeString "hostinfo" ++ [1] ++ encodeInt hostinfoTypeId ++ [0]
    ++ [1] ++ encodeUint 2
    ++ ([1] ++ encodeString "Host" ++ [1] ++ encodeInt 6 ++ [0])
    ++ ([1] ++ encodeString "Port" ++ [1] ++ encodeInt 2 ++ [0])
    ++ [0, 0]

/-- Modelled from the spec: the fields of a `hostinfo` value as (field number, value)
pairs.  The numbers are sent as differences, starting from -1; a field that holds the
zero value of its type is left out; a zero ends the struct. -/
def encodeFields (hi : hostinfo) : Bytes :=
  (if hi.Host = "" then [] else 1 :: encodeString hi.Host)
    ++ (if hi.Port = 0 then [] else (if hi.Host = "" then 2 else 1) :: encodeInt hi.Port)
    ++ [0]

/-- Modelled from the spec: a message, preceded by its length. -/
def encodeMessage (body : Bytes) : Bytes := encodeUint body.length ++ body

/-- Modelled from the spec: what a fresh `gob.Encoder` writes for `Encode(&hi)`: the
description of the type, then the value. -/
def gobEncode (hi : hostinfo) : Bytes :=
  encodeMessage (encodeInt (-hostinfoTypeId) ++ hostinfoDescriptor)
    ++ encodeMessage (encodeInt hostinfoTypeId ++ encodeFields hi)

/-- Modelled from the spec: reading a message off the front of `bs`. -/
def decodeMessage (bs : Bytes) : Option (Bytes × Bytes) :=
  match decodeUint bs with
  | none => none
  | some (n, rest) => if rest.length < n then none else some (rest.take n, rest.drop n)

/-- Modelled from the spec: reading the end of the struct. -/
def decodeEnd (bs : Bytes) (hi : hostinfo) : Except GoError hostinfo :=
  match decodeUint bs with
  | some (0, _) => .ok hi
  | _ => .error "gob: bad data: field numbers out of bounds"

/-- Modelled from the spec: reading the field `Port` and the end of the struct. -/
def decodePort (bs : Bytes) (host : String) : Except GoError hostinfo :=
  match decodeInt bs with
  | none => .error "unexpected EOF"
  | some (p, rest) => decodeEnd rest { Host := host, Port := p }

/-- Modelled from the spec: reading the fields of a `hostinfo` value; a field that is
left out keeps the zero value. -/
def decodeFields (bs : Bytes) : Except GoError hostinfo :=
  match decodeUint bs with
  | some (0, _) => .ok { Host := "", Port := 0 }
  | some (1, rest) =>
    match decodeString rest with
    | none => .error "unexpected EOF"
    | some (h, rest) =>
      match decodeUint rest with
      | some (0, _) => .ok { Host := h, Port := 0 }
      | some (1, rest) => decodePort rest h
      | _ => .error "gob: bad data: field numbers out of bounds"
  | some (2, rest) => decodePort rest ""
  | _ => .error "gob: bad data: field numbers out of bounds"

/-- Modelled from the spec: what a fresh `gob.Decoder` does for `Decode(&hi)`: it reads
the description of the type, which has to be that of `hostinfo`, then the value. -/
def gobDecode (payload : Bytes) : Except GoError hostinfo :=
  match decodeMessage payload with
  | none => .error "unexpected EOF"
  | some (descr, rest) =>
    if descr ≠ encodeInt (-hostinfoTypeId) ++ hostinfoDescriptor then
      .error "gob: type mismatch"
    else
      match decodeMessage rest with
      | none => .error "unexpected EOF"
      | some (value, _) =>
        match decodeInt value with
        | none => .error "unexpected EOF"
        | some (id, fields) =>
          if id ≠ hostinfoTypeId then .error "gob: type mismatch"
          else decodeFields fields

/-- Modelled from the spec: the package `encoding/gob` for `hostinfo` values. -/
def gobCodec : Gob where
  Encode := fun hi => .ok (gobEncode hi)
  Decode := gobDecode

/-! ## The control loop and the error channel -/

/-- The method `Start`, for `n` firings of the ticker before the context is done: each
firing calls `check`, one after the other. -/
def Start (d : Deps σ) (ctx : Ctx) (fuel : Nat) : Nat → Sentinel → σ → Option (Sentinel × σ)
  | 0, s, w => some (s, w)
  | n + 1, s, w =>
    match check d ctx fuel s w with
    | none => none
    | some (s, w) => Start d ctx fuel n s w

/-- A receive on the channel that `Err` returns, `<-w.Err()`: the oldest value in the
buffer is taken; `none` when the buffer is empty and the receive would block. -/
def recvErr (s : Sentinel) : Option (GoError × Sentinel) :=
  match s.errChan with
  | [] => none
  | e :: rest => some (e, { s with errChan := rest })

/-- A script in which the liveness probe fails, first with one error and from then on
with another. -/
def flakyProbeScript : Script :=
  { calmScript with
    Alive := fun n => (false, some (if n = 0 then "connection refused" else "connection reset")) }

/-- The detached agent after two ticks under `flakyProbeScript`. -/
def twiceFailedAgent : Sentinel :=
  { detachedAgent with
    counterCheckErrors := 2
    lastCheck := 1
    errChan := ["connection refused"] }

/-- The detached agent after one tick under `flakyProbeScript`. -/
def onceFailedAgent : Sentinel :=
  { detachedAgent with
    counterCheckErrors := 1
    errChan := ["connection refused"] }

/-- A script for a replica that wins the mutex and promotes its instance, and whose
`DictionaryPut` then fails. -/
def failedPublishScript : Script :=
  { calmScript with DictionaryPut := fun _ => some "etcdserver: request timed out" }

/-! ## The gauges -/

/-- The method `Collect` of `livenessCollector`, as the value of the gauge that it sends
and the world after the probe.  The `float64` values `0`, `1.0` and `-1.0` of `v` are
written as integers. -/
def livenessCollector.Collect (c : Cluster σ) (w : σ) : Int × σ :=
  let v : Int := 0
  match c.Alive w with
  | ((r, err), w) =>
    let v := if r then 1 else v
    let v := if err.isSome then -1 else v
    (v, w)

/-- The method `Collect` of `inRecoveryCollector`; the deferred send takes `v` as the
method leaves it. -/
def inRecoveryCollector.Collect (c : Cluster σ) (w : σ) : Int × σ :=
  let v : Int := 0
  match c.InRecovery w with
  | ((_, some _), w) => (-1, w)
  | ((r, none), w) => (if r then 1 else v, w)

/-! ## The handlers of the gateway -/

/-- The part of `http.Request` that the handlers read. -/
structure Request where
  Method : String
deriving DecidableEq, Repr

/-- What a handler has written to its `http.ResponseWriter`: the status code, once
`WriteHeader` was called, the header map at that moment, and the body. -/
structure ResponseWriter where
  status : Option Nat
  header : List (String × String)
  body : String
deriving DecidableEq, Repr

/-- A writer to which nothing was written. -/
def ResponseWriter.fresh : ResponseWriter := { status := none, header := [], body := "" }

/-- The method `WriteHeader`; a second call does not change the status. -/
def ResponseWriter.WriteHeader (code : Nat) (rw : ResponseWriter) : ResponseWriter :=
  match rw.status with
  | some _ => rw
  | none => { rw with status := some code }

/-- The method `Write`; it sends the status 200 first when none was sent. -/
def ResponseWriter.Write (b : String) (rw : ResponseWriter) : ResponseWriter :=
  let rw := rw.WriteHeader 200
  { rw with body := rw.body ++ b }

/-- The call `w.Header().Set(k, v)`; it has no effect on the response once the status
was sent. -/
def ResponseWriter.HeaderSet (k v : String) (rw : ResponseWriter) : ResponseWriter :=
  match rw.status with
  | some _ => rw
  | none => { rw with header := rw.header.filter (fun kv => kv.1 != k) ++ [(k, v)] }

/-- The constant `http.MethodGet`. -/
def MethodGet : String := "GET"

/-- The constant `http.MethodPost`. -/
def MethodPost : String := "POST"

/-- The constant `http.StatusOK`. -/
def StatusOK : Nat := 200

/-- The constant `http.StatusMethodNotAllowed`. -/
def StatusMethodNotAllowed : Nat := 405

/-- The constant `http.StatusInternalServerError`. -/
def StatusInternalServerError : Nat := 500

/-- The function `http.StatusText`, for the codes that the handlers use. -/
def StatusText (code : Nat) : String :=
  if code = 200 then "OK"
  else if code = 405 then "Method Not Allowed"
  else if code = 500 then "Internal Server Error"
  else ""

/-- The function `getFunc`; `f` returns the body or an error. -/
def getFunc (f : σ → (String × Option GoError) × σ) (rw : ResponseWriter) (r : Request)
    (w : σ) : ResponseWriter × σ :=
  if r.Method ≠ MethodGet then
    ((rw.WriteHeader StatusMethodNotAllowed).Write (StatusText StatusMethodNotAllowed), w)
  else
    match f w with
    | ((_, some err), w) =>
      ((rw.WriteHeader StatusInternalServerError).Write
        (StatusText StatusInternalServerError ++ ": " ++ err), w)
    | ((b, none), w) =>
      ((((rw.HeaderSet "X-Content-Type-Options" "nosniff").HeaderSet "Content-Type"
            "application/json; charset=utf-8").WriteHeader StatusOK).Write b, w)

/-- The function `postFunc`. -/
def postFunc (f : σ → Option GoError × σ) (rw : ResponseWriter) (r : Request) (w : σ) :
    ResponseWriter × σ :=
  if r.Method ≠ MethodGet then
    ((rw.WriteHeader StatusMethodNotAllowed).Write (StatusText StatusMethodNotAllowed), w)
  else
    match f w with
    | (some err, w) =>
      ((rw.WriteHeader StatusInternalServerError).Write
        (StatusText StatusInternalServerError ++ ": " ++ err), w)
    | (none, w) => (rw.WriteHeader StatusOK, w)

/-- The verb `%v` of `fmt.Sprintf` for a `bool`. -/
def formatBool (b : Bool) : String := if b then "true" else "false"

/-- The decimal digits of a natural number, `fuel` bounding their count. -/
def decimalDigits : Nat → Nat → List Char
  | 0, _ => []
  | fuel + 1, n =>
    (if n < 10 then [] else decimalDigits fuel (n / 10)) ++ [Char.ofNat (48 + n % 10)]

/-- The verb `%d` of `fmt.Sprintf` for an `int`. -/
def formatInt (i : Int) : String :=
  String.mk ((if i < 0 then [Char.ofNat 45] else []) ++ decimalDigits (i.natAbs + 1) i.natAbs)

/-- The function `aliveHandler`. -/
def aliveHandler (c : Cluster σ) : ResponseWriter → Request → σ → ResponseWriter × σ :=
  getFunc (fun w =>
    match c.Alive w with
    | ((_, some err), w) => (("", some err), w)
    | ((alive, none), w) => (("\"\x7b\"alive\":" ++ formatBool alive ++ "\x7d", none), w))

/-- The function `inrecoveryHandler`. -/
def inrecoveryHandler (c : Cluster σ) : ResponseWriter → Request → σ → ResponseWriter × σ :=
  getFunc (fun w =>
    match c.InRecovery w with
    | ((_, some err), w) => (("", some err), w)
    | ((inrecovery, none), w) =>
      (("\"\x7b\"inrecovery\":" ++ formatBool inrecovery ++ "\x7d", none), w))

/-- The function `versionHandler`; the method `Version` of the cluster, which the record
`Cluster` leaves out, is passed as `version`. -/
def versionHandler (version : σ → (Int × Int × Option GoError) × σ) :
    ResponseWriter → Request → σ → ResponseWriter × σ :=
  getFunc (fun w =>
    match version w with
    | ((_, _, some err), w) => (("", some err), w)
    | ((major, minor, none), w) =>
      (("\"\x7b\"major\":" ++ formatInt major ++ ",\"minor\":" ++ formatInt minor ++ "\x7d",
        none), w))

/-- The function `stopHandler`. -/
def stopHandler (c : Cluster σ) : ResponseWriter → Request → σ → ResponseWriter × σ :=
  postFunc c.Stop

/-- The function `startHandler`. -/
def startHandler (c : Cluster σ) : ResponseWriter → Request → σ → ResponseWriter × σ :=
  postFunc c.Start

/-- The function `promoteHandler`. -/
def promoteHandler (c : Cluster σ) : ResponseWriter → Request → σ → ResponseWriter × σ :=
  postFunc c.Promote

/-! ## The version of the server -/

/-- How a call ends: it returns, or it panics with a run-time error. -/
inductive Outcome (α : Type)
  | returned (a : α)
  | panicked (msg : String)
deriving DecidableEq, Repr

/-- The class `\d` of the pattern: an ASCII digit. -/
def isDigit (c : Char) : Bool := 48 ≤ c.toNat && c.toNat ≤ 57

/-- The characters of `cs` after the prefix `pre`, when `cs` starts with it. -/
def afterPrefix : List Char → List Char → Option (List Char)
  | [], cs => some cs
  | _ :: _, [] => none
  | p :: pre, c :: cs => if p = c then afterPrefix pre cs else none

/-- A match of the pattern `PostgreSQL (\d+)\.(\d+).*` that starts at the first character
of `cs`: the two groups. -/
def matchVersionAt (cs : List Char) : Option (List Char × List Char) :=
  match afterPrefix "PostgreSQL ".toList cs with
  | none => none
  | some rest =>
    let major := rest.takeWhile isDigit
    match rest.dropWhile isDigit with
    | [] => none
    | dot :: rest2 =>
      let minor := rest2.takeWhile isDigit
      if dot.toNat = 46 ∧ major ≠ [] ∧ minor ≠ [] then some (major, minor) else none

/-- The first element `m[0]` of `re.FindAllSubmatch([]byte(s), -1)`, when there is one:
the groups of the leftmost match. -/
def firstSubmatch : List Char → Option (List Char × List Char)
  | [] => none
  | c :: cs =>
    match matchVersionAt (c :: cs) with
    | some m => some m
    | none => firstSubmatch cs

/-- The value of a sequence of decimal digits. -/
def digitsValue (ds : List Char) : Nat := ds.foldl (fun acc c => acc * 10 + (c.toNat - 48)) 0

/-- The function `strconv.Atoi` on a sequence of digits with an optional sign. -/
def Atoi (s : List Char) : Int × Option GoError :=
  let neg := s.head?.map Char.toNat = some 45
  let ds := if s.head?.map Char.toNat = some 45 ∨ s.head?.map Char.toNat = some 43 then s.tail
            else s
  if ds = [] ∨ ds.all isDigit = false then
    (0, some ("strconv.Atoi: parsing \"" ++ String.mk s ++ "\": invalid syntax"))
  else if neg then
    if 9223372036854775808 < digitsValue ds then
      (-9223372036854775808,
        some ("strconv.Atoi: parsing \"" ++ String.mk s ++ "\": value out of range"))
    else (-(digitsValue ds : Int), none)
  else if 9223372036854775807 < digitsValue ds then
    (9223372036854775807,
      some ("strconv.Atoi: parsing \"" ++ String.mk s ++ "\": value out of range"))
  else ((digitsValue ds : Int), none)

/-- What the method `Version` reaches through the connection pool. -/
structure Pool (σ : Type) where
  poolGetOrConnect : σ → Option GoError × σ
  poolDrop : σ → σ
  Acquire : σ → Option GoError × σ
  Release : σ → σ
  QueryRowScan : String → σ → (String × Option GoError) × σ

/-- The method `Version` of `cluster`.  The index expression `m[0]` panics when the
slice of matches is empty; the deferred `conn.Release()` runs in either case. -/
def cluster.Version (db : Pool σ) (w : σ) : Outcome (Int × Int × Option GoError) × σ :=
  match db.poolGetOrConnect w with
  | (some err, w) => (.returned (0, 0, some err), db.poolDrop w)
  | (none, w) =>
    match db.Acquire w with
    | (some err, w) => (.returned (0, 0, some err), w)
    | (none, w) =>
      match db.QueryRowScan "SELECT version();" w with
      | ((_, some err), w) => (.returned (0, 0, some err), db.Release w)
      | ((s, none), w) =>
        match firstSubmatch s.toList with
        | none =>
          (.panicked "runtime error: index out of range [0] with length 0", db.Release w)
        | some (g1, g2) =>
          match Atoi g1 with
          | (major, some err) => (.returned (major, 0, some err), db.Release w)
          | (major, none) =>
            match Atoi g2 with
            | (minor, err) => (.returned (major, minor, err), db.Release w)

/-- A pool whose connection answers every query with `s`. -/
def answering (s : String) : Pool Unit where
  poolGetOrConnect := fun w => (none, w)
  poolDrop := fun w => w
  Acquire := fun w => (none, w)
  Release := fun w => w
  QueryRowScan := fun _ w => ((s, none), w)

/-! ## Reading the scripted environment -/

@[simp] theorem seen_nil (k : Kind) : seen k [] = 0 := rfl

@[simp] theorem seen_append (k : Kind) (t u : Trace) : seen k (t ++ u) = seen k t + seen k u := by
  simp [seen]

@[simp] theorem seen_cons (k : Kind) (e : Event) (t : Trace) :
    seen k (e :: t) = seen k t + (if e.kind = k then 1 else 0) := by
  simp [seen, List.countP_cons]

@[simp] theorem mock_Alive (env : Script) (t : Trace) :
    (mockDeps env).c.Alive t
      = (env.Alive (seen .Alive t),
         t ++ [.Alive (env.Alive (seen .Alive t)).1 (env.Alive (seen .Alive t)).2]) := rfl

@[simp] theorem mock_InRecovery (env : Script) (t : Trace) :
    (mockDeps env).c.InRecovery t
      = (env.InRecovery (seen .InRecovery t),
         t ++ [.InRecovery (env.InRecovery (seen .InRecovery t)).1
                 (env.InRecovery (seen .InRecovery t)).2]) := rfl

@[simp] theorem mock_MasterInfo (env : Script) (t : Trace) :
    (mockDeps env).c.MasterInfo t
      = (env.MasterInfo (seen .MasterInfo t),
         t ++ [.MasterInfo (env.MasterInfo (seen .MasterInfo t)).1
                 (env.MasterInfo (seen .MasterInfo t)).2]) := rfl

@[simp] theorem mock_Stop (env : Script) (t : Trace) :
    (mockDeps env).c.Stop t = (env.Stop (seen .Stop t), t ++ [.Stop (env.Stop (seen .Stop t))]) :=
  rfl

@[simp] theorem mock_Start (env : Script) (t : Trace) :
    (mockDeps env).c.Start t
      = (env.Start (seen .Start t), t ++ [.Start (env.Start (seen .Start t))]) := rfl

@[simp] theorem mock_Promote (env : Script) (t : Trace) :
    (mockDeps env).c.Promote t
      = (env.Promote (seen .Promote t), t ++ [.Promote (env.Promote (seen .Promote t))]) := rfl

@[simp] theorem mock_Backup (env : Script) (host : String) (port : Int) (t : Trace) :
    (mockDeps env).c.Backup host port t
      = (env.Backup (seen .Backup t), t ++ [.Backup host port (env.Backup (seen .Backup t))]) :=
  rfl

@[simp] theorem mock_MutexTryLock (env : Script) (ctx : Ctx) (t : Trace) :
    (mockDeps env).storage.MutexTryLock ctx t
      = (env.MutexTryLock (seen .MutexTryLock t),
         t ++ [.MutexTryLock (env.MutexTryLock (seen .MutexTryLock t)).1
                 (env.MutexTryLock (seen .MutexTryLock t)).2]) := rfl

@[simp] theorem mock_MutexUnlock (env : Script) (ctx : Ctx) (t : Trace) :
    (mockDeps env).storage.MutexUnlock ctx t
      = (env.MutexUnlock (seen .MutexUnlock t),
         t ++ [.MutexUnlock (env.MutexUnlock (seen .MutexUnlock t))]) := rfl

@[simp] theorem mock_DictionaryPut (env : Script) (ctx : Ctx) (k v : Bytes) (t : Trace) :
    (mockDeps env).storage.DictionaryPut ctx k v t
      = (env.DictionaryPut (seen .DictionaryPut t),
         t ++ [.DictionaryPut k v (env.DictionaryPut (seen .DictionaryPut t))]) := rfl

@[simp] theorem mock_DictionaryGet (env : Script) (ctx : Ctx) (k : Bytes) (t : Trace) :
    (mockDeps env).storage.DictionaryGet ctx k t
      = (env.DictionaryGet (seen .DictionaryGet t),
         t ++ [.DictionaryGet k (env.DictionaryGet (seen .DictionaryGet t)).1
                 (env.DictionaryGet (seen .DictionaryGet t)).2]) := rfl

@[simp] theorem mock_DictionaryRemove (env : Script) (ctx : Ctx) (k : Bytes) (t : Trace) :
    (mockDeps env).storage.DictionaryRemove ctx k t
      = (env.DictionaryRemove (seen .DictionaryRemove t),
         t ++ [.DictionaryRemove k (env.DictionaryRemove (seen .DictionaryRemove t))]) := rfl

@[simp] theorem mock_Done (env : Script) (ctx : Ctx) (t : Trace) :
    (mockDeps env).rt.Done ctx t
      = (env.Done (seen .Done t), t ++ [.Done ctx (env.Done (seen .Done t))]) := rfl

@[simp] theorem mock_Err (env : Script) (ctx : Ctx) (t : Trace) :
    (mockDeps env).rt.Err ctx t = env.CtxErr (seen .Done t) := rfl

@[simp] theorem mock_Sleep (env : Script) (d : Duration) (t : Trace) :
    (mockDeps env).rt.Sleep d t = t ++ [.Sleep d] := rfl

@[simp] theorem mock_Now (env : Script) (t : Trace) :
    (mockDeps env).rt.Now t = (env.Now (seen .Now t), t ++ [.Now (env.Now (seen .Now t))]) := rfl

@[simp] theorem mock_StoreState (env : Script) (v : ClusterState) (t : Trace) :
    (mockDeps env).rt.StoreState v t = t ++ [.StoreState v] := rfl

@[simp] theorem mock_gob (env : Script) : (mockDeps env).gob = env.gob := rfl


/-! ## The polling loops against a script -/

theorem awaitMasterLoop_polls (env : Script) (ctx : Ctx) (s : Sentinel) (r : ConnectionInfo)
    (extra : Nat) :
    ∀ (k : Nat) (t : Trace),
      (∀ j, j ≤ k → env.Done (seen .Done t + j) = false) →
      (∀ j, j < k → env.MasterInfo (seen .MasterInfo t + j) = (none, none)) →
      env.MasterInfo (seen .MasterInfo t + k) = (some r, none) →
      awaitMasterLoop (mockDeps env) ctx (k + 1 + extra) s t
        = some (none,
            { s with state := Replica, masterInfo := some { Host := r.Host, Port := r.Port } },
            t ++ repeatTrace [.Done ctx false, .MasterInfo none none, .Sleep DefaultPgPollDelay] k
              ++ [.Done ctx false, .MasterInfo (some r) none, .StoreState Replica]) := by
  intro k
  induction k with
  | zero =>
    intro t hd _ hr
    have hd0 := hd 0 (le_refl 0)
    simp only [Nat.add_zero] at hd0 hr
    simp [awaitMasterLoop, setState, hd0, hr, Event.kind, repeatTrace,
      show 0 + 1 + extra = extra + 1 by omega]
  | succ k ih =>
    intro t hd hn hr
    have hd0 := hd 0 (Nat.zero_le _)
    have hn0 := hn 0 (Nat.succ_pos _)
    simp only [Nat.add_zero] at hd0 hn0
    have e : k + 1 + 1 + extra = (k + 1 + extra) + 1 := by omega
    rw [e]
    simp [awaitMasterLoop, hd0, hn0, Event.kind]
    rw [ih]
    · simp [repeatTrace]
    · intro j hj
      have := hd (j + 1) (by omega)
      simpa [Event.kind, Nat.add_assoc, Nat.add_comm 1 j] using this
    · intro j hj
      have := hn (j + 1) (by omega)
      simpa [Event.kind, Nat.add_assoc, Nat.add_comm 1 j] using this
    · simpa [Event.kind, Nat.add_assoc, Nat.add_comm 1 k] using hr

theorem promoteWait_polls (env : Script) (ctx : Ctx) (extra : Nat) :
    ∀ (k : Nat) (t : Trace),
      (∀ j, j ≤ k → env.Done (seen .Done t + j) = false) →
      (∀ j, j < k → env.InRecovery (seen .InRecovery t + j) ≠ (false, none)) →
      env.InRecovery (seen .InRecovery t + k) = (false, none) →
      promoteWait (mockDeps env) ctx (k + 1 + extra) t
        = some (none,
            t ++ recoveryPolls env ctx (seen .InRecovery t) k
              ++ [.Done ctx false, .InRecovery false none, .Sleep DefaultPgPollDelay]) := by
  intro k
  induction k with
  | zero =>
    intro t hd _ hr
    have hd0 := hd 0 (le_refl 0)
    simp only [Nat.add_zero] at hd0 hr
    simp [promoteWait, hd0, hr, Event.kind, recoveryPolls,
      show 0 + 1 + extra = extra + 1 by omega]
  | succ k ih =>
    intro t hd hn hr
    have hd0 := hd 0 (Nat.zero_le _)
    have hn0 := hn 0 (Nat.succ_pos _)
    simp only [Nat.add_zero] at hd0 hn0
    have e : k + 1 + 1 + extra = (k + 1 + extra) + 1 := by omega
    rw [e]
    have step : promoteWait (mockDeps env) ctx (k + 1 + extra + 1) t
        = promoteWait (mockDeps env) ctx (k + 1 + extra)
            (t ++ [.Done ctx false,
                   .InRecovery (env.InRecovery (seen .InRecovery t)).1
                     (env.InRecovery (seen .InRecovery t)).2]) := by
      rcases h : env.InRecovery (seen .InRecovery t) with ⟨r, e⟩
      rw [h] at hn0
      cases r <;> cases e <;> simp_all [promoteWait, Event.kind]
    rw [step, ih]
    · simp [recoveryPolls, Event.kind]
    · intro j hj
      have := hd (j + 1) (by omega)
      simpa [Event.kind, Nat.add_assoc, Nat.add_comm 1 j] using this
    · intro j hj
      have := hn (j + 1) (by omega)
      simpa [Event.kind, Nat.add_assoc, Nat.add_comm 1 j] using this
    · simpa [Event.kind, Nat.add_assoc, Nat.add_comm 1 k] using hr

theorem seen_recoveryPolls (env : Script) (ctx : Ctx) (kd : Kind) (h1 : kd ≠ .Done)
    (h2 : kd ≠ .InRecovery) :
    ∀ (k i : Nat), seen kd (recoveryPolls env ctx i k) = 0 := by
  intro k
  induction k with
  | zero => intro i; simp [recoveryPolls]
  | succ k ih =>
    intro i
    simp [recoveryPolls, Event.kind, ih, Ne.symm h1, Ne.symm h2]

/-! ## Startup -/

/-- C3. `Prepare` on an instance that is not in recovery and wins the mutex: when the
self-HostInfo encodes to `buf`, `InRecovery` answers `(false, nil)`, `MutexTryLock`
answers `(true, nil)` and `DictionaryPut` answers `nil`, `Prepare` returns `nil`, the
state is `Master`, and the interactions are exactly `InRecovery`, `MutexTryLock`, the
store of `Master` and one `DictionaryPut("master-info", buf)`: no `Stop`, `Backup`,
`Start`, `Promote` or `DictionaryGet`. -/
theorem Prepare_master_bootstrap (env : Script) (ctx : Ctx) (fuel : Nat) (s : Sentinel)
    (t : Trace) (buf : Bytes)
    (henc : env.gob.Encode { Host := s.hostname, Port := s.port } = .ok buf)
    (hrec : env.InRecovery (seen .InRecovery t) = (false, none))
    (hlock : env.MutexTryLock (seen .MutexTryLock t) = (true, none))
    (hput : env.DictionaryPut (seen .DictionaryPut t) = none) :
    Prepare (mockDeps env) ctx fuel s t
      = some (none,
          { s with payload := buf, state := Master, closeOnDone := true },
          t ++ [.InRecovery false none, .MutexTryLock true none, .StoreState Master,
                .DictionaryPut dictKeyMasterInfo buf none])
    ∧ State { s with payload := buf, state := Master, closeOnDone := true } = Master := by
  simp [Prepare, prepareMaster, setState, State, Event.kind, henc, hrec, hlock, hput]

/-- C3, at the values of `TestPrepareMaster`. -/
theorem Prepare_master_bootstrap_witness :
    Prepare (mockDeps calmScript) [] 0 (New "localhost" 5432) []
      = some (none,
          { New "localhost" 5432 with
            payload := [0, 5432, 108, 111, 99, 97, 108, 104, 111, 115, 116],
            state := Master, closeOnDone := true },
          [.InRecovery false none, .MutexTryLock true none, .StoreState Master,
           .DictionaryPut dictKeyMasterInfo
             [0, 5432, 108, 111, 99, 97, 108, 104, 111, 115, 116] none]) :=
  (Prepare_master_bootstrap calmScript [] 0 (New "localhost" 5432) [] _
    (by rfl) (by decide) (by decide) (by decide)).1

/-- C4. `Prepare` on an instance that is not in recovery and finds the mutex taken:
when `master-info` holds a payload that decodes to `m` and `Stop`, `Backup` and `Start`
succeed, `Prepare` returns `nil`, the state is `Replica`, and after the read of
`master-info` the interactions are exactly `Stop`, `Backup(m.Host, m.Port)`, `Start`
and the store of `Replica`: no `DictionaryPut`. -/
theorem Prepare_demoted_master (env : Script) (ctx : Ctx) (fuel : Nat) (s : Sentinel)
    (t : Trace) (buf p : Bytes) (m : hostinfo)
    (henc : env.gob.Encode { Host := s.hostname, Port := s.port } = .ok buf)
    (hrec : env.InRecovery (seen .InRecovery t) = (false, none))
    (hlock : env.MutexTryLock (seen .MutexTryLock t) = (false, none))
    (hlive : env.Done (seen .Done t) = false)
    (hget : env.DictionaryGet (seen .DictionaryGet t) = (some p, none))
    (hdec : env.gob.Decode p = .ok m)
    (hstop : env.Stop (seen .Stop t) = none)
    (hbackup : env.Backup (seen .Backup t) = none)
    (hstart : env.Start (seen .Start t) = none) :
    Prepare (mockDeps env) ctx (fuel + 1) s t
      = some (none,
          { s with payload := buf, state := Replica, closeOnDone := true },
          t ++ [.InRecovery false none, .MutexTryLock false none,
                .Done (WithTimeout ctx DefaultPgAwaitTimeout) false,
                .DictionaryGet dictKeyMasterInfo (some p) none,
                .Stop none, .Backup m.Host m.Port none, .Start none, .StoreState Replica])
    ∧ State { s with payload := buf, state := Replica, closeOnDone := true } = Replica := by
  simp [Prepare, prepareMaster, getMaster, getMasterLoop, setState, State, Event.kind, henc,
    hrec, hlock, hlive, hget, hdec, hstop, hbackup, hstart]

/-- C4, at the values of `TestPrepareSecondMaster` with the master `{"other", 5432}`. -/
theorem Prepare_demoted_master_witness :
    Prepare (mockDeps demotedScript) [] 1 (New "localhost" 5432) []
      = some (none,
          { New "localhost" 5432 with
            payload := [0, 5432, 108, 111, 99, 97, 108, 104, 111, 115, 116],
            state := Replica, closeOnDone := true },
          [.InRecovery false none, .MutexTryLock false none,
           .Done [DefaultPgAwaitTimeout] false,
           .DictionaryGet dictKeyMasterInfo (some otherPayload) none,
           .Stop none, .Backup "other" 5432 none, .Start none, .StoreState Replica]) :=
  (Prepare_demoted_master demotedScript [] 0 (New "localhost" 5432) [] _ otherPayload
    { Host := "other", Port := 5432 }
    (by rfl) (by decide) (by decide) (by decide) (by decide) (by rfl) (by decide) (by decide)
    (by decide)).1

/-- C5. At the input of the claim the code does otherwise: after `Prepare` has succeeded
on the demoted-former-master path with `master-info` naming `{"other", 5432}`,
`masterInfo` is still `nil`, and the first tick, which finds the mutex taken and
`master-info` unchanged, runs `Stop`, `Backup("other", 5432)`, `Start` a second time. -/
theorem Prepare_demoted_then_tick_backs_up_again :
    Prepare (mockDeps demotedScript) [] 1 (New "localhost" 5432) []
      = some (none, demotedReplica, demotedTrace)
    ∧ State demotedReplica = Replica
    ∧ demotedReplica.masterInfo = none
    ∧ check (mockDeps demotedScript) [] 1 demotedReplica demotedTrace
        = some ({ demotedReplica with
                  masterInfo := some { Host := "other", Port := 5432 },
                  counterCheckSuccess := 1 },
            demotedTrace
              ++ [.Alive true none, .MutexTryLock false none,
                  .Done [DefaultPgAwaitTimeout] false,
                  .DictionaryGet dictKeyMasterInfo (some otherPayload) none,
                  .Stop none, .Backup "other" 5432 none, .Start none, .Now 0]) := by
  decide

/-- C6. `Prepare` on an instance in recovery: when `MasterInfo` answers `nil` for `k`
polls and then `r`, the derived context not being done at any of these `k + 1` polls,
`Prepare` returns `nil`, the state is `Replica`, `masterInfo` is `{r.Host, r.Port}`, and
the interactions are `InRecovery`, the polls and the store of `Replica`: no Storage
operation and no `Stop`, `Backup`, `Start` or `Promote`. -/
theorem Prepare_replica_bootstrap (env : Script) (ctx : Ctx) (k extra : Nat) (s : Sentinel)
    (t : Trace) (buf : Bytes) (r : ConnectionInfo)
    (henc : env.gob.Encode { Host := s.hostname, Port := s.port } = .ok buf)
    (hrec : env.InRecovery (seen .InRecovery t) = (true, none))
    (hlive : ∀ j, j ≤ k → env.Done (seen .Done t + j) = false)
    (hnil : ∀ j, j < k → env.MasterInfo (seen .MasterInfo t + j) = (none, none))
    (hinfo : env.MasterInfo (seen .MasterInfo t + k) = (some r, none)) :
    Prepare (mockDeps env) ctx (k + 1 + extra) s t
      = some (none,
          { s with payload := buf, state := Replica,
                   masterInfo := some { Host := r.Host, Port := r.Port }, closeOnDone := true },
          t ++ [.InRecovery true none]
            ++ repeatTrace [.Done (WithTimeout ctx DefaultPgAwaitTimeout) false,
                            .MasterInfo none none, .Sleep DefaultPgPollDelay] k
            ++ [.Done (WithTimeout ctx DefaultPgAwaitTimeout) false,
                .MasterInfo (some r) none, .StoreState Replica])
    ∧ State { s with payload := buf, state := Replica,
                     masterInfo := some { Host := r.Host, Port := r.Port },
                     closeOnDone := true } = Replica := by
  have hloop := awaitMasterLoop_polls env (WithTimeout ctx DefaultPgAwaitTimeout)
    { s with payload := buf } r extra k (t ++ [.InRecovery true none])
    (by simpa [Event.kind] using hlive) (by simpa [Event.kind] using hnil)
    (by simpa [Event.kind] using hinfo)
  simp [Prepare, awaitMaster, State, henc, hrec, hloop]

/-- C6, with two empty polls before the master `{"m", 5432}` is reported. -/
theorem Prepare_replica_bootstrap_witness :
    Prepare (mockDeps replicaScript) [] 3 (New "localhost" 5432) []
      = some (none,
          { New "localhost" 5432 with
            payload := [0, 5432, 108, 111, 99, 97, 108, 104, 111, 115, 116],
            state := Replica, masterInfo := some { Host := "m", Port := 5432 },
            closeOnDone := true },
          [.InRecovery true none,
           .Done [DefaultPgAwaitTimeout] false, .MasterInfo none none, .Sleep DefaultPgPollDelay,
           .Done [DefaultPgAwaitTimeout] false, .MasterInfo none none, .Sleep DefaultPgPollDelay,
           .Done [DefaultPgAwaitTimeout] false,
           .MasterInfo (some { Host := "m", Port := 5432 }) none, .StoreState Replica]) :=
  (Prepare_replica_bootstrap replicaScript [] 2 0 (New "localhost" 5432) [] _
    { Host := "m", Port := 5432 } (by rfl) (by decide) (by intro j _; rfl)
    (by intro j hj; have : j = 0 ∨ j = 1 := by omega
        rcases this with h | h <;> subst h <;> rfl)
    (by decide)).1

/-! ## The tick -/

/-- C7. A tick of a replica that wins the mutex: when `DictionaryRemove`, `Promote` and
`DictionaryPut` succeed and the `(k + 1)`-th poll of `InRecovery` is the first to answer
`(false, nil)`, the derived context not being done at any of these polls, the tick
ends in state `Master` with the success counter incremented, and its interactions are,
in this order, `Alive`, `MutexTryLock`, `DictionaryRemove("master-info")`, `Promote`,
the polls, a sleep, the store of `Master`, `DictionaryPut("master-info", payload)` and
`Now`: no `MutexUnlock`, `Stop`, `Backup` or `Start`. -/
theorem check_replica_promotes (env : Script) (ctx : Ctx) (k extra : Nat) (s : Sentinel)
    (t : Trace)
    (hstate : s.state = Replica) (hdone : s.done = 0)
    (hlock : env.MutexTryLock (seen .MutexTryLock t) = (true, none))
    (hremove : env.DictionaryRemove (seen .DictionaryRemove t) = none)
    (hpromote : env.Promote (seen .Promote t) = none)
    (hlive : ∀ j, j ≤ k → env.Done (seen .Done t + j) = false)
    (hwait : ∀ j, j < k → env.InRecovery (seen .InRecovery t + j) ≠ (false, none))
    (hflip : env.InRecovery (seen .InRecovery t + k) = (false, none))
    (hput : env.DictionaryPut (seen .DictionaryPut t) = none) :
    check (mockDeps env) ctx (k + 1 + extra) s t
      = some ({ s with state := Master,
                       counterCheckSuccess := s.counterCheckSuccess + 1,
                       lastCheck := env.Now (seen .Now t) },
          t ++ [.Alive (env.Alive (seen .Alive t)).1 (env.Alive (seen .Alive t)).2,
                .MutexTryLock true none,
                .DictionaryRemove dictKeyMasterInfo none,
                .Promote none]
            ++ recoveryPolls env (WithTimeout ctx DefaultPgAwaitTimeout) (seen .InRecovery t) k
            ++ [.Done (WithTimeout ctx DefaultPgAwaitTimeout) false, .InRecovery false none,
                .Sleep DefaultPgPollDelay,
                .StoreState Master,
                .DictionaryPut dictKeyMasterInfo s.payload none,
                .Now (env.Now (seen .Now t))]) := by
  have hloop := promoteWait_polls env (WithTimeout ctx DefaultPgAwaitTimeout) extra k
    (t ++ [.Alive (env.Alive (seen .Alive t)).1 (env.Alive (seen .Alive t)).2,
           .MutexTryLock true none, .DictionaryRemove dictKeyMasterInfo none, .Promote none])
    (by simpa [Event.kind] using hlive) (by simpa [Event.kind] using hwait)
    (by simpa [Event.kind] using hflip)
  have hm : ¬ (Replica = Master) := by decide
  simp [Event.kind] at hloop
  have hp := seen_recoveryPolls env (WithTimeout ctx DefaultPgAwaitTimeout) .DictionaryPut
    (by decide) (by decide) k (seen .InRecovery t)
  have hn := seen_recoveryPolls env (WithTimeout ctx DefaultPgAwaitTimeout) .Now
    (by decide) (by decide) k (seen .InRecovery t)
  simp [check, checkBody, checkReplica, promote, setState, hstate, hdone, hm, hlock, hremove,
    hpromote, hloop, hput, hp, hn, Event.kind]

/-- C7, with three polls that still report recovery before the flip. -/
theorem check_replica_promotes_witness :
    check (mockDeps replicaScript) [] 4 streamingReplica []
      = some ({ streamingReplica with state := Master, counterCheckSuccess := 1 },
          [.Alive true none, .MutexTryLock true none,
           .DictionaryRemove dictKeyMasterInfo none, .Promote none,
           .Done [DefaultPgAwaitTimeout] false, .InRecovery true none,
           .Done [DefaultPgAwaitTimeout] false, .InRecovery true none,
           .Done [DefaultPgAwaitTimeout] false, .InRecovery true none,
           .Done [DefaultPgAwaitTimeout] false, .InRecovery false none,
           .Sleep DefaultPgPollDelay, .StoreState Master,
           .DictionaryPut dictKeyMasterInfo
             [0, 5432, 108, 111, 99, 97, 108, 104, 111, 115, 116] none,
           .Now 0]) :=
  check_replica_promotes replicaScript [] 3 0 streamingReplica [] (by rfl) (by rfl)
    (by decide) (by decide) (by decide) (by intro j _; rfl)
    (by intro j hj; have : j = 0 ∨ j = 1 ∨ j = 2 := by omega
        rcases this with h | h | h <;> subst h <;> decide)
    (by decide) (by decide)

/-- C8. A tick of a replica that wins the mutex and whose `Promote` fails with `e`
(after `DictionaryRemove` succeeded): `MutexUnlock` is called once, whatever it answers,
`DictionaryPut` is not called, the state stays `Replica`, the error counter is
incremented and `e` is offered to `errChan`; and the check body of the next tick is
`checkReplica`. -/
theorem check_replica_promotion_fails (env : Script) (ctx : Ctx) (fuel : Nat) (s : Sentinel)
    (t : Trace) (e : GoError)
    (hstate : s.state = Replica) (hdone : s.done = 0)
    (hlock : env.MutexTryLock (seen .MutexTryLock t) = (true, none))
    (hremove : env.DictionaryRemove (seen .DictionaryRemove t) = none)
    (hpromote : env.Promote (seen .Promote t) = some e) :
    ∃ s' t',
      check (mockDeps env) ctx fuel s t = some (s', t')
      ∧ s' = { s with errChan := (setErr s e).errChan,
                      counterCheckErrors := s.counterCheckErrors + 1,
                      lastCheck := env.Now (seen .Now t) }
      ∧ t' = t ++ [.Alive (env.Alive (seen .Alive t)).1 (env.Alive (seen .Alive t)).2,
                   .MutexTryLock true none,
                   .DictionaryRemove dictKeyMasterInfo none,
                   .Promote (some e),
                   .MutexUnlock (env.MutexUnlock (seen .MutexUnlock t)),
                   .Now (env.Now (seen .Now t))]
      ∧ State s' = Replica
      ∧ (checkBody (mockDeps env) ctx fuel { s with done := 1 } t).map (·.1) = some (some e)
      ∧ ∀ fuel', checkBody (mockDeps env) ctx fuel' { s' with done := 1 } t'
          = checkReplica (mockDeps env) ctx fuel' { s' with done := 1 } t' := by
  have hm : ¬ (Replica = Master) := by decide
  refine ⟨_, _, ?_, rfl, rfl, ?_, ?_, ?_⟩
  · simp [check, checkBody, checkReplica, promote, setState, setErr, hstate, hdone, hm, hlock,
      hremove, hpromote, Event.kind]
  · simp [State, hstate]
  · simp [checkBody, checkReplica, promote, hstate, hm, hlock, hremove, hpromote, Event.kind]
  · intro fuel'
    simp [checkBody, hstate, hm]

/-- C8, with `Promote` failing with "promotion timeout". -/
theorem check_replica_promotion_fails_witness :
    ∃ s' t',
      check (mockDeps failedPromotionScript) [] 0 streamingReplica [] = some (s', t')
      ∧ s' = { streamingReplica with errChan := ["promotion timeout"],
                                     counterCheckErrors := 1 }
      ∧ t' = [.Alive true none, .MutexTryLock true none,
              .DictionaryRemove dictKeyMasterInfo none,
              .Promote (some "promotion timeout"), .MutexUnlock none, .Now 0]
      ∧ State s' = Replica
      ∧ (checkBody (mockDeps failedPromotionScript) [] 0
            { streamingReplica with done := 1 } []).map (·.1) = some (some "promotion timeout")
      ∧ ∀ fuel', checkBody (mockDeps failedPromotionScript) [] fuel' { s' with done := 1 } t'
          = checkReplica (mockDeps failedPromotionScript) [] fuel' { s' with done := 1 } t' :=
  check_replica_promotion_fails failedPromotionScript [] 0 streamingReplica []
    "promotion timeout" (by rfl) (by rfl) (by decide) (by decide) (by decide)

/-- C9. A tick of a master: when `Alive` answers `(true, nil)` the only interactions are
the probe and `Now`, and the state stays `Master`; otherwise `MutexUnlock` is called
once, and the state afterwards is `Master` when it answered `nil` and `Detached` when it
answered an error.  In no case is `Stop`, `Backup`, `Start` or `Promote` called. -/
theorem check_master_tick (env : Script) (ctx : Ctx) (fuel : Nat) (s : Sentinel) (t : Trace)
    (hstate : s.state = Master) (hdone : s.done = 0) :
    (check (mockDeps env) ctx fuel s t
      = if env.Alive (seen .Alive t) = (true, none) then
          some ({ s with counterCheckSuccess := s.counterCheckSuccess + 1,
                         lastCheck := env.Now (seen .Now t) },
                t ++ [.Alive true none, .Now (env.Now (seen .Now t))])
        else
          match env.MutexUnlock (seen .MutexUnlock t) with
          | none =>
            some ({ s with counterCheckSuccess := s.counterCheckSuccess + 1,
                           lastCheck := env.Now (seen .Now t) },
                  t ++ [.Alive (env.Alive (seen .Alive t)).1 (env.Alive (seen .Alive t)).2,
                        .MutexUnlock none, .Now (env.Now (seen .Now t))])
          | some err =>
            some ({ s with state := Detached,
                           errChan := (setErr s err).errChan,
                           counterCheckErrors := s.counterCheckErrors + 1,
                           lastCheck := env.Now (seen .Now t) },
                  t ++ [.Alive (env.Alive (seen .Alive t)).1 (env.Alive (seen .Alive t)).2,
                        .MutexUnlock (some err), .StoreState Detached,
                        .Now (env.Now (seen .Now t))]))
    ∧ (check (mockDeps env) ctx fuel s t).map (fun r => State r.1)
        = some (if env.Alive (seen .Alive t) = (true, none)
                    ∨ env.MutexUnlock (seen .MutexUnlock t) = none then Master
                else Detached) := by
  rcases ha : env.Alive (seen .Alive t) with ⟨r, e⟩
  rcases hu : env.MutexUnlock (seen .MutexUnlock t) with _ | u <;>
  cases r <;> cases e <;>
  simp [check, checkBody, checkMaster, setState, setErr, State, hstate, hdone, ha, hu,
    Event.kind]

/-- C9, for a master whose instance is down and whose unlock fails. -/
theorem check_master_tick_witness :
    check (mockDeps deadMasterScript) [] 0 bootstrappedMaster []
      = some ({ bootstrappedMaster with state := Detached, errChan := ["unlock failed"],
                                        counterCheckErrors := 1 },
          [.Alive false none, .MutexUnlock (some "unlock failed"), .StoreState Detached,
           .Now 0]) :=
  (check_master_tick deadMasterScript [] 0 bootstrappedMaster [] (by rfl) (by rfl)).1

/-- C10. `follow` when `master-info` holds a payload that decodes to a master `m`
different from `masterInfo` (which may be `nil`): when `Stop`, `Backup` and `Start`
succeed, `follow` calls exactly `Stop`, `Backup(m.Host, m.Port)`, `Start` after the read,
returns `nil`, leaves every field but `masterInfo` unchanged, and sets `masterInfo`
to `m`. -/
theorem follow_resyncs (env : Script) (ctx : Ctx) (fuel : Nat) (s : Sentinel) (t : Trace)
    (p : Bytes) (m : hostinfo)
    (hlive : env.Done (seen .Done t) = false)
    (hget : env.DictionaryGet (seen .DictionaryGet t) = (some p, none))
    (hdec : env.gob.Decode p = .ok m)
    (hne : s.masterInfo ≠ some m)
    (hstop : env.Stop (seen .Stop t) = none)
    (hbackup : env.Backup (seen .Backup t) = none)
    (hstart : env.Start (seen .Start t) = none) :
    follow (mockDeps env) ctx (fuel + 1) s t
      = some (none, { s with masterInfo := some m },
          t ++ [.Done (WithTimeout ctx DefaultPgAwaitTimeout) false,
                .DictionaryGet dictKeyMasterInfo (some p) none,
                .Stop none, .Backup m.Host m.Port none, .Start none])
    ∧ State { s with masterInfo := some m } = State s := by
  have hsame : sameMaster s.masterInfo m = false := by
    cases hmi : s.masterInfo with
    | none => rfl
    | some o =>
      rw [hmi] at hne
      cases o; cases m
      simp_all [sameMaster]
  simp [follow, getMaster, getMasterLoop, State, Event.kind, hlive, hget, hdec, hsame, hstop,
    hbackup, hstart]

/-- C10, for a replica of `{"m", 5432}` when `master-info` names `{"other", 5432}`. -/
theorem follow_resyncs_witness :
    follow (mockDeps demotedScript) [] 1 streamingReplica []
      = some (none, { streamingReplica with masterInfo := some { Host := "other", Port := 5432 } },
          [.Done [DefaultPgAwaitTimeout] false,
           .DictionaryGet dictKeyMasterInfo (some otherPayload) none,
           .Stop none, .Backup "other" 5432 none, .Start none]) :=
  (follow_resyncs demotedScript [] 0 streamingReplica [] otherPayload
    { Host := "other", Port := 5432 } (by decide) (by decide) (by rfl) (by decide) (by decide)
    (by decide) (by decide)).1

/-! ## The shape of the traces -/

@[simp] theorem Harmless_nil : Harmless [] := by simp [Harmless]

@[simp] theorem Harmless_cons (e : Event) (new : Trace) :
    Harmless (e :: new) ↔ e.harmless = true ∧ Harmless new := by simp [Harmless]

@[simp] theorem Harmless_append (a b : Trace) :
    Harmless (a ++ b) ↔ Harmless a ∧ Harmless b := by
  simp only [Harmless, List.mem_append]
  constructor
  · intro h; exact ⟨fun e he => h e (Or.inl he), fun e he => h e (Or.inr he)⟩
  · rintro ⟨h1, h2⟩ e (he | he)
    · exact h1 e he
    · exact h2 e he

@[simp] theorem Quiet_nil : Quiet [] := by simp [Quiet]

@[simp] theorem Quiet_cons (e : Event) (new : Trace) :
    Quiet (e :: new) ↔ e.quiet = true ∧ Quiet new := by simp [Quiet]

theorem Harmless_of_quiet (new : Trace) (h : Quiet new) : Harmless new := by
  intro e he
  have := h e he
  cases e <;> simp_all [Event.quiet, Event.harmless]

theorem lastStore_append (b : Trace) :
    ∀ (a : Trace) (st : ClusterState), lastStore (a ++ b) st = lastStore b (lastStore a st) := by
  intro a
  induction a with
  | nil => intro st; rfl
  | cons e a ih => intro st; cases e <;> simp [lastStore, ih]

theorem lastStore_quiet :
    ∀ (new : Trace), Quiet new → ∀ st, lastStore new st = st := by
  intro new
  induction new with
  | nil => intro _ st; rfl
  | cons e new ih =>
    intro h st
    rw [Quiet_cons] at h
    cases e <;> simp_all [lastStore, Event.quiet]

theorem masterStoresGuarded_append_harmless (held : Bool) (u : Trace) :
    ∀ (new : Trace), Harmless new →
      masterStoresGuarded held (new ++ u) = masterStoresGuarded held u := by
  intro new
  induction new with
  | nil => intro _; rfl
  | cons e new ih =>
    intro h
    rw [Harmless_cons] at h
    obtain ⟨he, hnew⟩ := h
    cases e <;> simp_all [masterStoresGuarded, Event.harmless]

theorem masterStoresGuarded_harmless (held : Bool) (new : Trace) (h : Harmless new) :
    masterStoresGuarded held new = true := by
  have := masterStoresGuarded_append_harmless held [] new h
  simpa [masterStoresGuarded] using this

theorem masterStoresGuarded_append_right (b : Trace) (hb : Harmless b) :
    ∀ (a : Trace) (held : Bool), masterStoresGuarded held a = true →
      masterStoresGuarded held (a ++ b) = true := by
  intro a
  induction a with
  | nil => intro held _; exact masterStoresGuarded_harmless held b hb
  | cons ev a ih =>
    intro held h
    cases ev with
    | MutexTryLock l e =>
      cases l <;> cases e <;> simp only [masterStoresGuarded, List.cons_append] at h ⊢ <;>
        exact ih _ h
    | StoreState v =>
      simp only [masterStoresGuarded, List.cons_append, Bool.and_eq_true] at h ⊢
      exact ⟨h.1, ih _ h.2⟩
    | _ => simp only [masterStoresGuarded, List.cons_append] at h ⊢; exact ih _ h

theorem putsOnly_append (payload : Bytes) (u : Trace) :
    ∀ (new : Trace),
      putsOnly payload (new ++ u) = (putsOnly payload new && putsOnly payload u) := by
  intro new
  induction new with
  | nil => simp [putsOnly]
  | cons e new ih =>
    cases e <;> simp [putsOnly, ih, Bool.and_assoc]

theorem putsOnly_harmless (payload : Bytes) :
    ∀ (new : Trace), Harmless new → putsOnly payload new = true := by
  intro new
  induction new with
  | nil => intro _; rfl
  | cons e new ih =>
    intro h
    rw [Harmless_cons] at h
    obtain ⟨he, hnew⟩ := h
    cases e <;> simp_all [putsOnly, Event.harmless]

theorem getMasterLoop_quiet (env : Script) (ctx : Ctx) :
    ∀ (fuel : Nat) (t t' : Trace) (r : Except GoError hostinfo),
      getMasterLoop (mockDeps env) ctx fuel t = some (r, t') →
      ∃ new, t' = t ++ new ∧ Quiet new := by
  intro fuel
  induction fuel with
  | zero => intro t t' r h; simp [getMasterLoop] at h
  | succ fuel ih =>
    intro t t' r h
    simp only [getMasterLoop, mock_Done, mock_DictionaryGet, mock_Sleep, mock_gob] at h
    repeat' split at h
    all_goals try simp only [Prod.mk.injEq, Option.some.injEq, reduceCtorEq] at *
    all_goals repeat (cases ‹_ ∧ _›)
    all_goals subst_vars
    · exact ⟨_, rfl, by simp [Event.quiet, Event.harmless]⟩
    · simp only [List.append_assoc]
      exact ⟨_, rfl, by simp [Event.quiet, Event.harmless]⟩
    · simp only [List.append_assoc]
      exact ⟨_, rfl, by simp [Event.quiet, Event.harmless]⟩
    · simp only [List.append_assoc]
      exact ⟨_, rfl, by simp [Event.quiet, Event.harmless]⟩
    · obtain ⟨new, rfl, hnew⟩ := ih _ _ _ h
      simp only [List.append_assoc]
      exact ⟨_, rfl, by simp [Quiet, Event.quiet, Event.harmless] at hnew ⊢; exact hnew⟩

theorem promoteWait_quiet (env : Script) (ctx : Ctx) :
    ∀ (fuel : Nat) (t t' : Trace) (r : Option GoError),
      promoteWait (mockDeps env) ctx fuel t = some (r, t') →
      ∃ new, t' = t ++ new ∧ Quiet new := by
  intro fuel
  induction fuel with
  | zero => intro t t' r h; simp [promoteWait] at h
  | succ fuel ih =>
    intro t t' r h
    simp only [promoteWait, mock_Done, mock_InRecovery, mock_Sleep] at h
    repeat' split at h
    all_goals try simp only [Prod.mk.injEq, Option.some.injEq, reduceCtorEq] at *
    all_goals repeat (cases ‹_ ∧ _›)
    all_goals subst_vars
    · exact ⟨_, rfl, by simp [Event.quiet, Event.harmless]⟩
    · simp only [List.append_assoc]
      exact ⟨_, rfl, by simp [Event.quiet, Event.harmless]⟩
    · obtain ⟨new, rfl, hnew⟩ := ih _ _ _ h
      simp only [List.append_assoc]
      exact ⟨_, rfl, by simp [Quiet, Event.quiet, Event.harmless] at hnew ⊢; exact hnew⟩

theorem awaitMasterLoop_harmless (env : Script) (ctx : Ctx) :
    ∀ (fuel : Nat) (s s' : Sentinel) (t t' : Trace) (e : Option GoError),
      awaitMasterLoop (mockDeps env) ctx fuel s t = some (e, s', t') →
      ∃ new, t' = t ++ new ∧ Harmless new ∧ s'.payload = s.payload
        ∧ s'.state = lastStore new s.state := by
  intro fuel
  induction fuel with
  | zero => intro s s' t t' e h; simp [awaitMasterLoop] at h
  | succ fuel ih =>
    intro s s' t t' e h
    simp only [awaitMasterLoop, mock_Done, mock_MasterInfo, mock_Sleep, setState,
      mock_StoreState] at h
    repeat' split at h
    all_goals try simp only [Prod.mk.injEq, Option.some.injEq, reduceCtorEq] at *
    all_goals repeat (cases ‹_ ∧ _›)
    all_goals subst_vars
    · exact ⟨_, rfl, by simp [Event.harmless], by trivial, by simp [lastStore]⟩
    · simp only [List.append_assoc]
      exact ⟨_, rfl, by simp [Event.harmless], by trivial, by simp [lastStore]⟩
    · simp only [List.append_assoc]
      exact ⟨_, rfl, by simp [Event.harmless, Replica, Master], by trivial,
        by simp [lastStore]⟩
    · obtain ⟨new, rfl, hnew, hp, hs⟩ := ih _ _ _ _ _ h
      simp only [List.append_assoc]
      exact ⟨_, rfl, by simp [Event.harmless, hnew], hp, by simpa [lastStore] using hs⟩

theorem follow_harmless (env : Script) (ctx : Ctx) (fuel : Nat) (s s' : Sentinel)
    (t t' : Trace) (e : Option GoError)
    (h : follow (mockDeps env) ctx fuel s t = some (e, s', t')) :
    ∃ new, t' = t ++ new ∧ Harmless new ∧ s'.payload = s.payload
      ∧ s'.state = lastStore new s.state := by
  unfold follow at h
  cases hg : getMaster (mockDeps env) ctx fuel t with
  | none => simp [hg] at h
  | some r =>
    obtain ⟨res, tg⟩ := r
    obtain ⟨n1, rfl, hq⟩ := getMasterLoop_quiet env _ _ _ _ _ hg
    have h1 := Harmless_of_quiet n1 hq
    have hl := lastStore_quiet n1 hq
    rw [hg] at h
    simp only [mock_Stop, mock_Backup, mock_Start, setState, mock_StoreState] at h
    repeat' split at h
    all_goals try simp only [Prod.mk.injEq, Option.some.injEq, Except.ok.injEq,
      Except.error.injEq, reduceCtorEq] at *
    all_goals repeat (cases ‹_ ∧ _›)
    all_goals subst_vars
    all_goals simp only [List.append_assoc]
    all_goals exact ⟨_, rfl, by simp [Event.harmless, h1, Detached, Master],
      by trivial, by simp [lastStore, lastStore_append, hl]⟩

theorem promote_safe (env : Script) (ctx : Ctx) (fuel : Nat) (s s' : Sentinel)
    (t t' : Trace) (e : Option GoError)
    (h : promote (mockDeps env) ctx fuel s t = some (e, s', t')) :
    ∃ new, t' = t ++ new ∧ Safe s.payload true new ∧ s'.payload = s.payload
      ∧ s'.state = lastStore new s.state := by
  unfold promote at h
  simp only [mock_DictionaryRemove, mock_Promote, mock_MutexUnlock] at h
  split at h
  · simp only [Prod.mk.injEq, Option.some.injEq] at *
    repeat (cases ‹_ ∧ _›)
    subst_vars
    exact ⟨_, rfl, by simp [Safe, masterStoresGuarded, putsOnly], by trivial,
      by simp [lastStore]⟩
  · split at h
    · simp only [Prod.mk.injEq, Option.some.injEq] at *
      repeat (cases ‹_ ∧ _›)
      subst_vars
      simp only [List.append_assoc]
      exact ⟨_, rfl, by simp [Safe, masterStoresGuarded, putsOnly],
        by trivial, by simp [lastStore]⟩
    · rename_i heq1 _ _ heq2
      simp only [Prod.mk.injEq] at heq1 heq2
      obtain ⟨_, rfl⟩ := heq1
      obtain ⟨_, rfl⟩ := heq2
      cases hw : promoteWait (mockDeps env) (WithTimeout ctx DefaultPgAwaitTimeout) fuel
          (t ++ [Event.DictionaryRemove dictKeyMasterInfo
                  (env.DictionaryRemove (seen Kind.DictionaryRemove t))] ++
            [Event.Promote (env.Promote (seen Kind.Promote
              (t ++ [Event.DictionaryRemove dictKeyMasterInfo
                  (env.DictionaryRemove (seen Kind.DictionaryRemove t))])))]) with
      | none => rw [hw] at h; simp at h
      | some r =>
        obtain ⟨we, tw⟩ := r
        obtain ⟨n1, rfl, hq⟩ := promoteWait_quiet env _ _ _ _ _ hw
        have h1 := Harmless_of_quiet n1 hq
        have hl := lastStore_quiet n1 hq
        rw [hw] at h
        simp only [setState, mock_StoreState, mock_DictionaryPut] at h
        repeat' split at h
        all_goals try simp only [Prod.mk.injEq, Option.some.injEq, reduceCtorEq] at *
        all_goals repeat (cases ‹_ ∧ _›)
        all_goals subst_vars
        all_goals simp only [List.append_assoc]
        all_goals exact ⟨_, rfl, by simp [Safe, masterStoresGuarded, putsOnly,
            masterStoresGuarded_append_harmless _ _ _ h1, putsOnly_append,
            masterStoresGuarded_harmless _ _ h1,
            putsOnly_harmless _ _ h1], by trivial,
            by simp [lastStore, lastStore_append, hl]⟩

theorem checkMaster_safe (env : Script) (ctx : Ctx) (s s' : Sentinel)
    (t t' : Trace) (e : Option GoError)
    (h : checkMaster (mockDeps env) ctx s t = (e, s', t')) :
    ∃ new, t' = t ++ new ∧ Safe s.payload false new ∧ s'.payload = s.payload
      ∧ s'.state = lastStore new s.state := by
  unfold checkMaster at h
  simp only [mock_Alive, mock_MutexUnlock, setState, mock_StoreState] at h
  repeat' split at h
  all_goals try simp only [Prod.mk.injEq, Option.some.injEq, reduceCtorEq] at *
  all_goals repeat (cases ‹_ ∧ _›)
  all_goals subst_vars
  all_goals simp only [List.append_assoc]
  all_goals exact ⟨_, rfl, by simp [Safe, masterStoresGuarded, putsOnly, Detached, Master],
    by trivial, by simp [lastStore]⟩

theorem checkReplica_safe (env : Script) (ctx : Ctx) (fuel : Nat) (s s' : Sentinel)
    (t t' : Trace) (e : Option GoError)
    (h : checkReplica (mockDeps env) ctx fuel s t = some (e, s', t')) :
    ∃ new, t' = t ++ new ∧ Safe s.payload false new ∧ s'.payload = s.payload
      ∧ s'.state = lastStore new s.state := by
  unfold checkReplica at h
  simp only [mock_Alive, mock_MutexTryLock] at h
  split at h
  · simp only [Prod.mk.injEq, Option.some.injEq] at *
    repeat (cases ‹_ ∧ _›)
    subst_vars
    simp only [List.append_assoc]
    exact ⟨_, rfl, by (try simp [Event.kind] at *); simp [Safe, masterStoresGuarded, putsOnly, *],
      by trivial, by simp [lastStore]⟩
  · rename_i heq
    simp only [Prod.mk.injEq] at heq
    obtain ⟨hl, rfl⟩ := heq
    obtain ⟨n1, rfl, h1, hp, hs⟩ := promote_safe env _ _ _ _ _ _ _ h
    simp only [List.append_assoc]
    refine ⟨_, rfl, ?_, hp, ?_⟩
    · simp only [hl]
      simpa [Safe, masterStoresGuarded, putsOnly] using h1
    · simpa [lastStore] using hs
  · rename_i heq
    simp only [Prod.mk.injEq] at heq
    obtain ⟨hl, rfl⟩ := heq
    obtain ⟨n1, rfl, h1, hp, hs⟩ := follow_harmless env _ _ _ _ _ _ _ h
    simp only [List.append_assoc]
    refine ⟨_, rfl, ?_, hp, ?_⟩
    · simp only [hl]
      simp [Safe, masterStoresGuarded, putsOnly, masterStoresGuarded_harmless _ _ h1,
        putsOnly_harmless _ _ h1]
    · simpa [lastStore] using hs

theorem checkDetached_safe (env : Script) (ctx : Ctx) (fuel : Nat) (s s' : Sentinel)
    (t t' : Trace) (e : Option GoError)
    (h : checkDetached (mockDeps env) ctx fuel s t = some (e, s', t')) :
    ∃ new, t' = t ++ new ∧ Safe s.payload false new ∧ s'.payload = s.payload
      ∧ s'.state = lastStore new s.state := by
  unfold checkDetached at h
  simp only [mock_Alive, mock_MutexTryLock] at h
  split at h
  · simp only [Prod.mk.injEq, Option.some.injEq] at *
    repeat (cases ‹_ ∧ _›)
    subst_vars
    exact ⟨_, rfl, by simp [Safe, masterStoresGuarded, putsOnly], by trivial,
      by simp [lastStore]⟩
  · simp only [Prod.mk.injEq, Option.some.injEq] at *
    repeat (cases ‹_ ∧ _›)
    subst_vars
    exact ⟨_, rfl, by simp [Safe, masterStoresGuarded, putsOnly], by trivial,
      by simp [lastStore]⟩
  · rename_i heq
    simp only [Prod.mk.injEq] at heq
    obtain ⟨ha, rfl⟩ := heq
    split at h
    · simp only [Prod.mk.injEq, Option.some.injEq] at *
      repeat (cases ‹_ ∧ _›)
      subst_vars
      simp only [List.append_assoc]
      exact ⟨_, rfl, by (try simp [Event.kind] at *); simp [Safe, masterStoresGuarded, putsOnly, *],
        by trivial, by simp [lastStore]⟩
    · simp only [Prod.mk.injEq, Option.some.injEq] at *
      repeat (cases ‹_ ∧ _›)
      subst_vars
      simp only [List.append_assoc]
      exact ⟨_, rfl, by (try simp [Event.kind] at *); simp [Safe, masterStoresGuarded, putsOnly, *],
        by trivial, by simp [lastStore]⟩
    · rename_i heq
      simp only [Prod.mk.injEq] at heq
      obtain ⟨hl, rfl⟩ := heq
      cases hf : follow (mockDeps env) ctx fuel s
          (t ++ [Event.Alive (env.Alive (seen Kind.Alive t)).1 (env.Alive (seen Kind.Alive t)).2] ++
            [Event.MutexTryLock
              (env.MutexTryLock (seen Kind.MutexTryLock
                (t ++ [Event.Alive (env.Alive (seen Kind.Alive t)).1
                        (env.Alive (seen Kind.Alive t)).2]))).1
              (env.MutexTryLock (seen Kind.MutexTryLock
                (t ++ [Event.Alive (env.Alive (seen Kind.Alive t)).1
                        (env.Alive (seen Kind.Alive t)).2]))).2]) with
      | none => rw [hf] at h; simp at h
      | some r =>
        obtain ⟨fe, fs, ft⟩ := r
        obtain ⟨n1, rfl, h1, hp, hs⟩ := follow_harmless env _ _ _ _ _ _ _ hf
        rw [hf] at h
        simp only [setState, mock_StoreState] at h
        repeat' split at h
        all_goals try simp only [Prod.mk.injEq, Option.some.injEq, reduceCtorEq] at *
        all_goals repeat (cases ‹_ ∧ _›)
        all_goals subst_vars
        all_goals simp only [List.append_assoc]
        all_goals exact ⟨_, rfl, by (try simp [Event.kind] at *); simp [Safe, masterStoresGuarded, putsOnly, hl, ha,
            masterStoresGuarded_append_harmless _ _ _ h1, putsOnly_append,
            masterStoresGuarded_harmless _ _ h1, Replica, Master,
            putsOnly_harmless _ _ h1], by assumption,
            by simp [lastStore, lastStore_append, hs]⟩

theorem checkBody_safe (env : Script) (ctx : Ctx) (fuel : Nat) (s s' : Sentinel)
    (t t' : Trace) (e : Option GoError)
    (h : checkBody (mockDeps env) ctx fuel s t = some (e, s', t')) :
    ∃ new, t' = t ++ new ∧ Safe s.payload false new ∧ s'.payload = s.payload
      ∧ s'.state = lastStore new s.state := by
  unfold checkBody at h
  split at h
  · simp only [Option.some.injEq] at h
    exact checkMaster_safe env _ _ _ _ _ _ h
  · split at h
    · exact checkReplica_safe env _ _ _ _ _ _ _ h
    · exact checkDetached_safe env _ _ _ _ _ _ _ h

theorem check_safe (env : Script) (ctx : Ctx) (fuel : Nat) (s s' : Sentinel)
    (t t' : Trace)
    (h : check (mockDeps env) ctx fuel s t = some (s', t')) :
    ∃ new, t' = t ++ new ∧ Safe s.payload false new ∧ s'.payload = s.payload
      ∧ s'.state = lastStore new s.state := by
  unfold check at h
  split at h
  · simp only [Option.some.injEq, Prod.mk.injEq] at h
    obtain ⟨rfl, rfl⟩ := h
    exact ⟨[], by simp, by simp [Safe, masterStoresGuarded, putsOnly], rfl, rfl⟩
  · cases hb : checkBody (mockDeps env) ctx fuel { s with done := 1 } t with
    | none => simp only [hb] at h; simp at h
    | some r =>
      obtain ⟨e, s1, t1⟩ := r
      obtain ⟨n1, rfl, ⟨hg, hp⟩, hpay, hs⟩ := checkBody_safe env _ _ _ _ _ _ _ hb
      simp only [hb, mock_Now, setErr] at h
      simp only [Option.some.injEq, Prod.mk.injEq] at h
      obtain ⟨rfl, rfl⟩ := h
      simp only [List.append_assoc]
      refine ⟨_, rfl, ⟨?_, ?_⟩, ?_, ?_⟩
      · exact masterStoresGuarded_append_right _ (by simp [Event.harmless]) _ _ hg
      · simp [putsOnly_append, putsOnly] at hp ⊢
        exact hp
      · cases e <;> simpa using hpay
      · cases e <;> simpa [lastStore_append, lastStore] using hs

theorem prepareMaster_safe (env : Script) (ctx : Ctx) (fuel : Nat) (s s' : Sentinel)
    (t t' : Trace) (e : Option GoError)
    (h : prepareMaster (mockDeps env) ctx fuel s t = some (e, s', t')) :
    ∃ new, t' = t ++ new ∧ Safe s.payload false new ∧ s'.payload = s.payload
      ∧ s'.state = lastStore new s.state := by
  unfold prepareMaster at h
  simp only [mock_MutexTryLock, setState, mock_StoreState, mock_DictionaryPut] at h
  split at h
  · simp only [Prod.mk.injEq, Option.some.injEq] at *
    repeat (cases ‹_ ∧ _›)
    subst_vars
    exact ⟨_, rfl, by simp [Safe, masterStoresGuarded, putsOnly, *],
      by trivial, by simp [lastStore]⟩
  · simp only [Prod.mk.injEq, Option.some.injEq] at *
    repeat (cases ‹_ ∧ _›)
    subst_vars
    simp only [List.append_assoc]
    exact ⟨_, rfl, by (try simp [Event.kind] at *); simp [Safe, masterStoresGuarded, putsOnly, *],
      by trivial, by simp [lastStore]⟩
  · rename_i heq
    simp only [Prod.mk.injEq] at heq
    obtain ⟨hl, rfl⟩ := heq
    cases hg : getMaster (mockDeps env) ctx fuel
        (t ++ [Event.MutexTryLock (env.MutexTryLock (seen Kind.MutexTryLock t)).1
                (env.MutexTryLock (seen Kind.MutexTryLock t)).2]) with
    | none => rw [hg] at h; simp at h
    | some r =>
      obtain ⟨res, tg⟩ := r
      obtain ⟨n1, rfl, hq⟩ := getMasterLoop_quiet env _ _ _ _ _ hg
      have h1 := Harmless_of_quiet n1 hq
      have hls := lastStore_quiet n1 hq
      rw [hg] at h
      simp only [mock_Stop, mock_Backup, mock_Start, setState, mock_StoreState] at h
      repeat' split at h
      all_goals try simp only [Prod.mk.injEq, Option.some.injEq, Except.ok.injEq,
        Except.error.injEq, reduceCtorEq] at *
      all_goals repeat (cases ‹_ ∧ _›)
      all_goals subst_vars
      all_goals simp only [List.append_assoc]
      all_goals exact ⟨_, rfl, by (try simp [Event.kind] at *); simp [Safe, masterStoresGuarded,
          putsOnly, hl, masterStoresGuarded_append_harmless _ _ _ h1, putsOnly_append,
          masterStoresGuarded_harmless _ _ h1, Replica, Master,
          putsOnly_harmless _ _ h1], by first | assumption | trivial,
          by simp [lastStore, lastStore_append, hls]⟩

theorem Prepare_safe (env : Script) (ctx : Ctx) (fuel : Nat) (s s' : Sentinel)
    (t t' : Trace) (e : Option GoError)
    (h : Prepare (mockDeps env) ctx fuel s t = some (e, s', t')) :
    ∃ new, t' = t ++ new ∧ Safe s'.payload false new
      ∧ (new = [] ∨ env.gob.Encode { Host := s.hostname, Port := s.port } = .ok s'.payload)
      ∧ s'.state = lastStore new s.state := by
  unfold Prepare at h
  simp only [mock_gob, mock_InRecovery] at h
  split at h
  · simp only [Prod.mk.injEq, Option.some.injEq] at h
    obtain ⟨_, rfl, rfl⟩ := h
    exact ⟨[], by simp, by simp [Safe, masterStoresGuarded, putsOnly], Or.inl rfl, rfl⟩
  · rename_i buf henc
    split at h
    · simp only [Prod.mk.injEq, Option.some.injEq] at *
      repeat (cases ‹_ ∧ _›)
      subst_vars
      exact ⟨_, rfl, by simp [Safe, masterStoresGuarded, putsOnly], Or.inr henc,
        by simp [lastStore]⟩
    · rename_i inRecovery w heq
      simp only [Prod.mk.injEq] at heq
      obtain ⟨hr, rfl⟩ := heq
      cases inRecovery with
      | false =>
        simp only [Bool.not_false, ↓reduceIte] at h
        cases hp : prepareMaster (mockDeps env) ctx fuel { s with payload := buf }
            (t ++ [Event.InRecovery (env.InRecovery (seen Kind.InRecovery t)).1
                    (env.InRecovery (seen Kind.InRecovery t)).2]) with
        | none => rw [hp] at h; simp at h
        | some r =>
          obtain ⟨pe, ps, pt⟩ := r
          obtain ⟨n1, rfl, ⟨hg, hpu⟩, hpay, hs⟩ := prepareMaster_safe env _ _ _ _ _ _ _ hp
          rw [hp] at h
          simp only [] at hpay hpu hs
          cases pe <;> simp only [Option.some.injEq, Prod.mk.injEq] at h <;>
            obtain ⟨_, rfl, rfl⟩ := h <;> simp only [List.append_assoc] <;>
            refine ⟨_, rfl, ⟨?_, ?_⟩, Or.inr (by simpa [hpay] using henc), ?_⟩ <;>
            simp [masterStoresGuarded, putsOnly, lastStore, hg, hpu, hpay, hs]
      | true =>
        simp only [Bool.not_true, Bool.false_eq_true, ↓reduceIte] at h
        cases hp : awaitMaster (mockDeps env) ctx fuel { s with payload := buf }
            (t ++ [Event.InRecovery (env.InRecovery (seen Kind.InRecovery t)).1
                    (env.InRecovery (seen Kind.InRecovery t)).2]) with
        | none => rw [hp] at h; simp at h
        | some r =>
          obtain ⟨pe, ps, pt⟩ := r
          obtain ⟨n1, rfl, h1, hpay, hs⟩ := awaitMasterLoop_harmless env _ _ _ _ _ _ _ hp
          rw [hp] at h
          simp only [] at hpay hs
          cases pe <;> simp only [Option.some.injEq, Prod.mk.injEq] at h <;>
            obtain ⟨_, rfl, rfl⟩ := h <;> simp only [List.append_assoc] <;>
            refine ⟨_, rfl, ⟨?_, ?_⟩, Or.inr (by simpa [hpay] using henc), ?_⟩ <;>
            simp [masterStoresGuarded, putsOnly, lastStore, masterStoresGuarded_harmless _ _ h1,
              putsOnly_harmless _ _ h1, hs]

theorem run_trace (env : Script) (ctx : Ctx) (fuel : Nat) (op : Op)
    (s s' : Sentinel) (t t' : Trace)
    (h : run (mockDeps env) ctx fuel op s t = some (s', t')) :
    ∃ new, t' = t ++ new
      ∧ masterStoresGuarded false new = true
      ∧ putsOnly s'.payload new = true
      ∧ (match op with
         | .prepare =>
           new = [] ∨ env.gob.Encode { Host := s.hostname, Port := s.port } = .ok s'.payload
         | .tick => s'.payload = s.payload)
      ∧ s'.state = lastStore new s.state := by
  cases op with
  | prepare =>
    simp only [run, Option.map_eq_some'] at h
    obtain ⟨⟨e, s1, t1⟩, hp, heq⟩ := h
    simp only [Prod.mk.injEq] at heq
    obtain ⟨rfl, rfl⟩ := heq
    obtain ⟨new, rfl, ⟨hg, hpu⟩, henc, hs⟩ := Prepare_safe env _ _ _ _ _ _ _ hp
    exact ⟨new, rfl, hg, hpu, henc, hs⟩
  | tick =>
    simp only [run] at h
    obtain ⟨new, rfl, ⟨hg, hpu⟩, hpay, hs⟩ := check_safe env _ _ _ _ _ _ h
    exact ⟨new, rfl, hg, by rw [hpay]; exact hpu, hpay, hs⟩

theorem masterStoresGuarded_rejects_unlocked :
    masterStoresGuarded false [.StoreState Master] = false
    ∧ masterStoresGuarded false
        [.MutexTryLock true none, .MutexUnlock none, .StoreState Master] = false
    ∧ masterStoresGuarded false [.MutexTryLock false none, .StoreState Master] = false := by
  decide

/-- C2. Every store of `Master` and every write of `master-info`, in `Prepare` and in a
tick alike: in the interactions `new` of the operation, `Master` is stored only after a
`MutexTryLock` of the same operation answered `(true, nil)`, with no `MutexUnlock` in
between, and every `DictionaryPut` writes under `"master-info"` the payload of the agent,
which a tick leaves as it was and which `Prepare` sets to the encoding of the
self-HostInfo. -/
theorem master_stores_guarded (env : Script) (ctx : Ctx) (fuel : Nat) (op : Op)
    (s s' : Sentinel) (t t' : Trace)
    (h : run (mockDeps env) ctx fuel op s t = some (s', t')) :
    ∃ new, t' = t ++ new
      ∧ masterStoresGuarded false new = true
      ∧ putsOnly s'.payload new = true
      ∧ (match op with
         | .prepare =>
           new = [] ∨ env.gob.Encode { Host := s.hostname, Port := s.port } = .ok s'.payload
         | .tick => s'.payload = s.payload) := by
  obtain ⟨new, h1, h2, h3, h4, _⟩ := run_trace env ctx fuel op s s' t t' h
  exact ⟨new, h1, h2, h3, h4⟩

/-- C2, for the tick in which the replica of `replicaScript` promotes itself. -/
theorem master_stores_guarded_witness :
    ∃ new,
      promotedTrace = [] ++ new
      ∧ masterStoresGuarded false new = true
      ∧ putsOnly [0, 5432, 108, 111, 99, 97, 108, 104, 111, 115, 116] new = true
      ∧ ({ streamingReplica with state := Master, counterCheckSuccess := 1 } : Sentinel).payload
          = streamingReplica.payload :=
  master_stores_guarded replicaScript [] 4 .tick streamingReplica
    { streamingReplica with state := Master, counterCheckSuccess := 1 } [] promotedTrace
    (by decide)

/-! ## The fleet -/

theorem replay_frame (i j : Nat) (hji : j ≠ i) :
    ∀ (new : Trace) (sh sh' : Shared), sh.replay i new = some sh' →
      (sh.holder = some j → sh'.holder = some j) ∧ (j ∈ sh'.released ↔ j ∈ sh.released)
      ∧ (j ∈ sh'.expired ↔ j ∈ sh.expired) := by
  intro new
  induction new with
  | nil =>
    intro sh sh' h
    simp only [Shared.replay, Option.some.injEq] at h
    subst h
    exact ⟨id, Iff.rfl, Iff.rfl⟩
  | cons e new ih =>
    intro sh sh' h
    simp only [Shared.replay] at h
    split at h
    · rename_i hadm
      obtain ⟨ih1, ih2, ih3⟩ := ih _ _ h
      have key : (sh.holder = some j → (sh.apply i e).holder = some j)
          ∧ (j ∈ (sh.apply i e).released ↔ j ∈ sh.released)
          ∧ (j ∈ (sh.apply i e).expired ↔ j ∈ sh.expired) := by
        cases e with
        | MutexTryLock l err =>
          cases l with
          | false => cases err <;> exact ⟨id, Iff.rfl, Iff.rfl⟩
          | true =>
            cases err with
            | some err => exact ⟨id, Iff.rfl, Iff.rfl⟩
            | none =>
              simp only [Shared.allows, decide_eq_true_eq] at hadm
              simp only [Shared.apply]
              refine ⟨?_, ?_, ?_⟩
              · intro hh
                rw [hh] at hadm
                rcases hadm with h0 | h0
                · simp at h0
                · simp only [Option.some.injEq] at h0
                  exact absurd h0 hji
              · simp [List.mem_filter, hji]
              · simp [List.mem_filter, hji]
        | MutexUnlock err =>
          cases err with
          | some err => exact ⟨id, Iff.rfl, Iff.rfl⟩
          | none =>
            simp only [Shared.apply]
            refine ⟨?_, ?_, ?_⟩
            · intro hh
              rw [hh]
              have : ¬ (some j = some i) := by
                simp only [Option.some.injEq]
                exact hji
              simp [this]
            · simp [hji]
            · trivial
        | DictionaryPut k v err => cases err <;> simp [Shared.apply]
        | DictionaryRemove k err => cases err <;> simp [Shared.apply]
        | _ => simp [Shared.apply]
      exact ⟨fun hh => ih1 (key.1 hh), ih2.trans key.2.1, ih3.trans key.2.2⟩
    · simp at h

theorem replay_self (i : Nat) :
    ∀ (new : Trace) (sh sh' : Shared) (held : Bool) (st : ClusterState),
      sh.replay i new = some sh' →
      masterStoresGuarded held new = true →
      (held = true → sh.holder = some i) →
      (st = Master → sh.holder = some i ∨ i ∈ sh.released ∨ i ∈ sh.expired) →
      lastStore new st = Master →
      sh'.holder = some i ∨ i ∈ sh'.released ∨ i ∈ sh'.expired := by
  intro new
  induction new with
  | nil =>
    intro sh sh' held st h _ _ hJ hst
    simp only [Shared.replay, Option.some.injEq] at h
    subst h
    exact hJ hst
  | cons e new ih =>
    intro sh sh' held st h hg hheld hJ hst
    simp only [Shared.replay] at h
    split at h
    · rename_i hadm
      cases e with
      | MutexTryLock l err =>
        cases l <;> cases err <;> simp only [masterStoresGuarded, lastStore] at hg hst
        · exact ih _ _ held st h hg hheld hJ hst
        · exact ih _ _ held st h hg hheld hJ hst
        · exact ih _ _ true st h hg (fun _ => by simp [Shared.apply])
            (fun _ => Or.inl (by simp [Shared.apply])) hst
        · exact ih _ _ held st h hg hheld hJ hst
      | MutexUnlock err =>
        simp only [masterStoresGuarded, lastStore] at hg hst
        cases err with
        | none =>
          exact ih _ _ false st h hg (fun hh => by simp at hh)
            (fun _ => Or.inr (Or.inl (by simp [Shared.apply]))) hst
        | some err =>
          exact ih _ _ false st h hg (fun hh => by simp at hh) hJ hst
      | StoreState v =>
        simp only [masterStoresGuarded, lastStore, Bool.and_eq_true, Bool.or_eq_true,
          decide_eq_true_eq] at hg hst
        refine ih _ _ held v h hg.2 hheld ?_ hst
        intro hv
        rcases hg.1 with hne | hh
        · exact absurd hv hne
        · exact Or.inl (hheld hh)
      | DictionaryPut k v err =>
        simp only [masterStoresGuarded, lastStore] at hg hst
        cases err <;> exact ih _ _ held st h hg hheld hJ hst
      | DictionaryRemove k err =>
        simp only [masterStoresGuarded, lastStore] at hg hst
        cases err <;> exact ih _ _ held st h hg hheld hJ hst
      | _ =>
        simp only [masterStoresGuarded, lastStore] at hg hst
        exact ih _ _ held st h hg hheld hJ hst
    · simp at h

theorem reachable_master_holds_or_lost (g : System) (hg : Reachable g) :
    ∀ i, (g.agents i).state = Master →
      g.shared.holder = some i ∨ i ∈ g.shared.released ∨ i ∈ g.shared.expired := by
  induction hg with
  | init size host port =>
    intro i h
    simp [System.init, New, Master] at h
  | @step g g' k op env ctx fuel _ hstep ih =>
    intro i hi
    simp only [System.step] at hstep
    split at hstep
    · cases hr : run (mockDeps env) ctx fuel op (g.agents k) [] with
      | none => rw [hr] at hstep; simp at hstep
      | some r =>
        obtain ⟨s', new⟩ := r
        rw [hr] at hstep
        simp only [] at hstep
        cases hp : g.shared.replay k new with
        | none => rw [hp] at hstep; simp at hstep
        | some sh' =>
          rw [hp] at hstep
          simp only [Option.some.injEq] at hstep
          subst hstep
          obtain ⟨new', hnew, hguard, _, _, hstate⟩ := run_trace env ctx fuel op _ _ _ _ hr
          simp only [List.nil_append] at hnew
          subst hnew
          by_cases hik : i = k
          · subst hik
            simp only [Function.update_same] at hi
            simp only []
            rw [hstate] at hi
            exact replay_self i new _ _ false _ hp hguard (fun hh => by simp at hh) (ih i) hi
          · simp only [Function.update_noteq hik] at hi
            simp only []
            obtain ⟨f1, f2, f3⟩ := replay_frame k i hik new _ _ hp
            rcases ih i hi with hh | hh | hh
            · exact Or.inl (f1 hh)
            · exact Or.inr (Or.inl (f2.mpr hh))
            · exact Or.inr (Or.inr (f3.mpr hh))
    · simp at hstep
  | @expire g _ ih =>
    intro i hi
    have hi' : (g.agents i).state = Master := hi
    simp only [System.expire, Shared.expire]
    cases hh : g.shared.holder with
    | none =>
      simp only []
      rcases ih i hi' with h1 | h1 | h1
      · rw [hh] at h1
        simp at h1
      · exact Or.inr (Or.inl h1)
      · exact Or.inr (Or.inr h1)
    | some k =>
      simp only []
      rcases ih i hi' with h1 | h1 | h1
      · rw [hh] at h1
        simp only [Option.some.injEq] at h1
        subst h1
        exact Or.inr (Or.inr (by simp))
      · exact Or.inr (Or.inl h1)
      · exact Or.inr (Or.inr (by simp [h1]))

theorem runSchedule_reachable :
    ∀ (l : Schedule) (g g' : System), Reachable g → g.runSchedule l = some g' → Reachable g' := by
  intro l
  induction l with
  | nil =>
    intro g g' hg h
    simp only [System.runSchedule, Option.some.injEq] at h
    subst h
    exact hg
  | cons a l ih =>
    intro g g' hg h
    obtain ⟨i, op, env, fuel⟩ := a
    simp only [System.runSchedule] at h
    cases hs : g.step i op env [] fuel with
    | none => rw [hs] at h; simp at h
    | some g1 =>
      rw [hs] at h
      exact ih g1 g' (Reachable.step i op env [] fuel hg hs) h

theorem failedOver_reachable : Reachable failedOver := by
  cases h : fleetOfTwo.runSchedule failoverSchedule with
  | none =>
    have : (fleetOfTwo.runSchedule failoverSchedule).isSome = true := by decide
    rw [h] at this
    simp at this
  | some g =>
    have e : failedOver = g := by simp [failedOver, h]
    rw [e]
    exact runSchedule_reachable failoverSchedule fleetOfTwo g (Reachable.init _ _ _) h

theorem lapsedOver_reachable : Reachable lapsedOver := by
  cases h1 : fleetOfTwo.runSchedule startupSchedule with
  | none =>
    have : (fleetOfTwo.runSchedule startupSchedule).isSome = true := by decide
    rw [h1] at this
    simp at this
  | some g1 =>
    have r1 : Reachable g1 :=
      runSchedule_reachable startupSchedule fleetOfTwo g1 (Reachable.init _ _ _) h1
    cases h2 : g1.expire.runSchedule takeoverSchedule with
    | none =>
      have : (((fleetOfTwo.runSchedule startupSchedule).map System.expire).bind
          (fun g => g.runSchedule takeoverSchedule)).isSome = true := by decide
      rw [h1] at this
      simp [h2] at this
    | some g2 =>
      have e : lapsedOver = g2 := by simp [lapsedOver, h1, h2]
      rw [e]
      exact runSchedule_reachable takeoverSchedule g1.expire g2 (Reachable.expire r1) h2

/-- C1, as stated, fails.  In a fleet of two, agent 0 starts as master and agent 1 as a
replica; the tick of agent 0 finds its instance down, unlocks the mutex successfully and
leaves its state `Master`; the tick of agent 1 wins the mutex and promotes.  Both agents
are then in state `Master`. -/
theorem two_masters_reachable :
    fleetOfTwo.runSchedule failoverSchedule = some failedOver
    ∧ Reachable failedOver
    ∧ State (failedOver.agents 0) = Master
    ∧ State (failedOver.agents 1) = Master := by
  refine ⟨?_, failedOver_reachable, by decide, by decide⟩
  cases h : fleetOfTwo.runSchedule failoverSchedule with
  | none =>
    have : (fleetOfTwo.runSchedule failoverSchedule).isSome = true := by decide
    rw [h] at this
    simp at this
  | some g => simp [failedOver, h]

/-- C1, amended.  In every reachable state of the fleet, two distinct agents are both in
state `Master` only if one of them does not hold the mutex any more, having lost it in
one of two ways: its last successful mutex operation was a `MutexUnlock` (the path of
`checkMaster` on which a master whose liveness probe failed gives the mutex up and keeps
its state), or its lease expired and it has not won the mutex since (the state of an
agent is not changed by the loss of its session). -/
theorem two_masters_only_after_loss (g : System) (hg : Reachable g) (i j : Nat)
    (hij : i ≠ j)
    (hi : State (g.agents i) = Master) (hj : State (g.agents j) = Master) :
    (g.shared.holder ≠ some i ∧ (i ∈ g.shared.released ∨ i ∈ g.shared.expired))
    ∨ (g.shared.holder ≠ some j ∧ (j ∈ g.shared.released ∨ j ∈ g.shared.expired)) := by
  have Ji := reachable_master_holds_or_lost g hg i hi
  have Jj := reachable_master_holds_or_lost g hg j hj
  by_cases h : g.shared.holder = some i
  · right
    have hne : g.shared.holder ≠ some j := by
      rw [h]
      simp only [ne_eq, Option.some.injEq]
      exact hij
    rcases Jj with h' | h'
    · exact absurd h' hne
    · exact ⟨hne, h'⟩
  · left
    rcases Ji with h' | h'
    · exact absurd h' h
    · exact ⟨h, h'⟩

/-- C1, amended, at the two ways to two masters: after the failover agent 0 is the one
that released the mutex; after the takeover without a release both agents are in state
`Master` too, agent 1 holds the mutex, and agent 0 is the one whose lease expired, without
any `MutexUnlock`. -/
theorem two_masters_only_after_loss_witness :
    ((failedOver.shared.holder ≠ some 0
          ∧ (0 ∈ failedOver.shared.released ∨ 0 ∈ failedOver.shared.expired))
        ∨ (failedOver.shared.holder ≠ some 1
          ∧ (1 ∈ failedOver.shared.released ∨ 1 ∈ failedOver.shared.expired)))
    ∧ ((lapsedOver.shared.holder ≠ some 0
          ∧ (0 ∈ lapsedOver.shared.released ∨ 0 ∈ lapsedOver.shared.expired))
        ∨ (lapsedOver.shared.holder ≠ some 1
          ∧ (1 ∈ lapsedOver.shared.released ∨ 1 ∈ lapsedOver.shared.expired)))
    ∧ State (lapsedOver.agents 0) = Master ∧ State (lapsedOver.agents 1) = Master
    ∧ lapsedOver.shared.holder = some 1
    ∧ lapsedOver.shared.released = [] ∧ lapsedOver.shared.expired = [0] :=
  ⟨two_masters_only_after_loss failedOver failedOver_reachable 0 1 (by decide) (by decide)
      (by decide),
   two_masters_only_after_loss lapsedOver lapsedOver_reachable 0 1 (by decide) (by decide)
      (by decide),
   by decide, by decide, by decide, by decide, by decide⟩

/-! ## Following the master -/

theorem sameMaster_self (m : hostinfo) : sameMaster (some m) m = true := by
  simp [sameMaster]

theorem sameMaster_of_ne (o : Option hostinfo) (m : hostinfo) (h : o ≠ some m) :
    sameMaster o m = false := by
  cases o with
  | none => rfl
  | some o =>
    cases o; cases m
    simp_all [sameMaster]

theorem getMasterLoop_polls (env : Script) (ctx : Ctx) (p : Bytes) (m : hostinfo)
    (hdec : env.gob.Decode p = .ok m) (extra : Nat) :
    ∀ (k : Nat) (t : Trace),
      (∀ j, j ≤ k → env.Done (seen .Done t + j) = false) →
      (∀ j, j < k → env.DictionaryGet (seen .DictionaryGet t + j) = (none, none)) →
      env.DictionaryGet (seen .DictionaryGet t + k) = (some p, none) →
      getMasterLoop (mockDeps env) ctx (k + 1 + extra) t
        = some (.ok m,
            t ++ repeatTrace [.Done ctx false, .DictionaryGet dictKeyMasterInfo none none,
                              .Sleep DefaultPgPollDelay] k
              ++ [.Done ctx false, .DictionaryGet dictKeyMasterInfo (some p) none]) := by
  intro k
  induction k with
  | zero =>
    intro t hd _ hr
    have hd0 := hd 0 (le_refl 0)
    simp only [Nat.add_zero] at hd0 hr
    simp [getMasterLoop, hd0, hr, hdec, Event.kind, repeatTrace,
      show 0 + 1 + extra = extra + 1 by omega]
  | succ k ih =>
    intro t hd hn hr
    have hd0 := hd 0 (Nat.zero_le _)
    have hn0 := hn 0 (Nat.succ_pos _)
    simp only [Nat.add_zero] at hd0 hn0
    have e : k + 1 + 1 + extra = (k + 1 + extra) + 1 := by omega
    rw [e]
    simp [getMasterLoop, hd0, hn0, Event.kind]
    rw [ih]
    · simp [repeatTrace]
    · intro j hj
      have := hd (j + 1) (by omega)
      simpa [Event.kind, Nat.add_assoc, Nat.add_comm 1 j] using this
    · intro j hj
      have := hn (j + 1) (by omega)
      simpa [Event.kind, Nat.add_assoc, Nat.add_comm 1 j] using this
    · simpa [Event.kind, Nat.add_assoc, Nat.add_comm 1 k] using hr

theorem seen_repeatTrace (kd : Kind) (es : Trace) :
    ∀ (k : Nat), seen kd (repeatTrace es k) = k * seen kd es := by
  intro k
  induction k with
  | zero => simp [repeatTrace]
  | succ k ih => simp [repeatTrace, ih, Nat.succ_mul, Nat.add_comm]

/-- C11. `follow` against an unchanged `master-info`: when `masterInfo` is set and equal
to the master `m` that the payload decodes to, `follow` reads `master-info` and nothing
else (no `Stop`, `Backup`, `Start`), returns `nil` and leaves the sentinel as it was.
In particular, once a `follow` has re-synced to `m`, a second `follow` that reads a
payload of `m` again adds the read only. -/
theorem follow_unchanged_master (env : Script) (ctx : Ctx) (fuel : Nat) (s s0 : Sentinel)
    (t : Trace) (p p0 : Bytes) (m : hostinfo)
    (hdec : env.gob.Decode p = .ok m) :
    (s.masterInfo = some m →
      env.Done (seen .Done t) = false →
      env.DictionaryGet (seen .DictionaryGet t) = (some p, none) →
      follow (mockDeps env) ctx (fuel + 1) s t
        = some (none, s,
            t ++ [.Done (WithTimeout ctx DefaultPgAwaitTimeout) false,
                  .DictionaryGet dictKeyMasterInfo (some p) none]))
    ∧ (s0.masterInfo ≠ some m →
        env.gob.Decode p0 = .ok m →
        env.Done (seen .Done t) = false →
        env.DictionaryGet (seen .DictionaryGet t) = (some p0, none) →
        env.Stop (seen .Stop t) = none →
        env.Backup (seen .Backup t) = none →
        env.Start (seen .Start t) = none →
        env.Done (seen .Done t + 1) = false →
        env.DictionaryGet (seen .DictionaryGet t + 1) = (some p, none) →
        follow (mockDeps env) ctx (fuel + 1) s0 t
            = some (none, { s0 with masterInfo := some m },
                t ++ [.Done (WithTimeout ctx DefaultPgAwaitTimeout) false,
                      .DictionaryGet dictKeyMasterInfo (some p0) none,
                      .Stop none, .Backup m.Host m.Port none, .Start none])
        ∧ follow (mockDeps env) ctx (fuel + 1) { s0 with masterInfo := some m }
              (t ++ [.Done (WithTimeout ctx DefaultPgAwaitTimeout) false,
                     .DictionaryGet dictKeyMasterInfo (some p0) none,
                     .Stop none, .Backup m.Host m.Port none, .Start none])
            = some (none, { s0 with masterInfo := some m },
                t ++ [.Done (WithTimeout ctx DefaultPgAwaitTimeout) false,
                      .DictionaryGet dictKeyMasterInfo (some p0) none,
                      .Stop none, .Backup m.Host m.Port none, .Start none,
                      .Done (WithTimeout ctx DefaultPgAwaitTimeout) false,
                      .DictionaryGet dictKeyMasterInfo (some p) none])) := by
  constructor
  · intro hsame hlive hget
    simp [follow, getMaster, getMasterLoop, Event.kind, hlive, hget, hdec, hsame,
      sameMaster_self]
  · intro hne hdec0 hlive hget hstop hbackup hstart hlive2 hget2
    have hs := sameMaster_of_ne _ _ hne
    constructor
    · simp [follow, getMaster, getMasterLoop, Event.kind, hlive, hget, hdec0, hs, hstop,
        hbackup, hstart]
    · simp [follow, getMaster, getMasterLoop, Event.kind, hlive2, hget2, hdec,
        sameMaster_self]

/-- C11, for a replica of `{"m", 5432}` while `master-info` names `{"m", 5432}`. -/
theorem follow_unchanged_master_witness :
    follow (mockDeps followerScript) [] 1 streamingReplica []
      = some (none, streamingReplica,
          [.Done [DefaultPgAwaitTimeout] false,
           .DictionaryGet dictKeyMasterInfo (some mPayload) none]) :=
  (follow_unchanged_master followerScript [] 0 streamingReplica streamingReplica []
    mPayload mPayload { Host := "m", Port := 5432 } (by rfl)).1 (by rfl) (by decide) (by decide)

/-- C12. `follow` when a re-sync is needed (`master-info` decodes to a master `m`
different from `masterInfo`): the result in closed form.  When `Stop` fails neither
`Backup` nor `Start` is called; when `Backup` fails `Start` is not called; and a failure
of any of the three is returned as the error, with `Detached` stored and `masterInfo`
left as it was. -/
theorem follow_resync_failures (env : Script) (ctx : Ctx) (fuel : Nat) (s : Sentinel)
    (t : Trace) (p : Bytes) (m : hostinfo)
    (hlive : env.Done (seen .Done t) = false)
    (hget : env.DictionaryGet (seen .DictionaryGet t) = (some p, none))
    (hdec : env.gob.Decode p = .ok m)
    (hne : s.masterInfo ≠ some m) :
    follow (mockDeps env) ctx (fuel + 1) s t
      = match env.Stop (seen .Stop t) with
        | some e =>
          some (some e, { s with state := Detached },
            t ++ [.Done (WithTimeout ctx DefaultPgAwaitTimeout) false,
                  .DictionaryGet dictKeyMasterInfo (some p) none,
                  .Stop (some e), .StoreState Detached])
        | none =>
          match env.Backup (seen .Backup t) with
          | some e =>
            some (some e, { s with state := Detached },
              t ++ [.Done (WithTimeout ctx DefaultPgAwaitTimeout) false,
                    .DictionaryGet dictKeyMasterInfo (some p) none,
                    .Stop none, .Backup m.Host m.Port (some e), .StoreState Detached])
          | none =>
            match env.Start (seen .Start t) with
            | some e =>
              some (some e, { s with state := Detached },
                t ++ [.Done (WithTimeout ctx DefaultPgAwaitTimeout) false,
                      .DictionaryGet dictKeyMasterInfo (some p) none,
                      .Stop none, .Backup m.Host m.Port none, .Start (some e),
                      .StoreState Detached])
            | none =>
              some (none, { s with masterInfo := some m },
                t ++ [.Done (WithTimeout ctx DefaultPgAwaitTimeout) false,
                      .DictionaryGet dictKeyMasterInfo (some p) none,
                      .Stop none, .Backup m.Host m.Port none, .Start none]) := by
  have hs := sameMaster_of_ne _ _ hne
  rcases h1 : env.Stop (seen .Stop t) with _ | e1 <;>
  rcases h2 : env.Backup (seen .Backup t) with _ | e2 <;>
  rcases h3 : env.Start (seen .Start t) with _ | e3 <;>
  simp [follow, getMaster, getMasterLoop, setState, Event.kind, hlive, hget, hdec, hs, h1, h2,
    h3]

/-- C12, for a replica of `{"m", 5432}` whose base backup from `{"other", 5432}` fails. -/
theorem follow_resync_failures_witness :
    follow (mockDeps failedBackupScript) [] 1 streamingReplica []
      = some (some "pg_basebackup failed", { streamingReplica with state := Detached },
          [.Done [DefaultPgAwaitTimeout] false,
           .DictionaryGet dictKeyMasterInfo (some otherPayload) none,
           .Stop none, .Backup "other" 5432 (some "pg_basebackup failed"),
           .StoreState Detached]) :=
  follow_resync_failures failedBackupScript [] 0 streamingReplica [] otherPayload
    { Host := "other", Port := 5432 } (by decide) (by decide) (by rfl) (by decide)

/-- C14. A tick of a detached agent whose instance is alive and that wins the mutex:
the check body returns "inconsistent state", the error counter is incremented and the
error is offered to `errChan`, state and `masterInfo` stay as they were, and the
interactions are `Alive`, `MutexTryLock` and `Now` only: no Dictionary operation, no
`Stop`, `Backup`, `Start` or `Promote`. -/
theorem check_detached_wins_mutex (env : Script) (ctx : Ctx) (fuel : Nat) (s : Sentinel)
    (t : Trace)
    (hstate : s.state = Detached) (hdone : s.done = 0)
    (halive : env.Alive (seen .Alive t) = (true, none))
    (hlock : env.MutexTryLock (seen .MutexTryLock t) = (true, none)) :
    check (mockDeps env) ctx fuel s t
      = some ({ s with errChan := (setErr s errInconsistentState).errChan,
                       counterCheckErrors := s.counterCheckErrors + 1,
                       lastCheck := env.Now (seen .Now t) },
          t ++ [.Alive true none, .MutexTryLock true none, .Now (env.Now (seen .Now t))])
    ∧ (checkBody (mockDeps env) ctx fuel { s with done := 1 } t).map (fun r => r.1)
        = some (some errInconsistentState)
    ∧ State { s with errChan := (setErr s errInconsistentState).errChan,
                     counterCheckErrors := s.counterCheckErrors + 1,
                     lastCheck := env.Now (seen .Now t) } = Detached := by
  have hm : ¬ (Detached = Master) := by decide
  have hr : ¬ (Detached = Replica) := by decide
  simp [check, checkBody, checkDetached, setErr, State, hstate, hdone, hm, hr, halive, hlock,
    Event.kind]

/-- C14, for a detached agent under a script in which everything succeeds. -/
theorem check_detached_wins_mutex_witness :
    check (mockDeps calmScript) [] 0 detachedAgent []
      = some ({ detachedAgent with errChan := ["inconsistent state"],
                                   counterCheckErrors := 1 },
          [.Alive true none, .MutexTryLock true none, .Now 0]) :=
  (check_detached_wins_mutex calmScript [] 0 detachedAgent [] (by rfl) (by rfl) (by decide)
    (by decide)).1

theorem getMasterLoop_still_polling (env : Script) (ctx : Ctx) :
    ∀ (k : Nat) (t : Trace),
      (∀ j, j < k → env.Done (seen .Done t + j) = false) →
      (∀ j, j < k → env.DictionaryGet (seen .DictionaryGet t + j) = (none, none)) →
      getMasterLoop (mockDeps env) ctx k t = none := by
  intro k
  induction k with
  | zero => intro t _ _; rfl
  | succ k ih =>
    intro t hd hn
    have hd0 := hd 0 (Nat.succ_pos _)
    have hn0 := hn 0 (Nat.succ_pos _)
    simp only [Nat.add_zero] at hd0 hn0
    simp [getMasterLoop, hd0, hn0, Event.kind]
    apply ih
    · intro j hj
      have := hd (j + 1) (by omega)
      simpa [Event.kind, Nat.add_assoc, Nat.add_comm 1 j] using this
    · intro j hj
      have := hn (j + 1) (by omega)
      simpa [Event.kind, Nat.add_assoc, Nat.add_comm 1 j] using this

/-- C19. `getMaster` when `master-info` is absent for `k` polls and then holds a payload
`p` that decodes to `m`, the derived context not being done at any of these `k + 1`
polls: `getMaster` returns `m` with no error, after exactly `k + 1` calls of
`DictionaryGet`, each absent answer being followed by a sleep and another poll; within
the first `k` iterations the loop has not returned, with an error or otherwise. -/
theorem getMaster_polls (env : Script) (ctx : Ctx) (k extra : Nat) (t : Trace) (p : Bytes)
    (m : hostinfo)
    (hdec : env.gob.Decode p = .ok m)
    (hlive : ∀ j, j ≤ k → env.Done (seen .Done t + j) = false)
    (hnil : ∀ j, j < k → env.DictionaryGet (seen .DictionaryGet t + j) = (none, none))
    (hget : env.DictionaryGet (seen .DictionaryGet t + k) = (some p, none)) :
    getMaster (mockDeps env) ctx (k + 1 + extra) t
      = some (.ok m,
          t ++ repeatTrace [.Done (WithTimeout ctx DefaultPgAwaitTimeout) false,
                            .DictionaryGet dictKeyMasterInfo none none,
                            .Sleep DefaultPgPollDelay] k
            ++ [.Done (WithTimeout ctx DefaultPgAwaitTimeout) false,
                .DictionaryGet dictKeyMasterInfo (some p) none])
    ∧ seen .DictionaryGet
        (t ++ repeatTrace [.Done (WithTimeout ctx DefaultPgAwaitTimeout) false,
                           .DictionaryGet dictKeyMasterInfo none none,
                           .Sleep DefaultPgPollDelay] k
           ++ [.Done (WithTimeout ctx DefaultPgAwaitTimeout) false,
               .DictionaryGet dictKeyMasterInfo (some p) none])
        = seen .DictionaryGet t + (k + 1)
    ∧ getMaster (mockDeps env) ctx k t = none := by
  refine ⟨?_, ?_, ?_⟩
  · exact getMasterLoop_polls env _ p m hdec extra k t hlive hnil hget
  · simp [seen_repeatTrace, Event.kind]
  · exact getMasterLoop_still_polling env _ k t (fun j hj => hlive j (by omega)) hnil

/-- C19, with two polls that find `master-info` absent. -/
theorem getMaster_polls_witness :
    getMaster (mockDeps slowDictionaryScript) [] 3 []
      = some (.ok { Host := "other", Port := 5432 },
          [.Done [DefaultPgAwaitTimeout] false, .DictionaryGet dictKeyMasterInfo none none,
           .Sleep DefaultPgPollDelay,
           .Done [DefaultPgAwaitTimeout] false, .DictionaryGet dictKeyMasterInfo none none,
           .Sleep DefaultPgPollDelay,
           .Done [DefaultPgAwaitTimeout] false,
           .DictionaryGet dictKeyMasterInfo (some otherPayload) none]) :=
  (getMaster_polls slowDictionaryScript [] 2 0 [] otherPayload
    { Host := "other", Port := 5432 } (by rfl) (by intro j _; rfl)
    (by intro j hj; have : j = 0 ∨ j = 1 := by omega
        rcases this with h | h <;> subst h <;> rfl)
    (by decide)).1

/-! ## The transitions of the state -/

theorem follow_state {σ : Type} (d : Deps σ) (ctx : Ctx) (fuel : Nat) (s s' : Sentinel)
    (w w' : σ) (e : Option GoError)
    (h : follow d ctx fuel s w = some (e, s', w')) :
    (e = none → s'.state = s.state) ∧ (s'.state = s.state ∨ s'.state = Detached) := by
  unfold follow at h
  simp only [setState] at h
  repeat' split at h
  all_goals try simp only [Prod.mk.injEq, Option.some.injEq, reduceCtorEq] at *
  all_goals repeat (cases ‹_ ∧ _›)
  all_goals subst_vars
  all_goals simp

theorem promote_state {σ : Type} (d : Deps σ) (ctx : Ctx) (fuel : Nat) (s s' : Sentinel)
    (w w' : σ) (e : Option GoError)
    (h : promote d ctx fuel s w = some (e, s', w')) :
    s'.state = s.state ∨ s'.state = Master := by
  unfold promote at h
  simp only [setState] at h
  repeat' split at h
  all_goals try simp only [Prod.mk.injEq, Option.some.injEq, reduceCtorEq] at *
  all_goals repeat (cases ‹_ ∧ _›)
  all_goals subst_vars
  all_goals simp

theorem checkMaster_state {σ : Type} (d : Deps σ) (ctx : Ctx) (s s' : Sentinel)
    (w w' : σ) (e : Option GoError)
    (h : checkMaster d ctx s w = (e, s', w')) :
    s'.state = s.state ∨ s'.state = Detached := by
  unfold checkMaster at h
  simp only [setState] at h
  repeat' split at h
  all_goals try simp only [Prod.mk.injEq, Option.some.injEq, reduceCtorEq] at *
  all_goals repeat (cases ‹_ ∧ _›)
  all_goals subst_vars
  all_goals simp

theorem checkReplica_state {σ : Type} (d : Deps σ) (ctx : Ctx) (fuel : Nat) (s s' : Sentinel)
    (w w' : σ) (e : Option GoError)
    (h : checkReplica d ctx fuel s w = some (e, s', w')) :
    s'.state = s.state ∨ s'.state = Master ∨ s'.state = Detached := by
  unfold checkReplica at h
  simp only [] at h
  split at h
  · simp only [Prod.mk.injEq, Option.some.injEq] at h
    obtain ⟨_, rfl, _⟩ := h
    exact Or.inl rfl
  · rcases promote_state d _ _ _ _ _ _ _ h with h1 | h1
    · exact Or.inl h1
    · exact Or.inr (Or.inl h1)
  · rcases (follow_state d _ _ _ _ _ _ _ h).2 with h1 | h1
    · exact Or.inl h1
    · exact Or.inr (Or.inr h1)

theorem checkDetached_state {σ : Type} (d : Deps σ) (ctx : Ctx) (fuel : Nat)
    (s s' : Sentinel) (w w' : σ) (e : Option GoError)
    (h : checkDetached d ctx fuel s w = some (e, s', w')) :
    s'.state = s.state ∨ s'.state = Replica ∨ s'.state = Detached := by
  unfold checkDetached at h
  split at h
  · simp only [Prod.mk.injEq, Option.some.injEq] at h
    obtain ⟨_, rfl, _⟩ := h
    exact Or.inl rfl
  · simp only [Prod.mk.injEq, Option.some.injEq] at h
    obtain ⟨_, rfl, _⟩ := h
    exact Or.inl rfl
  · split at h
    · simp only [Prod.mk.injEq, Option.some.injEq] at h
      obtain ⟨_, rfl, _⟩ := h
      exact Or.inl rfl
    · simp only [Prod.mk.injEq, Option.some.injEq] at h
      obtain ⟨_, rfl, _⟩ := h
      exact Or.inl rfl
    · split at h
      · simp at h
      · rename_i hf
        simp only [Prod.mk.injEq, Option.some.injEq] at h
        obtain ⟨_, rfl, _⟩ := h
        rcases (follow_state d _ _ _ _ _ _ _ hf).2 with h1 | h1
        · exact Or.inl h1
        · exact Or.inr (Or.inr h1)
      · simp only [setState, Prod.mk.injEq, Option.some.injEq] at h
        obtain ⟨_, rfl, _⟩ := h
        exact Or.inr (Or.inl rfl)

theorem check_of_body {σ : Type} (d : Deps σ) (ctx : Ctx) (fuel : Nat)
    (s s' : Sentinel) (w w' : σ)
    (h : check d ctx fuel s w = some (s', w')) :
    (s.done ≠ 0 ∧ s' = s ∧ w' = w)
    ∨ (s.done = 0 ∧ ∃ e s1 w1,
        checkBody d ctx fuel { s with done := 1 } w = some (e, s1, w1)
        ∧ s'.state = s1.state ∧ s'.masterInfo = s1.masterInfo ∧ w' = (d.rt.Now w1).2) := by
  unfold check at h
  split at h
  · rename_i hd
    simp only [Option.some.injEq, Prod.mk.injEq] at h
    exact Or.inl ⟨hd, h.1.symm, h.2.symm⟩
  · rename_i hd
    right
    refine ⟨by simpa using hd, ?_⟩
    cases hb : checkBody d ctx fuel { s with done := 1 } w with
    | none => simp [hb] at h
    | some r =>
      obtain ⟨e, s1, w1⟩ := r
      refine ⟨e, s1, w1, rfl, ?_⟩
      simp only [hb, setErr, Option.some.injEq, Prod.mk.injEq] at h
      obtain ⟨rfl, rfl⟩ := h
      cases e <;> exact ⟨rfl, rfl, rfl⟩

theorem checkBody_state_pairs {σ : Type} (d : Deps σ) (ctx : Ctx) (fuel : Nat)
    (s s' : Sentinel) (w w' : σ) (e : Option GoError)
    (h : checkBody d ctx fuel s w = some (e, s', w')) :
    s'.state = s.state
    ∨ (s.state = Master ∧ s'.state = Detached)
    ∨ (s.state = Replica ∧ (s'.state = Master ∨ s'.state = Detached))
    ∨ (s.state ≠ Master ∧ s.state ≠ Replica ∧ (s'.state = Replica ∨ s'.state = Detached)) := by
  unfold checkBody at h
  split at h
  · rename_i hm
    simp only [Option.some.injEq] at h
    rcases checkMaster_state d _ _ _ _ _ _ h with h1 | h1
    · exact Or.inl h1
    · exact Or.inr (Or.inl ⟨hm, h1⟩)
  · rename_i hm
    split at h
    · rename_i hr
      rcases checkReplica_state d _ _ _ _ _ _ _ h with h1 | h1
      · exact Or.inl h1
      · exact Or.inr (Or.inr (Or.inl ⟨hr, h1⟩))
    · rename_i hr
      rcases checkDetached_state d _ _ _ _ _ _ _ h with h1 | h1
      · exact Or.inl h1
      · exact Or.inr (Or.inr (Or.inr ⟨hm, hr, h1⟩))

/-- C16, as stated, fails.  The tick of a replica of `{"m", 5432}` that finds
`master-info` naming `{"other", 5432}` and whose base backup fails starts in state
`Replica` and ends in state `Detached`, a pair that the list does not contain. -/
theorem replica_tick_can_detach :
    State streamingReplica = Replica
    ∧ (check (mockDeps failedBackupScript) [] 1 streamingReplica []).map (fun r => State r.1)
        = some Detached
    ∧ (Replica, Detached) ∉
        [(Master, Master), (Master, Detached), (Replica, Master), (Replica, Replica),
         (Detached, Replica), (Detached, Detached)] := by
  decide

/-- C16, amended.  For every tick that starts in one of the three states and returns,
the pair (state before, state after) is one of Master to Master, Master to Detached,
Replica to Master, Replica to Replica, Replica to Detached, Detached to Replica,
Detached to Detached. -/
theorem check_state_transitions {σ : Type} (d : Deps σ) (ctx : Ctx) (fuel : Nat)
    (s s' : Sentinel) (w w' : σ)
    (hs : State s = Detached ∨ State s = Master ∨ State s = Replica)
    (h : check d ctx fuel s w = some (s', w')) :
    (State s, State s') ∈
      [(Master, Master), (Master, Detached), (Replica, Master), (Replica, Replica),
       (Replica, Detached), (Detached, Replica), (Detached, Detached)] := by
  simp only [State] at hs ⊢
  have key : s'.state = s.state
      ∨ (s.state = Master ∧ s'.state = Detached)
      ∨ (s.state = Replica ∧ (s'.state = Master ∨ s'.state = Detached))
      ∨ (s.state ≠ Master ∧ s.state ≠ Replica
          ∧ (s'.state = Replica ∨ s'.state = Detached)) := by
    rcases check_of_body d ctx fuel s s' w w' h with ⟨_, rfl, _⟩ | ⟨_, e, s1, w1, hb, hst, _, _⟩
    · exact Or.inl rfl
    · rw [hst]
      have h1 := checkBody_state_pairs d ctx fuel _ _ _ _ _ hb
      exact h1
  rcases key with h1 | ⟨h0, h1⟩ | ⟨h0, h1 | h1⟩ | ⟨hm, hr, h1 | h1⟩
  · rw [h1]
    rcases hs with h0 | h0 | h0 <;> rw [h0] <;> simp
  · rw [h0, h1]; simp
  · rw [h0, h1]; simp
  · rw [h0, h1]; simp
  · rcases hs with h0 | h0 | h0
    · rw [h0, h1]; simp
    · exact absurd h0 hm
    · exact absurd h0 hr
  · rcases hs with h0 | h0 | h0
    · rw [h0, h1]; simp
    · exact absurd h0 hm
    · exact absurd h0 hr

/-- C16, amended, at the tick of the replica whose base backup fails. -/
theorem check_state_transitions_witness :
    (State streamingReplica,
      State { streamingReplica with state := Detached, errChan := ["pg_basebackup failed"],
                                    counterCheckErrors := 1 }) ∈
      [(Master, Master), (Master, Detached), (Replica, Master), (Replica, Replica),
       (Replica, Detached), (Detached, Replica), (Detached, Detached)] :=
  check_state_transitions (mockDeps failedBackupScript) [] 1 streamingReplica _ []
    [.Alive true none, .MutexTryLock false none, .Done [DefaultPgAwaitTimeout] false,
     .DictionaryGet dictKeyMasterInfo (some otherPayload) none, .Stop none,
     .Backup "other" 5432 (some "pg_basebackup failed"), .StoreState Detached, .Now 0]
    (by decide) (by decide)

/-- C17, as stated, fails: the state of a newly constructed sentinel is not
`Detached`. -/
theorem New_state_is_not_Detached :
    State (New "localhost" 5432) ≠ Detached := by
  decide

/-- C17, amended.  A newly constructed sentinel has state 0, the zero value of
`ClusterState`, which is none of `Detached`, `Master`, `Replica` (these are 1, 2, 3);
the `switch` of `check` sends it to `checkDetached`. -/
theorem New_state_is_zero {σ : Type} (selfHost : String) (selfPgPort : Int) (d : Deps σ)
    (ctx : Ctx) (fuel : Nat) (w : σ) :
    State (New selfHost selfPgPort) = 0
    ∧ State (New selfHost selfPgPort) ∉ [Detached, Master, Replica]
    ∧ [Detached, Master, Replica] = [1, 2, 3]
    ∧ checkBody d ctx fuel (New selfHost selfPgPort) w
        = checkDetached d ctx fuel (New selfHost selfPgPort) w := by
  have h1 : ¬ ((New selfHost selfPgPort).state = Master) := by
    simp [New, Master]
  have h2 : ¬ ((New selfHost selfPgPort).state = Replica) := by
    simp [New, Replica]
  refine ⟨rfl, by simp [State, New, Detached, Master, Replica], by decide, ?_⟩
  simp [checkBody, h1, h2]

/-! ## The tick of a detached agent -/

/-- C13. A tick that starts in state `Detached`: the state afterwards is `Replica` when
`Alive` answered `(true, nil)`, `MutexTryLock` answered `(false, nil)` and `follow`
returned `nil`, and `Detached` in every other case (the tick returns whenever `follow`
is not reached or returns); when `Alive` answers anything but `(true, nil)` the
interactions of the tick are the probe and the reading of the clock, so no Storage
call is made. -/
theorem check_detached_tick (env : Script) (ctx : Ctx) (fuel : Nat) (s : Sentinel)
    (t : Trace) (hstate : s.state = Detached) (hdone : s.done = 0) :
    (check (mockDeps env) ctx fuel s t).map (fun r => State r.1)
      = (if env.Alive (seen .Alive t) = (true, none)
            ∧ env.MutexTryLock (seen .MutexTryLock t) = (false, none) then
          (follow (mockDeps env) ctx fuel { s with done := 1 }
              (t ++ [.Alive true none, .MutexTryLock false none])).map
            (fun r => if r.1 = none then Replica else Detached)
         else some Detached)
    ∧ (env.Alive (seen .Alive t) ≠ (true, none) →
        (check (mockDeps env) ctx fuel s t).map (fun r => r.2)
          = some (t ++ [.Alive (env.Alive (seen .Alive t)).1 (env.Alive (seen .Alive t)).2,
                        .Now (env.Now (seen .Now t))])) := by
  have hm : ¬ (Detached = Master) := by decide
  have hr : ¬ (Detached = Replica) := by decide
  obtain ⟨hn, po, ec, cl, dn, st, mi, pl, lc, cs, ce⟩ := s
  simp only at hstate hdone
  subst hstate
  subst hdone
  rcases hA : env.Alive (seen .Alive t) with ⟨a, ea⟩
  cases ea with
  | some e =>
    simp [check, checkBody, checkDetached, setErr, State, hm, hr, hA, Event.kind]
  | none =>
    cases a with
    | false =>
      simp [check, checkBody, checkDetached, setErr, State, hm, hr, hA,
        Event.kind]
    | true =>
      rcases hL : env.MutexTryLock (seen .MutexTryLock t) with ⟨l, el⟩
      cases el with
      | some e =>
        simp [check, checkBody, checkDetached, setErr, State, hm, hr, hA, hL,
          Event.kind]
      | none =>
        cases l with
        | true =>
          simp [check, checkBody, checkDetached, setErr, State, hm, hr, hA, hL,
            Event.kind]
        | false =>
          cases hf : follow (mockDeps env) ctx fuel
              { hostname := hn, port := po, errChan := ec, closeOnDone := cl, done := 1,
                state := Detached, masterInfo := mi, payload := pl, lastCheck := lc,
                counterCheckSuccess := cs, counterCheckErrors := ce }
              (t ++ [.Alive true none, .MutexTryLock false none]) with
          | none =>
            simp [check, checkBody, checkDetached, setErr, State, hm, hr, hA,
              hL, Event.kind, hf]
          | some r =>
            obtain ⟨e, s1, t1⟩ := r
            have hs := follow_state (mockDeps env) ctx fuel _ _ _ _ _ hf
            cases e with
            | none =>
              simp [check, checkBody, checkDetached, setErr, State, hm, hr, hA,
                hL, Event.kind, hf, setState]
            | some e =>
              have h1 : s1.state = Detached := by
                rcases hs.2 with h | h
                · rw [h]
                · exact h
              simp [check, checkBody, checkDetached, setErr, State, hm, hr, hA,
                hL, Event.kind, hf, h1]

/-- C13, for a detached agent that is alive, does not win the mutex and finds the
master it already records: the state afterwards is `Replica`. -/
theorem check_detached_tick_witness :
    (check (mockDeps followerScript) [] 1 detachedAgent []).map (fun r => State r.1)
      = some Replica :=
  (check_detached_tick followerScript [] 1 detachedAgent [] (by rfl) (by rfl)).1.trans
    (by decide)

/-! ## The mutex of the two back-ends -/

/-- C20, as stated, fails for stoa: when `TryLock` of the stoa client ends with
`context.DeadlineExceeded`, `MutexTryLock` returns that error, not `(false, nil)`. -/
theorem stoa_MutexTryLock_returns_deadline_exceeded :
    (timedOutStoa.m.TryLock [] none ()).1.2.2 = some contextDeadlineExceeded
    ∧ (stoaStorage.MutexTryLock timedOutStoa [] ()).1 = (false, some contextDeadlineExceeded)
    ∧ (stoaStorage.MutexTryLock timedOutStoa [] ()).1 ≠ (false, none) := by
  decide

/-- C20, amended.  etcd: when `Lock`, called under the context derived with
`DefaultEtcdOpTimeout`, ends with an error that is `context.DeadlineExceeded`,
`MutexTryLock` returns `(false, nil)`; it returns `(true, nil)` exactly when `Lock`
returned `nil`; a returned error is the error of `Lock` and is not
`context.DeadlineExceeded`.  stoa: `MutexTryLock` returns the `locked` and `err` of
`TryLock(ctx, nil)` unchanged, so `(true, nil)` exactly when `TryLock` returned `true`
with no error, and every error of `TryLock` is returned. -/
theorem MutexTryLock_backends {σ : Type} (errorsIs : GoError → GoError → Bool)
    (e : etcdStorage σ) (st : stoaStorage σ) (ctx : Ctx) (w : σ) :
    (∀ err, (e.m.Lock (WithTimeout ctx DefaultEtcdOpTimeout) w).1 = some err →
        errorsIs err contextDeadlineExceeded = true →
        (etcdStorage.MutexTryLock errorsIs e ctx w).1 = (false, none))
    ∧ ((etcdStorage.MutexTryLock errorsIs e ctx w).1 = (true, none)
        ↔ (e.m.Lock (WithTimeout ctx DefaultEtcdOpTimeout) w).1 = none)
    ∧ (∀ err, (etcdStorage.MutexTryLock errorsIs e ctx w).1.2 = some err →
        (e.m.Lock (WithTimeout ctx DefaultEtcdOpTimeout) w).1 = some err
        ∧ errorsIs err contextDeadlineExceeded = false
        ∧ (etcdStorage.MutexTryLock errorsIs e ctx w).1.1 = false)
    ∧ (stoaStorage.MutexTryLock st ctx w).1
        = ((st.m.TryLock ctx none w).1.1, (st.m.TryLock ctx none w).1.2.2)
    ∧ ((stoaStorage.MutexTryLock st ctx w).1 = (true, none)
        ↔ (st.m.TryLock ctx none w).1.1 = true ∧ (st.m.TryLock ctx none w).1.2.2 = none)
    ∧ (∀ err, (st.m.TryLock ctx none w).1.2.2 = some err →
        (stoaStorage.MutexTryLock st ctx w).1.2 = some err) := by
  refine ⟨?_, ?_, ?_, ?_, ?_, ?_⟩
  · intro err h1 h2
    unfold etcdStorage.MutexTryLock
    rcases hl : e.m.Lock (WithTimeout ctx DefaultEtcdOpTimeout) w with ⟨r, w1⟩
    rw [hl] at h1
    simp only at h1
    subst h1
    simp [hl, h2]
  · unfold etcdStorage.MutexTryLock
    rcases hl : e.m.Lock (WithTimeout ctx DefaultEtcdOpTimeout) w with ⟨r, w1⟩
    cases r with
    | none => simp [hl]
    | some err => by_cases hd : errorsIs err contextDeadlineExceeded = true <;> simp [hl, hd]
  · intro err
    unfold etcdStorage.MutexTryLock
    rcases hl : e.m.Lock (WithTimeout ctx DefaultEtcdOpTimeout) w with ⟨r, w1⟩
    cases r with
    | none => simp [hl]
    | some err1 =>
      by_cases hd : errorsIs err1 contextDeadlineExceeded = true
      · simp [hl, hd]
      · simp only [hl, hd]
        simp only [Bool.false_eq_true, if_false, Option.some.injEq]
        intro h
        subst h
        exact ⟨rfl, by simpa using hd, trivial⟩
  · unfold stoaStorage.MutexTryLock
    rcases st.m.TryLock ctx none w with ⟨⟨l, p, er⟩, w1⟩
    rfl
  · unfold stoaStorage.MutexTryLock
    rcases st.m.TryLock ctx none w with ⟨⟨l, p, er⟩, w1⟩
    simp
  · intro err
    unfold stoaStorage.MutexTryLock
    rcases st.m.TryLock ctx none w with ⟨⟨l, p, er⟩, w1⟩
    simp

/-- C20, amended, at an etcd mutex whose `Lock` ends with the deadline of its
context. -/
theorem MutexTryLock_backends_witness :
    (etcdStorage.MutexTryLock (fun a b => a == b) busyEtcd [] ()).1 = (false, none) :=
  (MutexTryLock_backends (fun a b => a == b) busyEtcd timedOutStoa [] ()).1
    contextDeadlineExceeded (by rfl) (by decide)

/-! ## The tick of a replica and the liveness probe -/

theorem getMasterLoop_mirrors {σ τ : Type} (φ : σ → τ) (d : Deps σ) (a : Deps τ)
    (hm : Mirrors φ d a) (ctx : Ctx) :
    ∀ (fuel : Nat) (w : σ),
      getMasterLoop a ctx fuel (φ w)
        = (getMasterLoop d ctx fuel w).map (fun r => (r.1, φ r.2)) := by
  intro fuel
  induction fuel with
  | zero => intro w; rfl
  | succ fuel ih =>
    intro w
    simp only [getMasterLoop]
    rw [hm.Done ctx w]
    rcases d.rt.Done ctx w with ⟨b, w1⟩
    cases b with
    | true => rfl
    | false =>
      simp only []
      rw [hm.DictionaryGet ctx dictKeyMasterInfo w1]
      rcases d.storage.DictionaryGet ctx dictKeyMasterInfo w1 with ⟨⟨v, e⟩, w2⟩
      cases v with
      | none =>
        cases e with
        | some err => rfl
        | none =>
          simp only []
          rw [hm.Sleep, ih]
      | some p =>
        cases e with
        | some err => rfl
        | none =>
          simp only [hm.gob]
          cases d.gob.Decode p <;> rfl

theorem promoteWait_mirrors {σ τ : Type} (φ : σ → τ) (d : Deps σ) (a : Deps τ)
    (hm : Mirrors φ d a) (ctx : Ctx) :
    ∀ (fuel : Nat) (w : σ),
      promoteWait a ctx fuel (φ w)
        = (promoteWait d ctx fuel w).map (fun r => (r.1, φ r.2)) := by
  intro fuel
  induction fuel with
  | zero => intro w; rfl
  | succ fuel ih =>
    intro w
    simp only [promoteWait]
    rw [hm.Done ctx w]
    rcases d.rt.Done ctx w with ⟨b, w1⟩
    cases b with
    | true => simp only [hm.Err]; rfl
    | false =>
      simp only []
      rw [hm.InRecovery w1]
      rcases d.c.InRecovery w1 with ⟨⟨r, e⟩, w2⟩
      cases r with
      | true => cases e <;> simp only [ih]
      | false =>
        cases e with
        | some err => simp only [ih]
        | none => simp only [hm.Sleep]; rfl

theorem follow_mirrors {σ τ : Type} (φ : σ → τ) (d : Deps σ) (a : Deps τ)
    (hm : Mirrors φ d a) (ctx : Ctx) (fuel : Nat) (s : Sentinel) (w : σ) :
    follow a ctx fuel s (φ w)
      = (follow d ctx fuel s w).map (fun r => (r.1, r.2.1, φ r.2.2)) := by
  unfold follow getMaster
  rw [getMasterLoop_mirrors φ d a hm]
  cases getMasterLoop d (WithTimeout ctx DefaultPgAwaitTimeout) fuel w with
  | none => rfl
  | some r =>
    obtain ⟨res, w1⟩ := r
    cases res with
    | error err => rfl
    | ok m =>
      simp only [Option.map_some']
      split
      · rfl
      · rw [hm.Stop w1]
        rcases d.c.Stop w1 with ⟨e1, w2⟩
        cases e1 with
        | some err => simp only [setState, hm.StoreState]; rfl
        | none =>
          simp only []
          rw [hm.Backup m.Host m.Port w2]
          rcases d.c.Backup m.Host m.Port w2 with ⟨e2, w3⟩
          cases e2 with
          | some err => simp only [setState, hm.StoreState]; rfl
          | none =>
            simp only []
            rw [hm.Start w3]
            rcases d.c.Start w3 with ⟨e3, w4⟩
            cases e3 with
            | some err => simp only [setState, hm.StoreState]; rfl
            | none => rfl

theorem promote_mirrors {σ τ : Type} (φ : σ → τ) (d : Deps σ) (a : Deps τ)
    (hm : Mirrors φ d a) (ctx : Ctx) (fuel : Nat) (s : Sentinel) (w : σ) :
    promote a ctx fuel s (φ w)
      = (promote d ctx fuel s w).map (fun r => (r.1, r.2.1, φ r.2.2)) := by
  unfold promote
  rw [hm.DictionaryRemove ctx dictKeyMasterInfo w]
  rcases d.storage.DictionaryRemove ctx dictKeyMasterInfo w with ⟨e1, w1⟩
  cases e1 with
  | some err => rfl
  | none =>
    simp only []
    rw [hm.Promote w1]
    rcases d.c.Promote w1 with ⟨e2, w2⟩
    cases e2 with
    | some err =>
      have hu := hm.MutexUnlock ctx w2
      rcases d.storage.MutexUnlock ctx w2 with ⟨e3, w3⟩
      simp only [hu]
      rfl
    | none =>
      simp only []
      rw [promoteWait_mirrors φ d a hm]
      cases promoteWait d (WithTimeout ctx DefaultPgAwaitTimeout) fuel w2 with
      | none => rfl
      | some r =>
        obtain ⟨e3, w3⟩ := r
        cases e3 with
        | some err => rfl
        | none =>
          simp only [Option.map_some', setState, hm.StoreState]
          rw [hm.DictionaryPut]
          rcases d.storage.DictionaryPut (WithTimeout ctx DefaultPgAwaitTimeout)
            dictKeyMasterInfo s.payload (d.rt.StoreState Master w3) with ⟨e4, w4⟩
          cases e4 <;> rfl

theorem checkReplica_mirrors {σ τ : Type} (φ : σ → τ) (d : Deps σ) (a : Deps τ)
    (hm : Mirrors φ d a) (ctx : Ctx) (fuel : Nat) (s : Sentinel) (w : σ) :
    (checkReplica d ctx fuel s w).map (fun r => (r.1, r.2.1, φ r.2.2))
      = match a.storage.MutexTryLock ctx (φ w) with
        | ((_, some err), w) => some (some err, s, w)
        | ((true, none), w) => promote a ctx fuel s w
        | ((false, none), w) => follow a ctx fuel s w := by
  unfold checkReplica
  have h0 := hm.Alive w
  rcases hA : d.c.Alive w with ⟨r0, w0⟩
  rw [hA] at h0
  simp only at h0
  simp only []
  rw [← h0, hm.MutexTryLock ctx w0]
  rcases d.storage.MutexTryLock ctx w0 with ⟨⟨l, e⟩, w1⟩
  cases l <;> cases e <;> simp only [promote_mirrors φ d a hm, follow_mirrors φ d a hm] <;> rfl

theorem checkBody_replica_mirrored {σ σ' τ : Type} (φ : σ → τ) (φ' : σ' → τ) (d : Deps σ)
    (d' : Deps σ') (a : Deps τ) (hm : Mirrors φ d a) (hm' : Mirrors φ' d' a) (ctx : Ctx)
    (fuel : Nat) (s : Sentinel) (w : σ) (w' : σ') (hw : φ w = φ' w')
    (hstate : s.state = Replica) :
    (checkBody d ctx fuel s w).map (fun r => (r.1, r.2.1, φ r.2.2))
      = (checkBody d' ctx fuel s w').map (fun r => (r.1, r.2.1, φ' r.2.2)) := by
  have hne : ¬ (Replica = Master) := by decide
  simp only [checkBody, hstate, hne, if_false, if_true]
  rw [checkReplica_mirrors φ d a hm, checkReplica_mirrors φ' d' a hm', hw]

theorem check_replica_mirrored {σ σ' τ : Type} (φ : σ → τ) (φ' : σ' → τ) (d : Deps σ)
    (d' : Deps σ') (a : Deps τ) (hm : Mirrors φ d a) (hm' : Mirrors φ' d' a) (ctx : Ctx)
    (fuel : Nat) (s : Sentinel) (w : σ) (w' : σ') (hw : φ w = φ' w')
    (hstate : s.state = Replica) :
    (check d ctx fuel s w).map (fun r => (r.1, φ r.2))
      = (check d' ctx fuel s w').map (fun r => (r.1, φ' r.2)) := by
  unfold check
  split
  · simp [hw]
  · have hb := checkBody_replica_mirrored φ φ' d d' a hm hm' ctx fuel { s with done := 1 }
      w w' hw hstate
    cases h1 : checkBody d ctx fuel { s with done := 1 } w with
    | none =>
      cases h2 : checkBody d' ctx fuel { s with done := 1 } w' with
      | none => simp [h1, h2]
      | some r2 => rw [h1, h2] at hb; simp at hb
    | some r1 =>
      cases h2 : checkBody d' ctx fuel { s with done := 1 } w' with
      | none => rw [h1, h2] at hb; simp at hb
      | some r2 =>
        rw [h1, h2] at hb
        obtain ⟨e1, s1, w1⟩ := r1
        obtain ⟨e2, s2, w2⟩ := r2
        simp only [Option.map_some', Option.some.injEq, Prod.mk.injEq] at hb
        obtain ⟨rfl, rfl, hw12⟩ := hb
        have n1 := hm.Now w1
        have n2 := hm'.Now w2
        rw [hw12, n2] at n1
        simp only [Prod.mk.injEq] at n1
        obtain ⟨hn, hφ⟩ := n1
        simp [h1, h2, hn, hφ]

theorem eraseAlive_append (t u : Trace) :
    eraseAlive (t ++ u) = eraseAlive t ++ eraseAlive u := by
  simp [eraseAlive]

theorem seen_eraseAlive (k : Kind) (hk : k ≠ .Alive) (t : Trace) :
    seen k (eraseAlive t) = seen k t := by
  induction t with
  | nil => rfl
  | cons e t ih =>
    have h1 : eraseAlive (e :: t) = eraseAlive [e] ++ eraseAlive t :=
      eraseAlive_append [e] t
    have h2 : seen k (e :: t) = seen k [e] + seen k t := seen_append k [e] t
    rw [h1, h2, seen_append, ih]
    congr 1
    cases e <;> first | rfl | (cases k <;> first | rfl | exact absurd rfl hk)

theorem mock_mirrors (env : Script) (alive : Nat → Bool × Option GoError) :
    Mirrors eraseAlive (mockDeps (withAlive env alive)) (mockDeps env) where
  Alive := by intro w; simp [mockDeps, mockCluster, eraseAlive, Event.kind]
  InRecovery := by
    intro w
    simp [mockDeps, mockCluster, withAlive, eraseAlive_append, seen_eraseAlive]
    simp [eraseAlive, Event.kind]
  Stop := by
    intro w
    simp [mockDeps, mockCluster, withAlive, eraseAlive_append, seen_eraseAlive]
    simp [eraseAlive, Event.kind]
  Start := by
    intro w
    simp [mockDeps, mockCluster, withAlive, eraseAlive_append, seen_eraseAlive]
    simp [eraseAlive, Event.kind]
  Promote := by
    intro w
    simp [mockDeps, mockCluster, withAlive, eraseAlive_append, seen_eraseAlive]
    simp [eraseAlive, Event.kind]
  Backup := by
    intro host port w
    simp [mockDeps, mockCluster, withAlive, eraseAlive_append, seen_eraseAlive]
    simp [eraseAlive, Event.kind]
  MutexTryLock := by
    intro ctx w
    simp [mockDeps, mockStorage, withAlive, eraseAlive_append, seen_eraseAlive]
    simp [eraseAlive, Event.kind]
  MutexUnlock := by
    intro ctx w
    simp [mockDeps, mockStorage, withAlive, eraseAlive_append, seen_eraseAlive]
    simp [eraseAlive, Event.kind]
  DictionaryPut := by
    intro ctx k v w
    simp [mockDeps, mockStorage, withAlive, eraseAlive_append, seen_eraseAlive]
    simp [eraseAlive, Event.kind]
  DictionaryGet := by
    intro ctx k w
    simp [mockDeps, mockStorage, withAlive, eraseAlive_append, seen_eraseAlive]
    simp [eraseAlive, Event.kind]
  DictionaryRemove := by
    intro ctx k w
    simp [mockDeps, mockStorage, withAlive, eraseAlive_append, seen_eraseAlive]
    simp [eraseAlive, Event.kind]
  Done := by
    intro ctx w
    simp [mockDeps, mockRuntime, withAlive, eraseAlive_append, seen_eraseAlive]
    simp [eraseAlive, Event.kind]
  Err := by
    intro ctx w
    simp [mockDeps, mockRuntime, withAlive, seen_eraseAlive]
  Sleep := by
    intro dur w
    simp [mockDeps, mockRuntime, eraseAlive_append]
    simp [eraseAlive, Event.kind]
  Now := by
    intro w
    simp [mockDeps, mockRuntime, withAlive, eraseAlive_append, seen_eraseAlive]
    simp [eraseAlive, Event.kind]
  StoreState := by
    intro v w
    simp [mockDeps, mockRuntime, eraseAlive_append]
    simp [eraseAlive, Event.kind]
  gob := rfl

/-- C15. Two ticks from the same `Replica` state and the same past, under scripts that
differ only in the answers of `Alive` (any answers: `true`, `false` or an error): the
error of the check body, the resulting sentinel (its state and `masterInfo` included)
and the interactions other than the probe itself (every Storage call and every call of
`Stop`, `Backup`, `Start` and `Promote`, with arguments and results, in order) are the
same, and one run returns exactly when the other does. -/
theorem check_replica_ignores_Alive (env : Script) (alive : Nat → Bool × Option GoError)
    (ctx : Ctx) (fuel : Nat) (s : Sentinel) (t : Trace) (hstate : s.state = Replica) :
    (checkBody (mockDeps (withAlive env alive)) ctx fuel s t).map
        (fun r => (r.1, r.2.1, eraseAlive r.2.2))
      = (checkBody (mockDeps env) ctx fuel s t).map
          (fun r => (r.1, r.2.1, eraseAlive r.2.2))
    ∧ (check (mockDeps (withAlive env alive)) ctx fuel s t).map
          (fun r => (r.1, eraseAlive r.2))
        = (check (mockDeps env) ctx fuel s t).map (fun r => (r.1, eraseAlive r.2)) :=
  ⟨checkBody_replica_mirrored eraseAlive eraseAlive _ _ (mockDeps env)
      (mock_mirrors env alive) (mock_mirrors env env.Alive) ctx fuel s t t rfl hstate,
   check_replica_mirrored eraseAlive eraseAlive _ _ (mockDeps env)
      (mock_mirrors env alive) (mock_mirrors env env.Alive) ctx fuel s t t rfl hstate⟩

/-- C15, for the streaming replica that does not win the mutex: with a probe that
fails and with a probe that succeeds the tick ends in the same sentinel after the
same interactions, the probe apart. -/
theorem check_replica_ignores_Alive_witness :
    (check (mockDeps (withAlive followerScript (fun _ => (false, some "connection refused"))))
        [] 1 streamingReplica []).map (fun r => (r.1, eraseAlive r.2))
      = (check (mockDeps followerScript) [] 1 streamingReplica []).map
          (fun r => (r.1, eraseAlive r.2)) :=
  (check_replica_ignores_Alive followerScript (fun _ => (false, some "connection refused"))
    [] 1 streamingReplica [] (by rfl)).2

/-! ## The round trip of the payload -/

theorem utf8Decode_encodeChar (c : Char) (rest : Bytes) :
    utf8Decode (utf8EncodeChar c ++ rest) = (utf8Decode rest).map (fun cs => c :: cs) := by
  have hv : c.toNat < 0xD800 ∨ (0xDFFF < c.toNat ∧ c.toNat < 0x110000) := c.valid
  unfold utf8EncodeChar
  simp only []
  by_cases h1 : c.toNat < 0x80
  · simp only [h1, if_true, List.cons_append, List.nil_append]
    rw [utf8Decode.eq_def]
    simp only [h1, if_true, Char.ofNat_toNat]
  · by_cases h2 : c.toNat < 0x800
    · have e1 : ¬ (0xC0 + c.toNat / 0x40 < 0x80) := by omega
      have e2 : 0xC0 + c.toNat / 0x40 < 0xE0 := by omega
      have e3 : (0xC0 + c.toNat / 0x40 - 0xC0) * 0x40 + (0x80 + c.toNat % 0x40 - 0x80)
          = c.toNat := by omega
      simp only [h1, h2, if_false, if_true, List.cons_append, List.nil_append]
      rw [utf8Decode.eq_def]
      simp only [e1, e2, e3, if_false, if_true, Char.ofNat_toNat]
    · by_cases h3 : c.toNat < 0x10000
      · have e1 : ¬ (0xE0 + c.toNat / 0x1000 < 0x80) := by omega
        have e2 : ¬ (0xE0 + c.toNat / 0x1000 < 0xE0) := by omega
        have e3 : 0xE0 + c.toNat / 0x1000 < 0xF0 := by omega
        have e4 : (0xE0 + c.toNat / 0x1000 - 0xE0) * 0x1000
            + (0x80 + c.toNat / 0x40 % 0x40 - 0x80) * 0x40
            + (0x80 + c.toNat % 0x40 - 0x80) = c.toNat := by omega
        simp only [h1, h2, h3, if_false, if_true, List.cons_append, List.nil_append]
        rw [utf8Decode.eq_def]
        simp only [e1, e2, e3, e4, if_false, if_true, Char.ofNat_toNat]
      · have e1 : ¬ (0xF0 + c.toNat / 0x40000 < 0x80) := by omega
        have e2 : ¬ (0xF0 + c.toNat / 0x40000 < 0xE0) := by omega
        have e3 : ¬ (0xF0 + c.toNat / 0x40000 < 0xF0) := by omega
        have e4 : (0xF0 + c.toNat / 0x40000 - 0xF0) * 0x40000
            + (0x80 + c.toNat / 0x1000 % 0x40 - 0x80) * 0x1000
            + (0x80 + c.toNat / 0x40 % 0x40 - 0x80) * 0x40
            + (0x80 + c.toNat % 0x40 - 0x80) = c.toNat := by omega
        simp only [h1, h2, h3, if_false, List.cons_append, List.nil_append]
        rw [utf8Decode.eq_def]
        simp only [e1, e2, e3, e4, if_false, Char.ofNat_toNat]

theorem bytesString_stringBytes (s : String) : bytesString (stringBytes s) = some s := by
  have h : ∀ cs : List Char, utf8Decode ((cs.map utf8EncodeChar).flatten) = some cs := by
    intro cs
    induction cs with
    | nil => rw [utf8Decode.eq_def]; rfl
    | cons c cs ih =>
      simp only [List.map_cons, List.flatten_cons]
      rw [utf8Decode_encodeChar, ih]
      rfl
  unfold bytesString stringBytes
  rw [h]
  rfl

theorem bigEndian_dropWhile (l : Bytes) :
    bigEndian (l.dropWhile (fun b => b == 0)) = bigEndian l := by
  induction l with
  | nil => rfl
  | cons b l ih =>
    by_cases hb : b = 0
    · subst hb
      rw [List.dropWhile_cons_of_pos (by simp), ih]
      simp [bigEndian]
    · rw [List.dropWhile_cons_of_neg (by simpa using hb)]

theorem bigEndian_uintBytes (n : Nat) (h : n < 2 ^ 64) : bigEndian (uintBytes n) = n := by
  unfold uintBytes
  rw [bigEndian_dropWhile]
  simp only [bigEndian, List.map, List.foldl]
  norm_num at h ⊢
  omega

theorem uintBytes_length (n : Nat) : (uintBytes n).length ≤ 8 := by
  unfold uintBytes
  exact (List.dropWhile_sublist _).length_le.trans (by simp)

theorem decodeUint_encodeUint (n : Nat) (h : n < 2 ^ 64) (rest : Bytes) :
    decodeUint (encodeUint n ++ rest) = some (n, rest) := by
  unfold encodeUint
  by_cases hn : n < 128
  · simp [hn, decodeUint]
  · have hl := uintBytes_length n
    have h1 : ¬ (256 - (uintBytes n).length < 128) := by omega
    have h2 : 256 - (256 - (uintBytes n).length) = (uintBytes n).length := by omega
    have h3 : ¬ (8 < (uintBytes n).length
        ∨ (uintBytes n ++ rest).length < (uintBytes n).length) := by
      simp only [List.length_append]
      omega
    simp only [hn, if_false, List.cons_append, decodeUint, h1, h2, h3,
      List.take_left, List.drop_left, bigEndian_uintBytes n h]

theorem encodeUint_length (n : Nat) : (encodeUint n).length ≤ 9 := by
  unfold encodeUint
  have hl := uintBytes_length n
  split
  · simp
  · simp only [List.length_cons]
    omega

theorem decodeInt_encodeInt (i : Int) (h : -(2 ^ 63) ≤ i ∧ i < 2 ^ 63) (rest : Bytes) :
    decodeInt (encodeInt i ++ rest) = some (i, rest) := by
  unfold decodeInt encodeInt
  by_cases hi : i < 0
  · have hu : 2 * (-i - 1).toNat + 1 < 2 ^ 64 := by omega
    simp only [hi, if_true]
    rw [decodeUint_encodeUint _ hu]
    have h1 : (2 * (-i - 1).toNat + 1) % 2 = 1 := by omega
    have h2 : -(((2 * (-i - 1).toNat + 1) / 2 : Nat) : Int) - 1 = i := by omega
    simp only [h1, if_true, h2]
  · have hu : 2 * i.toNat < 2 ^ 64 := by omega
    simp only [hi, if_false]
    rw [decodeUint_encodeUint _ hu]
    have h1 : ¬ ((2 * i.toNat) % 2 = 1) := by omega
    have h2 : (((2 * i.toNat) / 2 : Nat) : Int) = i := by omega
    simp only [h1, if_false, h2]

theorem decodeString_encodeString (s : String) (h : (stringBytes s).length < 2 ^ 64)
    (rest : Bytes) :
    decodeString (encodeString s ++ rest) = some (s, rest) := by
  unfold decodeString encodeString
  rw [List.append_assoc, decodeUint_encodeUint _ h]
  have h1 : ¬ ((stringBytes s ++ rest).length < (stringBytes s).length) := by
    simp only [List.length_append]
    omega
  simp only [h1, if_false, List.take_left, List.drop_left, bytesString_stringBytes]

theorem decodeMessage_encodeMessage (body : Bytes) (h : body.length < 2 ^ 64)
    (rest : Bytes) :
    decodeMessage (encodeMessage body ++ rest) = some (body, rest) := by
  unfold decodeMessage encodeMessage
  rw [List.append_assoc, decodeUint_encodeUint _ h]
  have h1 : ¬ ((body ++ rest).length < body.length) := by
    simp only [List.length_append]
    omega
  simp only [h1, if_false, List.take_left, List.drop_left]

theorem decodeUint_small (b : Nat) (hb : b < 128) (rest : Bytes) :
    decodeUint (b :: rest) = some (b, rest) := by
  simp [decodeUint, hb]

theorem decodePort_encodeInt (p : Int) (h : -(2 ^ 63) ≤ p ∧ p < 2 ^ 63) (host : String) :
    decodePort (encodeInt p ++ [0]) host = .ok { Host := host, Port := p } := by
  unfold decodePort
  rw [decodeInt_encodeInt p h]
  simp [decodeEnd, decodeUint]

theorem decodeFields_encodeFields (hi : hostinfo)
    (hport : -(2 ^ 63) ≤ hi.Port ∧ hi.Port < 2 ^ 63)
    (hhost : (stringBytes hi.Host).length < 2 ^ 63) :
    decodeFields (encodeFields hi) = .ok hi := by
  obtain ⟨host, port⟩ := hi
  simp only at hport hhost
  have hh : (stringBytes host).length < 2 ^ 64 := by omega
  unfold encodeFields decodeFields
  by_cases h1 : host = ""
  · subst h1
    by_cases h2 : port = 0
    · subst h2
      simp [decodeUint]
    · simp only [h2, if_false, if_true, List.nil_append, List.cons_append]
      rw [decodeUint_small 2 (by decide)]
      simp only []
      exact decodePort_encodeInt port hport ""
  · by_cases h2 : port = 0
    · subst h2
      simp only [h1, if_false, if_true, List.cons_append, List.append_nil]
      rw [decodeUint_small 1 (by decide)]
      simp only []
      rw [decodeString_encodeString host hh]
      simp [decodeUint]
    · simp only [h1, h2, if_false, List.cons_append, List.append_assoc]
      rw [decodeUint_small 1 (by decide)]
      simp only []
      rw [decodeString_encodeString host hh]
      simp only [List.cons_append]
      rw [decodeUint_small 1 (by decide)]
      simp only []
      exact decodePort_encodeInt port hport host

theorem encodeFields_length (hi : hostinfo) :
    (encodeFields hi).length ≤ (stringBytes hi.Host).length + 21 := by
  have h1 := encodeUint_length (stringBytes hi.Host).length
  have h2 : (encodeInt hi.Port).length ≤ 9 := encodeUint_length _
  unfold encodeFields encodeString
  split <;> split <;> simp only [List.length_append, List.length_cons, List.length_nil] <;>
    omega

theorem gobDecode_gobEncode (hi : hostinfo)
    (hport : -(2 ^ 63) ≤ hi.Port ∧ hi.Port < 2 ^ 63)
    (hhost : (stringBytes hi.Host).length < 2 ^ 63) :
    gobDecode (gobEncode hi) = .ok hi := by
  have hd : (encodeInt (-hostinfoTypeId) ++ hostinfoDescriptor).length < 2 ^ 64 := by
    decide
  have hid : -(2 ^ 63) ≤ hostinfoTypeId ∧ hostinfoTypeId < 2 ^ 63 := by decide
  have hv : (encodeInt hostinfoTypeId ++ encodeFields hi).length < 2 ^ 64 := by
    have h1 := encodeFields_length hi
    have h2 : (encodeInt hostinfoTypeId).length ≤ 9 := encodeUint_length _
    simp only [List.length_append]
    omega
  unfold gobDecode gobEncode
  rw [decodeMessage_encodeMessage _ hd]
  simp only [ne_eq, not_true_eq_false, if_false]
  have h0 := decodeMessage_encodeMessage _ hv []
  rw [List.append_nil] at h0
  rw [h0]
  simp only []
  rw [decodeInt_encodeInt _ hid]
  simp only [ne_eq, not_true_eq_false, if_false]
  exact decodeFields_encodeFields hi hport hhost

/-- C18. For every `hostinfo` whose port is in the range of a 64-bit `int` and whose
host is shorter than 2^63 bytes: encoding succeeds, decoding the payload succeeds and
yields the same host and port, two encodings of the value are the same bytes, and
`getMaster` returns the value when the dictionary holds its payload. -/
theorem gob_round_trip (hi : hostinfo)
    (hport : -(2 ^ 63) ≤ hi.Port ∧ hi.Port < 2 ^ 63)
    (hhost : (stringBytes hi.Host).length < 2 ^ 63) :
    gobCodec.Encode hi = .ok (gobEncode hi)
    ∧ gobCodec.Decode (gobEncode hi) = .ok hi
    ∧ (∀ p q, gobCodec.Encode hi = .ok p → gobCodec.Encode hi = .ok q → p = q)
    ∧ (∀ (env : Script) (ctx : Ctx) (fuel : Nat) (t : Trace),
        env.gob = gobCodec → env.Done (seen .Done t) = false →
        env.DictionaryGet (seen .DictionaryGet t) = (some (gobEncode hi), none) →
        (getMaster (mockDeps env) ctx (fuel + 1) t).map (fun r => r.1) = some (.ok hi)) := by
  have hrt := gobDecode_gobEncode hi hport hhost
  refine ⟨rfl, hrt, ?_, ?_⟩
  · intro p q hp hq
    simp only [gobCodec, Except.ok.injEq] at hp hq
    rw [← hp, ← hq]
  · intro env ctx fuel t hg hd hget
    have hdec : env.gob.Decode (gobEncode hi) = .ok hi := by rw [hg]; exact hrt
    simp [getMaster, getMasterLoop, hd, hget, hdec, Event.kind]

/-- C18, for the value `{"m", 5432}`. -/
theorem gob_round_trip_witness :
    gobCodec.Decode (gobEncode { Host := "m", Port := 5432 })
      = .ok { Host := "m", Port := 5432 } :=
  (gob_round_trip { Host := "m", Port := 5432 } (by decide) (by decide)).2.1

/-! ## The bookkeeping of the tick -/

theorem follow_frame {σ : Type} (d : Deps σ) (ctx : Ctx) (fuel : Nat) (s s' : Sentinel)
    (w w' : σ) (e : Option GoError)
    (h : follow d ctx fuel s w = some (e, s', w')) :
    s' = { s with state := s'.state, masterInfo := s'.masterInfo } := by
  unfold follow at h
  simp only [setState] at h
  repeat' split at h
  all_goals try simp only [Prod.mk.injEq, Option.some.injEq, reduceCtorEq] at *
  all_goals repeat (cases ‹_ ∧ _›)
  all_goals subst_vars
  all_goals rfl

theorem promote_frame {σ : Type} (d : Deps σ) (ctx : Ctx) (fuel : Nat) (s s' : Sentinel)
    (w w' : σ) (e : Option GoError)
    (h : promote d ctx fuel s w = some (e, s', w')) :
    s' = { s with state := s'.state } := by
  unfold promote at h
  simp only [setState] at h
  repeat' split at h
  all_goals try simp only [Prod.mk.injEq, Option.some.injEq, reduceCtorEq] at *
  all_goals repeat (cases ‹_ ∧ _›)
  all_goals subst_vars
  all_goals rfl

theorem checkMaster_frame {σ : Type} (d : Deps σ) (ctx : Ctx) (s s' : Sentinel)
    (w w' : σ) (e : Option GoError)
    (h : checkMaster d ctx s w = (e, s', w')) :
    s' = { s with state := s'.state } := by
  unfold checkMaster at h
  simp only [setState] at h
  repeat' split at h
  all_goals try simp only [Prod.mk.injEq, Option.some.injEq, reduceCtorEq] at *
  all_goals repeat (cases ‹_ ∧ _›)
  all_goals subst_vars
  all_goals rfl

theorem checkBody_frame {σ : Type} (d : Deps σ) (ctx : Ctx) (fuel : Nat) (s s' : Sentinel)
    (w w' : σ) (e : Option GoError)
    (h : checkBody d ctx fuel s w = some (e, s', w')) :
    s' = { s with state := s'.state, masterInfo := s'.masterInfo } := by
  unfold checkBody at h
  split at h
  · simp only [Option.some.injEq] at h
    have h1 := checkMaster_frame d ctx s s' w w' e h
    rw [h1]
  · split at h
    · unfold checkReplica at h
      simp only [] at h
      split at h
      · simp only [Prod.mk.injEq, Option.some.injEq] at h
        obtain ⟨_, rfl, _⟩ := h
        rfl
      · have h1 := promote_frame d ctx fuel s s' _ w' e h
        rw [h1]
      · exact follow_frame d ctx fuel s s' _ w' e h
    · unfold checkDetached at h
      simp only [setState] at h
      split at h
      · simp only [Prod.mk.injEq, Option.some.injEq] at h
        obtain ⟨_, rfl, _⟩ := h
        rfl
      · simp only [Prod.mk.injEq, Option.some.injEq] at h
        obtain ⟨_, rfl, _⟩ := h
        rfl
      · split at h
        · simp only [Prod.mk.injEq, Option.some.injEq] at h
          obtain ⟨_, rfl, _⟩ := h
          rfl
        · simp only [Prod.mk.injEq, Option.some.injEq] at h
          obtain ⟨_, rfl, _⟩ := h
          rfl
        · split at h
          · simp at h
          · rename_i hf
            simp only [Prod.mk.injEq, Option.some.injEq] at h
            obtain ⟨_, rfl, _⟩ := h
            exact follow_frame d ctx fuel s _ _ _ _ hf
          · rename_i hf
            simp only [Prod.mk.injEq, Option.some.injEq] at h
            obtain ⟨_, rfl, _⟩ := h
            have h1 := follow_frame d ctx fuel s _ _ _ _ hf
            rw [h1]

theorem check_skips {σ : Type} (d : Deps σ) (ctx : Ctx) (fuel : Nat) (s : Sentinel) (w : σ)
    (hd : s.done ≠ 0) : check d ctx fuel s w = some (s, w) := by
  simp [check, hd]

theorem check_result {σ : Type} (d : Deps σ) (ctx : Ctx) (fuel : Nat) (s s' : Sentinel)
    (w w' : σ) (hd : s.done = 0)
    (h : check d ctx fuel s w = some (s', w')) :
    ∃ e s1 w1, checkBody d ctx fuel { s with done := 1 } w = some (e, s1, w1)
      ∧ w' = (d.rt.Now w1).2
      ∧ s' = { s with
               state := s1.state
               masterInfo := s1.masterInfo
               lastCheck := (d.rt.Now w1).1
               errChan := match e with
                 | some err => (setErr s err).errChan
                 | none => s.errChan
               counterCheckErrors :=
                 if e.isSome then s.counterCheckErrors + 1 else s.counterCheckErrors
               counterCheckSuccess :=
                 if e.isSome then s.counterCheckSuccess else s.counterCheckSuccess + 1 } := by
  unfold check at h
  simp only [hd, ne_eq, not_true_eq_false, if_false] at h
  cases hb : checkBody d ctx fuel { s with done := 1 } w with
  | none => simp [hb] at h
  | some r =>
    obtain ⟨e, s1, w1⟩ := r
    have hf := checkBody_frame d ctx fuel _ _ _ _ _ hb
    refine ⟨e, s1, w1, rfl, ?_⟩
    simp only [hb, Option.some.injEq, Prod.mk.injEq] at h
    obtain ⟨rfl, rfl⟩ := h
    refine ⟨rfl, ?_⟩
    rw [hf]
    cases e <;> simp [setErr, hd]

theorem Start_counters {σ : Type} (d : Deps σ) (ctx : Ctx) (fuel : Nat) :
    ∀ (n : Nat) (s s' : Sentinel) (w w' : σ), s.done = 0 →
      Start d ctx fuel n s w = some (s', w') →
      s'.done = 0
      ∧ s'.counterCheckSuccess + s'.counterCheckErrors
          = s.counterCheckSuccess + s.counterCheckErrors + n
      ∧ s.counterCheckSuccess ≤ s'.counterCheckSuccess
      ∧ s.counterCheckErrors ≤ s'.counterCheckErrors
      ∧ s'.errChan.length ≤ max s.errChan.length 1 := by
  intro n
  induction n with
  | zero =>
    intro s s' w w' hd h
    simp only [Start, Option.some.injEq, Prod.mk.injEq] at h
    obtain ⟨rfl, _⟩ := h
    simp [hd]
  | succ n ih =>
    intro s s' w w' hd h
    simp only [Start] at h
    cases hc : check d ctx fuel s w with
    | none => simp [hc] at h
    | some r =>
      obtain ⟨s1, w1⟩ := r
      simp only [hc] at h
      obtain ⟨e, s2, w2, _, _, hs1⟩ := check_result d ctx fuel s s1 w w1 hd hc
      have hd1 : s1.done = 0 := by rw [hs1]; exact hd
      obtain ⟨h1, h2, h3, h4, h5⟩ := ih s1 s' w1 w' hd1 h
      have hS : s1.counterCheckSuccess
          = if e.isSome then s.counterCheckSuccess else s.counterCheckSuccess + 1 := by
        rw [hs1]
      have hE : s1.counterCheckErrors
          = if e.isSome then s.counterCheckErrors + 1 else s.counterCheckErrors := by
        rw [hs1]
      have hC : s1.errChan.length ≤ max s.errChan.length 1 := by
        rw [hs1]
        cases e with
        | none => simp
        | some err =>
          simp only [setErr]
          split
          · rename_i hl
            simp only [List.length_append, List.length_cons, List.length_nil]
            omega
          · simp
      refine ⟨h1, ?_, ?_, ?_, ?_⟩
      · cases he : e.isSome <;> simp only [he, if_true, if_false, Bool.false_eq_true] at hS hE <;>
          push_cast <;> omega
      · cases he : e.isSome <;> simp only [he, if_true, if_false, Bool.false_eq_true] at hS hE <;>
          omega
      · cases he : e.isSome <;> simp only [he, if_true, if_false, Bool.false_eq_true] at hS hE <;>
          omega
      · omega

/-- C23. A tick that finds `done` set returns at once: the sentinel (state, `masterInfo`,
counters, `lastCheck`, and `done` itself) and the world are what they were, so no
collaborator was called.  A tick that finds `done` clear and returns has run a check
body and leaves `done` clear, whether the body returned an error or not. -/
theorem check_self_serialized {σ : Type} (d : Deps σ) (ctx : Ctx) (fuel : Nat)
    (s s' : Sentinel) (w w' : σ) :
    (s.done ≠ 0 → check d ctx fuel s w = some (s, w))
    ∧ (s.done = 0 → check d ctx fuel s w = some (s', w') →
        s'.done = 0
        ∧ ∃ e s1 w1, checkBody d ctx fuel { s with done := 1 } w = some (e, s1, w1)) := by
  refine ⟨check_skips d ctx fuel s w, ?_⟩
  intro hd h
  obtain ⟨e, s1, w1, hb, _, hs⟩ := check_result d ctx fuel s s' w w' hd h
  exact ⟨by rw [hs]; exact hd, e, s1, w1, hb⟩

/-- C23, for a tick of the streaming replica that fires while a tick is in progress:
nothing is called and nothing changes. -/
theorem check_self_serialized_witness :
    check (mockDeps calmScript) [] 0 { streamingReplica with done := 1 } []
      = some ({ streamingReplica with done := 1 }, []) :=
  (check_self_serialized (mockDeps calmScript) [] 0 { streamingReplica with done := 1 }
    streamingReplica [] []).1 (by decide)

/-- C22. A tick that runs a check body adds one to the error counter and leaves the
success counter when the body returned an error, and adds one to the success counter
and leaves the error counter otherwise.  Over any number of ticks neither counter
decreases, and `n` ticks after a `Reset` the two counters add up to `n`.  `Reset` zeroes
both counters and leaves state and `masterInfo`.  The counters are unbounded integers
here. -/
theorem check_counts {σ : Type} (d : Deps σ) (ctx : Ctx) (fuel : Nat) (n : Nat)
    (s s' sn : Sentinel) (w w' wn : σ) (hd : s.done = 0) :
    (check d ctx fuel s w = some (s', w') →
      ∃ e s1 w1, checkBody d ctx fuel { s with done := 1 } w = some (e, s1, w1)
        ∧ s'.counterCheckErrors
            = (if e ≠ none then s.counterCheckErrors + 1 else s.counterCheckErrors)
        ∧ s'.counterCheckSuccess
            = (if e ≠ none then s.counterCheckSuccess else s.counterCheckSuccess + 1))
    ∧ (Start d ctx fuel n s w = some (sn, wn) →
        s.counterCheckSuccess ≤ sn.counterCheckSuccess
        ∧ s.counterCheckErrors ≤ sn.counterCheckErrors)
    ∧ (Start d ctx fuel n (Reset s) w = some (sn, wn) →
        sn.counterCheckSuccess + sn.counterCheckErrors = n
        ∧ 0 ≤ sn.counterCheckSuccess ∧ 0 ≤ sn.counterCheckErrors)
    ∧ (Reset s).counterCheckSuccess = 0 ∧ (Reset s).counterCheckErrors = 0
    ∧ State (Reset s) = State s ∧ (Reset s).masterInfo = s.masterInfo := by
  refine ⟨?_, ?_, ?_, rfl, rfl, rfl, rfl⟩
  · intro h
    obtain ⟨e, s1, w1, hb, _, hs⟩ := check_result d ctx fuel s s' w w' hd h
    refine ⟨e, s1, w1, hb, ?_, ?_⟩
    · rw [hs]; cases e <;> simp
    · rw [hs]; cases e <;> simp
  · intro h
    obtain ⟨_, _, h3, h4, _⟩ := Start_counters d ctx fuel n s sn w wn hd h
    exact ⟨h3, h4⟩
  · intro h
    obtain ⟨_, h2, h3, h4, _⟩ := Start_counters d ctx fuel n (Reset s) sn w wn hd h
    simp only [Reset] at h2 h3 h4
    exact ⟨by omega, h3, h4⟩

/-- C22, for two ticks of the detached agent, counters reset, whose probe fails both
times: no success and two errors are counted. -/
theorem check_counts_witness :
    twiceFailedAgent.counterCheckSuccess + twiceFailedAgent.counterCheckErrors = (2 : Nat)
      ∧ 0 ≤ twiceFailedAgent.counterCheckSuccess
      ∧ 0 ≤ twiceFailedAgent.counterCheckErrors :=
  (check_counts (mockDeps flakyProbeScript) [] 0 2 detachedAgent detachedAgent
    twiceFailedAgent [] []
    [.Alive false (some "connection refused"), .Now 0,
     .Alive false (some "connection reset"), .Now 1] (by decide)).2.2.1 (by decide)

/-- C21, as stated, fails.  Two ticks of the detached agent whose probe fails with
"connection refused" and then with "connection reset": the check body of the second
tick returns "connection reset", and the next receive on `Err()` yields "connection
refused", the error of the first tick that was still in the channel. -/
theorem errChan_keeps_unread_error :
    check (mockDeps flakyProbeScript) [] 0 detachedAgent []
      = some (onceFailedAgent, [.Alive false (some "connection refused"), .Now 0])
    ∧ (checkBody (mockDeps flakyProbeScript) [] 0 { onceFailedAgent with done := 1 }
          [.Alive false (some "connection refused"), .Now 0]).map (fun r => r.1)
        = some (some "connection reset")
    ∧ (check (mockDeps flakyProbeScript) [] 0 onceFailedAgent
          [.Alive false (some "connection refused"), .Now 0]).map (fun r => r.1)
        = some twiceFailedAgent
    ∧ (recvErr twiceFailedAgent).map (fun r => r.1) = some "connection refused"
    ∧ (recvErr twiceFailedAgent).map (fun r => r.1) ≠ some "connection reset" := by
  decide

/-- C21, amended.  After a tick whose check body failed with error `e`, the next receive
on `Err()` yields `e` when the channel was empty before the tick; when an error `e0`
was still unread in the channel, the send of `e` is dropped and the receive yields
`e0`. -/
theorem errChan_keeps_oldest {σ : Type} (d : Deps σ) (ctx : Ctx) (fuel : Nat)
    (s s' s1 : Sentinel) (w w' w1 : σ) (e : GoError) (hd : s.done = 0)
    (hc : check d ctx fuel s w = some (s', w'))
    (hb : checkBody d ctx fuel { s with done := 1 } w = some (some e, s1, w1)) :
    (recvErr s').map (fun r => r.1)
      = some (match s.errChan with
              | [] => e
              | e0 :: _ => e0) := by
  obtain ⟨e2, s2, w2, hb2, _, hs⟩ := check_result d ctx fuel s s' w w' hd hc
  rw [hb] at hb2
  simp only [Option.some.injEq, Prod.mk.injEq] at hb2
  obtain ⟨rfl, rfl, rfl⟩ := hb2
  rw [hs]
  cases hch : s.errChan with
  | nil => simp [recvErr, setErr, hch]
  | cons e0 rest => simp [recvErr, setErr, hch]

/-- C21, amended, for the first failing tick of the detached agent: the channel was
empty, and the receive yields the error of the tick. -/
theorem errChan_keeps_oldest_witness :
    (recvErr onceFailedAgent).map (fun r => r.1) = some "connection refused" :=
  errChan_keeps_oldest (mockDeps flakyProbeScript) [] 0 detachedAgent onceFailedAgent
    { detachedAgent with done := 1 } []
    [.Alive false (some "connection refused"), .Now 0]
    [.Alive false (some "connection refused")] "connection refused"
    (by decide) (by decide) (by decide)

/-! ## What promotion leaves behind -/

theorem check_promoting_masterInfo {σ : Type} (d : Deps σ) (ctx : Ctx) (fuel : Nat)
    (s s' : Sentinel) (w w' : σ)
    (hrole : s.state = Master
      ∨ (s.state = Replica ∧ (d.storage.MutexTryLock ctx (d.c.Alive w).2).1 = (true, none)))
    (h : check d ctx fuel s w = some (s', w')) :
    s'.masterInfo = s.masterInfo := by
  by_cases hd : s.done = 0
  · obtain ⟨e, s1, w1, hb, _, hs⟩ := check_result d ctx fuel s s' w w' hd h
    rw [hs]
    simp only []
    unfold checkBody at hb
    rcases hrole with hm | ⟨hr, hl⟩
    · simp only [hm, if_true, Option.some.injEq] at hb
      have h1 := checkMaster_frame d ctx _ _ _ _ _ hb
      rw [h1]
    · have hne : ¬ (Replica = Master) := by decide
      simp only [hr, hne, if_false, if_true] at hb
      unfold checkReplica at hb
      simp only [] at hb
      rcases hx : d.storage.MutexTryLock ctx (d.c.Alive w).2 with ⟨⟨l, el⟩, w2⟩
      rw [hx] at hl hb
      simp only [Prod.mk.injEq] at hl
      obtain ⟨rfl, rfl⟩ := hl
      simp only [] at hb
      have h1 := promote_frame d ctx fuel _ _ _ _ _ hb
      rw [h1]
  · rw [check_skips d ctx fuel s w hd] at h
    simp only [Option.some.injEq, Prod.mk.injEq] at h
    rw [← h.1]

/-- C30. `promote` and `checkMaster` leave `masterInfo`: a tick of a master, and a tick
of a replica that wins the mutex (and so calls `promote`), end with the `masterInfo`
they started with.  A later tick in state `Detached` with that `masterInfo = o`, a live
instance, the mutex taken and `master-info` decoding to `o` stores `Replica` after the
probe, the lock attempt and the read, and calls none of `Stop`, `Backup`, `Start`. -/
theorem promotion_keeps_masterInfo {σ : Type} (d : Deps σ) (env : Script) (ctx : Ctx)
    (fuel : Nat) (s s' : Sentinel) (w w' : σ) (e : Option GoError) (t : Trace) (p : Bytes)
    (o : hostinfo) :
    (promote d ctx fuel s w = some (e, s', w') → s'.masterInfo = s.masterInfo)
    ∧ (checkMaster d ctx s w).2.1.masterInfo = s.masterInfo
    ∧ ((s.state = Master
          ∨ (s.state = Replica
              ∧ (d.storage.MutexTryLock ctx (d.c.Alive w).2).1 = (true, none))) →
        check d ctx fuel s w = some (s', w') → s'.masterInfo = s.masterInfo)
    ∧ (s.state = Detached → s.done = 0 → s.masterInfo = some o →
        env.Alive (seen .Alive t) = (true, none) →
        env.MutexTryLock (seen .MutexTryLock t) = (false, none) →
        env.Done (seen .Done t) = false →
        env.DictionaryGet (seen .DictionaryGet t) = (some p, none) →
        env.gob.Decode p = .ok o →
        check (mockDeps env) ctx (fuel + 1) s t
          = some ({ s with state := Replica
                           counterCheckSuccess := s.counterCheckSuccess + 1
                           lastCheck := env.Now (seen .Now t) },
              t ++ [.Alive true none, .MutexTryLock false none,
                    .Done (WithTimeout ctx DefaultPgAwaitTimeout) false,
                    .DictionaryGet dictKeyMasterInfo (some p) none,
                    .StoreState Replica, .Now (env.Now (seen .Now t))])) := by
  refine ⟨?_, ?_, ?_, ?_⟩
  · intro h
    have h1 := promote_frame d ctx fuel s s' w w' e h
    rw [h1]
  · have h1 := checkMaster_frame d ctx s (checkMaster d ctx s w).2.1 w
      (checkMaster d ctx s w).2.2 (checkMaster d ctx s w).1 rfl
    rw [h1]
  · exact fun hrole h => check_promoting_masterInfo d ctx fuel s s' w w' hrole h
  · intro hstate hdone hmi halive hlock hlive hget hdec
    have hm : ¬ (Detached = Master) := by decide
    have hr : ¬ (Detached = Replica) := by decide
    obtain ⟨hn, po, ec, cl, dn, st, mi, pl, lc, cs, ce⟩ := s
    simp only at hstate hdone hmi
    subst hstate
    subst hdone
    subst hmi
    simp [check, checkBody, checkDetached, follow, getMaster, getMasterLoop, setState,
      sameMaster_self, hm, hr, halive, hlock, hlive, hget, hdec, Event.kind]

/-- C30, for the detached agent that still records `{"m", 5432}`: the tick makes it a
replica again after the probe, the lock attempt and the read of `master-info`. -/
theorem promotion_keeps_masterInfo_witness :
    check (mockDeps followerScript) [] 1 detachedAgent []
      = some ({ detachedAgent with state := Replica, counterCheckSuccess := 1 },
          [.Alive true none, .MutexTryLock false none,
           .Done [DefaultPgAwaitTimeout] false,
           .DictionaryGet dictKeyMasterInfo (some mPayload) none,
           .StoreState Replica, .Now 0]) :=
  (promotion_keeps_masterInfo (mockDeps followerScript) followerScript [] 0 detachedAgent
    detachedAgent [] [] none [] mPayload { Host := "m", Port := 5432 }).2.2.2
    (by rfl) (by rfl) (by rfl) (by decide) (by decide) (by decide) (by decide) (by rfl)

theorem check_master_puts_nothing (env : Script) (ctx : Ctx) (fuel : Nat) (s : Sentinel)
    (t : Trace) (hstate : s.state = Master) :
    (check (mockDeps env) ctx fuel s t).map (fun r => seen .DictionaryPut r.2)
      = some (seen .DictionaryPut t) := by
  by_cases hd : s.done = 0
  · obtain ⟨hn, po, ec, cl, dn, st, mi, pl, lc, cs, ce⟩ := s
    simp only at hstate hd
    subst hstate
    subst hd
    rcases hA : env.Alive (seen .Alive t) with ⟨a, ea⟩
    rcases hU : env.MutexUnlock (seen .MutexUnlock t) with _ | eu <;>
    cases a <;> cases ea <;>
    simp [check, checkBody, checkMaster, setState, setErr, hA, hU, Event.kind]
  · rw [check_skips _ ctx fuel s t hd]
    rfl

/-- C29. A tick of a replica that wins the mutex, removes `master-info`, promotes its
instance and sees recovery end, and whose `DictionaryPut` then fails with `e`: the tick
ends in state `Master` with the error counter incremented and `e` offered to `errChan`;
its interactions include the successful `DictionaryRemove("master-info")` and, as the
only `DictionaryPut`, the failed one, and no `MutexUnlock`.  A tick taken in state
`Master` returns and calls no `DictionaryPut`. -/
theorem check_replica_publish_fails (env : Script) (ctx : Ctx) (k extra fuel : Nat)
    (s sm : Sentinel) (t tm : Trace) (e : GoError)
    (hstate : s.state = Replica) (hdone : s.done = 0)
    (hlock : env.MutexTryLock (seen .MutexTryLock t) = (true, none))
    (hremove : env.DictionaryRemove (seen .DictionaryRemove t) = none)
    (hpromote : env.Promote (seen .Promote t) = none)
    (hlive : ∀ j, j ≤ k → env.Done (seen .Done t + j) = false)
    (hwait : ∀ j, j < k → env.InRecovery (seen .InRecovery t + j) ≠ (false, none))
    (hflip : env.InRecovery (seen .InRecovery t + k) = (false, none))
    (hput : env.DictionaryPut (seen .DictionaryPut t) = some e)
    (hmaster : sm.state = Master) :
    check (mockDeps env) ctx (k + 1 + extra) s t
      = some ({ s with state := Master,
                       errChan := (setErr s e).errChan,
                       counterCheckErrors := s.counterCheckErrors + 1,
                       lastCheck := env.Now (seen .Now t) },
          t ++ [.Alive (env.Alive (seen .Alive t)).1 (env.Alive (seen .Alive t)).2,
                .MutexTryLock true none,
                .DictionaryRemove dictKeyMasterInfo none,
                .Promote none]
            ++ recoveryPolls env (WithTimeout ctx DefaultPgAwaitTimeout) (seen .InRecovery t) k
            ++ [.Done (WithTimeout ctx DefaultPgAwaitTimeout) false, .InRecovery false none,
                .Sleep DefaultPgPollDelay,
                .StoreState Master,
                .DictionaryPut dictKeyMasterInfo s.payload (some e),
                .Now (env.Now (seen .Now t))])
    ∧ (checkBody (mockDeps env) ctx (k + 1 + extra) { s with done := 1 } t).map (fun r => r.1)
        = some (some e)
    ∧ (check (mockDeps env) ctx fuel sm tm).map (fun r => seen .DictionaryPut r.2)
        = some (seen .DictionaryPut tm) := by
  have hloop := promoteWait_polls env (WithTimeout ctx DefaultPgAwaitTimeout) extra k
    (t ++ [.Alive (env.Alive (seen .Alive t)).1 (env.Alive (seen .Alive t)).2,
           .MutexTryLock true none, .DictionaryRemove dictKeyMasterInfo none, .Promote none])
    (by simpa [Event.kind] using hlive) (by simpa [Event.kind] using hwait)
    (by simpa [Event.kind] using hflip)
  have hm : ¬ (Replica = Master) := by decide
  simp [Event.kind] at hloop
  have hp := seen_recoveryPolls env (WithTimeout ctx DefaultPgAwaitTimeout) .DictionaryPut
    (by decide) (by decide) k (seen .InRecovery t)
  have hn := seen_recoveryPolls env (WithTimeout ctx DefaultPgAwaitTimeout) .Now
    (by decide) (by decide) k (seen .InRecovery t)
  refine ⟨?_, ?_, check_master_puts_nothing env ctx fuel sm tm hmaster⟩
  · simp [check, checkBody, checkReplica, promote, setState, setErr, hstate, hdone, hm, hlock,
      hremove, hpromote, hloop, hput, hp, hn, Event.kind]
  · simp [checkBody, checkReplica, promote, setState, hstate, hm, hlock,
      hremove, hpromote, hloop, hput, hp, Event.kind]

/-- C29, for the streaming replica whose instance leaves recovery at the first poll and
whose `DictionaryPut` fails. -/
theorem check_replica_publish_fails_witness :
    check (mockDeps failedPublishScript) [] 1 streamingReplica []
      = some ({ streamingReplica with state := Master,
                                      errChan := ["etcdserver: request timed out"],
                                      counterCheckErrors := 1 },
          [.Alive true none, .MutexTryLock true none,
           .DictionaryRemove dictKeyMasterInfo none, .Promote none,
           .Done [DefaultPgAwaitTimeout] false, .InRecovery false none,
           .Sleep DefaultPgPollDelay, .StoreState Master,
           .DictionaryPut dictKeyMasterInfo
             [0, 5432, 108, 111, 99, 97, 108, 104, 111, 115, 116]
             (some "etcdserver: request timed out"),
           .Now 0]) :=
  (check_replica_publish_fails failedPublishScript [] 0 0 0 streamingReplica
    bootstrappedMaster [] [] "etcdserver: request timed out" (by rfl) (by rfl)
    (by decide) (by decide) (by decide) (by intro j _; rfl)
    (by intro j hj; omega) (by decide) (by decide) (by rfl)).1

/-! ## The calls of `MutexUnlock` -/

theorem seen_of_harmless (new : Trace) (h : Harmless new) :
    seen .MutexUnlock new = 0 ∧ ∀ k v, Event.DictionaryPut k v none ∉ new := by
  constructor
  · induction new with
    | nil => rfl
    | cons e new ih =>
      rw [Harmless_cons] at h
      have h2 : seen .MutexUnlock (e :: new) = seen .MutexUnlock [e] + seen .MutexUnlock new :=
        seen_append .MutexUnlock [e] new
      rw [h2, ih h.2]
      cases e <;> first | rfl | (simp [Event.harmless] at h)
  · intro k v hmem
    have := h _ hmem
    simp [Event.harmless] at this

theorem promote_unlocks (env : Script) (ctx : Ctx) (fuel : Nat) (s s' : Sentinel)
    (t t' : Trace) (e : Option GoError)
    (h : promote (mockDeps env) ctx fuel s t = some (e, s', t')) :
    ∃ new, t' = t ++ new
      ∧ seen .MutexUnlock new
          = (if env.DictionaryRemove (seen .DictionaryRemove t) = none
                ∧ env.Promote (seen .Promote t) ≠ none then 1 else 0)
      ∧ (e ≠ none → s'.state = s.state ∨ ∀ k v, Event.DictionaryPut k v none ∉ new) := by
  unfold promote at h
  simp only [mock_DictionaryRemove, mock_Promote, mock_MutexUnlock] at h
  split at h
  · rename_i heq
    simp only [Prod.mk.injEq, Option.some.injEq] at *
    obtain ⟨hR, rfl⟩ := heq
    obtain ⟨rfl, rfl, rfl⟩ := h
    exact ⟨_, rfl, by simp [hR, Event.kind], fun _ => Or.inl rfl⟩
  · rename_i heq
    simp only [Prod.mk.injEq] at heq
    obtain ⟨hR, rfl⟩ := heq
    split at h
    · rename_i heq2
      simp only [Prod.mk.injEq, Option.some.injEq] at *
      obtain ⟨hP, rfl⟩ := heq2
      obtain ⟨rfl, rfl, rfl⟩ := h
      simp only [List.append_assoc]
      simp only [seen_append, seen_cons, seen_nil, Event.kind] at hP
      simp at hP
      exact ⟨_, rfl, by simp [hR, hP, Event.kind], fun _ => Or.inl trivial⟩
    · rename_i heq2
      simp only [Prod.mk.injEq] at heq2
      obtain ⟨hP, rfl⟩ := heq2
      simp only [seen_append, seen_cons, seen_nil, Event.kind] at hP
      simp at hP
      split at h
      · simp at h
      · rename_i hw
        obtain ⟨n1, rfl, hq⟩ := promoteWait_quiet env _ _ _ _ _ hw
        obtain ⟨hu, _⟩ := seen_of_harmless n1 (Harmless_of_quiet n1 hq)
        simp only [Prod.mk.injEq, Option.some.injEq] at h
        obtain ⟨rfl, rfl, rfl⟩ := h
        simp only [List.append_assoc]
        exact ⟨_, rfl, by simp [hR, hP, hu, Event.kind], fun _ => Or.inl trivial⟩
      · rename_i hw
        obtain ⟨n1, rfl, hq⟩ := promoteWait_quiet env _ _ _ _ _ hw
        obtain ⟨hu, hnp⟩ := seen_of_harmless n1 (Harmless_of_quiet n1 hq)
        simp only [setState, mock_StoreState, mock_DictionaryPut] at h
        split at h
        · rename_i heq3
          simp only [Prod.mk.injEq, Option.some.injEq] at *
          obtain ⟨hput, rfl⟩ := heq3
          obtain ⟨rfl, rfl, rfl⟩ := h
          simp only [List.append_assoc]
          refine ⟨_, rfl, by simp [hR, hP, hu, Event.kind], fun _ => Or.inr ?_⟩
          intro k v hmem
          simp only [List.mem_append, List.mem_cons, List.mem_singleton, List.not_mem_nil,
            reduceCtorEq, false_or, or_false] at hmem
          rcases hmem with hmem | hmem
          · exact hnp k v hmem
          · simp only [Event.DictionaryPut.injEq] at hmem
            simp only [List.append_assoc] at hput hmem
            rw [← hmem.2.2] at hput
            exact absurd hput (by simp)
        · rename_i heq3
          simp only [Prod.mk.injEq, Option.some.injEq] at *
          obtain ⟨_, rfl⟩ := heq3
          obtain ⟨rfl, rfl, rfl⟩ := h
          simp only [List.append_assoc]
          exact ⟨_, rfl, by simp [hR, hP, hu, Event.kind], fun hne => absurd rfl hne⟩

theorem checkBody_unlocks (env : Script) (ctx : Ctx) (fuel : Nat) (s s' : Sentinel)
    (t t' : Trace) (e : Option GoError)
    (h : checkBody (mockDeps env) ctx fuel s t = some (e, s', t')) :
    ∃ new, t' = t ++ new
      ∧ seen .MutexUnlock new
          = (if (s.state = Master ∧ env.Alive (seen .Alive t) ≠ (true, none))
                ∨ (s.state = Replica
                    ∧ env.MutexTryLock (seen .MutexTryLock t) = (true, none)
                    ∧ env.DictionaryRemove (seen .DictionaryRemove t) = none
                    ∧ env.Promote (seen .Promote t) ≠ none) then 1 else 0)
      ∧ (e ≠ none → s.state ≠ Master →
          s'.state ≠ Master ∨ ∀ k v, Event.DictionaryPut k v none ∉ new) := by
  have hRM : ¬ (Replica = Master) := by decide
  unfold checkBody at h
  split at h
  · rename_i hm
    simp only [Option.some.injEq] at h
    unfold checkMaster at h
    simp only [mock_Alive, mock_MutexUnlock, setState, mock_StoreState] at h
    have hMR : ¬ (Master = Replica) := by decide
    repeat' split at h
    all_goals try simp only [Prod.mk.injEq, Option.some.injEq, reduceCtorEq] at *
    all_goals repeat (cases ‹_ ∧ _›)
    all_goals subst_vars
    all_goals try simp only [List.append_assoc]
    all_goals refine ⟨_, rfl, ?_, fun _ hne => absurd hm hne⟩
    all_goals (try simp [Event.kind] at *)
    all_goals simp [hm, hMR, Event.kind, *]
  · rename_i hm
    split at h
    · rename_i hr
      unfold checkReplica at h
      simp only [mock_Alive, mock_MutexTryLock] at h
      split at h
      · rename_i heq
        simp only [Prod.mk.injEq, Option.some.injEq] at *
        obtain ⟨hl, rfl⟩ := heq
        obtain ⟨rfl, rfl, rfl⟩ := h
        simp only [seen_append, seen_cons, seen_nil, Event.kind] at hl
        try simp at hl
        simp only [List.append_assoc]
        refine ⟨_, rfl, ?_, fun _ _ => Or.inl hm⟩
        have hl2 : env.MutexTryLock (seen .MutexTryLock t) ≠ (true, none) := by
          intro hc
          rw [hc] at hl
          simp at hl
        simp [hm, hr, hRM, hl2, Event.kind]
      · rename_i heq
        simp only [Prod.mk.injEq] at heq
        obtain ⟨hl, rfl⟩ := heq
        simp only [seen_append, seen_cons, seen_nil, Event.kind] at hl
        simp at hl
        obtain ⟨n1, rfl, hu, hs⟩ := promote_unlocks env _ _ _ _ _ _ _ h
        simp only [seen_append, seen_cons, seen_nil, Event.kind] at hu
        simp at hu
        simp only [List.append_assoc]
        refine ⟨_, rfl, ?_, ?_⟩
        · simp [hm, hr, hRM, hl, hu, Event.kind]
        · intro hne _
          rcases hs hne with h1 | h1
          · exact Or.inl (by rw [h1]; exact hm)
          · refine Or.inr ?_
            intro k v hmem
            simp only [List.mem_append, List.mem_cons, List.mem_singleton, List.not_mem_nil,
              reduceCtorEq, false_or, or_false] at hmem
            exact h1 k v hmem
      · rename_i heq
        simp only [Prod.mk.injEq] at heq
        obtain ⟨hl, rfl⟩ := heq
        simp only [seen_append, seen_cons, seen_nil, Event.kind] at hl
        simp at hl
        have hst := (follow_state (mockDeps env) ctx fuel _ _ _ _ _ h).2
        obtain ⟨n1, rfl, h1, _, _⟩ := follow_harmless env _ _ _ _ _ _ _ h
        obtain ⟨hu, _⟩ := seen_of_harmless n1 h1
        simp only [List.append_assoc]
        refine ⟨_, rfl, ?_, ?_⟩
        · simp [hm, hr, hRM, hl, hu, Event.kind]
        · intro _ _
          refine Or.inl ?_
          rcases hst with h2 | h2
          · rw [h2]; exact hm
          · rw [h2]; decide
    · rename_i hr
      have hcond : ¬ ((s.state = Master ∧ env.Alive (seen .Alive t) ≠ (true, none))
          ∨ (s.state = Replica
              ∧ env.MutexTryLock (seen .MutexTryLock t) = (true, none)
              ∧ env.DictionaryRemove (seen .DictionaryRemove t) = none
              ∧ env.Promote (seen .Promote t) ≠ none)) := by
        rintro (⟨h1, _⟩ | ⟨h1, _⟩)
        · exact hm h1
        · exact hr h1
      simp only [hcond, if_false]
      unfold checkDetached at h
      simp only [mock_Alive, mock_MutexTryLock, setState, mock_StoreState] at h
      split at h
      · simp only [Prod.mk.injEq, Option.some.injEq] at *
        repeat (cases ‹_ ∧ _›)
        subst_vars
        exact ⟨_, rfl, by simp [Event.kind], fun _ _ => Or.inl hm⟩
      · simp only [Prod.mk.injEq, Option.some.injEq] at *
        repeat (cases ‹_ ∧ _›)
        subst_vars
        exact ⟨_, rfl, by simp [Event.kind], fun _ _ => Or.inl hm⟩
      · rename_i heq
        simp only [Prod.mk.injEq] at heq
        obtain ⟨ha, rfl⟩ := heq
        split at h
        · simp only [Prod.mk.injEq, Option.some.injEq] at *
          repeat (cases ‹_ ∧ _›)
          subst_vars
          simp only [List.append_assoc]
          exact ⟨_, rfl, by simp [Event.kind], fun _ _ => Or.inl hm⟩
        · simp only [Prod.mk.injEq, Option.some.injEq] at *
          repeat (cases ‹_ ∧ _›)
          subst_vars
          simp only [List.append_assoc]
          exact ⟨_, rfl, by simp [Event.kind], fun _ _ => Or.inl hm⟩
        · rename_i heq2
          simp only [Prod.mk.injEq] at heq2
          obtain ⟨_, rfl⟩ := heq2
          split at h
          · simp at h
          · rename_i hf
            simp only [Prod.mk.injEq, Option.some.injEq] at h
            obtain ⟨rfl, rfl, rfl⟩ := h
            have hst := (follow_state (mockDeps env) ctx fuel _ _ _ _ _ hf).2
            obtain ⟨n1, rfl, h1, _, _⟩ := follow_harmless env _ _ _ _ _ _ _ hf
            obtain ⟨hu, _⟩ := seen_of_harmless n1 h1
            simp only [List.append_assoc]
            refine ⟨_, rfl, by simp [hu, Event.kind], fun _ _ => Or.inl ?_⟩
            rcases hst with h2 | h2
            · rw [h2]; exact hm
            · rw [h2]; decide
          · rename_i hf
            simp only [Prod.mk.injEq, Option.some.injEq] at h
            obtain ⟨rfl, rfl, rfl⟩ := h
            obtain ⟨n1, rfl, h1, _, _⟩ := follow_harmless env _ _ _ _ _ _ _ hf
            obtain ⟨hu, _⟩ := seen_of_harmless n1 h1
            simp only [List.append_assoc]
            exact ⟨_, rfl, by simp [hu, Event.kind], fun hne => absurd rfl hne⟩

/-- C28. In a tick that runs a check body and returns, `MutexUnlock` is called exactly
when the state is `Master` and `Alive` did not answer `(true, nil)`, or the state is
`Replica`, `MutexTryLock` answered `(true, nil)`, `DictionaryRemove` succeeded and
`Promote` failed; it is then called once.  So a tick outside this condition calls no
`MutexUnlock`, whatever it acquired; and when the body of a tick that did not start in
state `Master` returns an error, the tick ends in a state other than `Master` or has
made no successful `DictionaryPut`. -/
theorem check_unlocks (env : Script) (ctx : Ctx) (fuel : Nat) (s s' : Sentinel)
    (t t' : Trace) (hd : s.done = 0)
    (h : check (mockDeps env) ctx fuel s t = some (s', t')) :
    ∃ new, t' = t ++ new
      ∧ seen .MutexUnlock new
          = (if (s.state = Master ∧ env.Alive (seen .Alive t) ≠ (true, none))
                ∨ (s.state = Replica
                    ∧ env.MutexTryLock (seen .MutexTryLock t) = (true, none)
                    ∧ env.DictionaryRemove (seen .DictionaryRemove t) = none
                    ∧ env.Promote (seen .Promote t) ≠ none) then 1 else 0)
      ∧ (∀ e s1 t1,
          checkBody (mockDeps env) ctx fuel { s with done := 1 } t = some (some e, s1, t1) →
          s.state ≠ Master →
          State s' ≠ Master ∨ ∀ k v, Event.DictionaryPut k v none ∉ new) := by
  obtain ⟨e, s1, t1, hb, hw, hs⟩ := check_result (mockDeps env) ctx fuel s s' t t' hd h
  obtain ⟨new, rfl, hu, hp⟩ := checkBody_unlocks env ctx fuel _ _ _ _ _ hb
  simp only [mock_Now] at hw
  subst hw
  simp only [List.append_assoc]
  refine ⟨_, rfl, ?_, ?_⟩
  · simp only [seen_append, hu]
    simp [Event.kind]
  · intro e2 s2 t2 hb2 hne
    rw [hb] at hb2
    simp only [Option.some.injEq, Prod.mk.injEq] at hb2
    obtain ⟨rfl, _, _⟩ := hb2
    have hst : State s' = s1.state := by rw [hs]; rfl
    rcases hp (by simp) hne with h1 | h1
    · exact Or.inl (by rw [hst]; exact h1)
    · refine Or.inr ?_
      intro k v hmem
      simp only [List.mem_append, List.mem_singleton, reduceCtorEq, or_false] at hmem
      exact h1 k v hmem

/-- C28, for the streaming replica that wins the mutex and whose promotion fails: the
tick calls `MutexUnlock` once. -/
theorem check_unlocks_witness :
    ∃ new : Trace,
      [.Alive true none, .MutexTryLock true none, .DictionaryRemove dictKeyMasterInfo none,
       .Promote (some "promotion timeout"), .MutexUnlock none, .Now 0] = [] ++ new
      ∧ seen .MutexUnlock new = 1 := by
  obtain ⟨new, h1, h2, _⟩ := check_unlocks failedPromotionScript [] 0 streamingReplica
    { streamingReplica with errChan := ["promotion timeout"], counterCheckErrors := 1 } []
    [.Alive true none, .MutexTryLock true none, .DictionaryRemove dictKeyMasterInfo none,
     .Promote (some "promotion timeout"), .MutexUnlock none, .Now 0] (by rfl) (by decide)
  exact ⟨new, h1, h2.trans (by decide)⟩

/-! ## The gauges and the handlers -/

/-- C24. The gauge of `is_alive` is -1 when the probe `Alive` returned an error
(whatever its boolean), 1 when it returned `(true, nil)` and 0 when it returned
`(false, nil)`; the gauge of `in_recovery` is the same function of the result of
`InRecovery`; so the two gauges are equal whenever the two probes return the same
pair. -/
theorem collectors_agree {σ τ : Type} (c : Cluster σ) (c' : Cluster τ) (w : σ) (w' : τ) :
    (livenessCollector.Collect c w).1
        = (match (c.Alive w).1 with
           | (_, some _) => -1
           | (true, none) => 1
           | (false, none) => 0)
    ∧ (inRecoveryCollector.Collect c' w').1
        = (match (c'.InRecovery w').1 with
           | (_, some _) => -1
           | (true, none) => 1
           | (false, none) => 0)
    ∧ ((c.Alive w).1 = (c'.InRecovery w').1 →
        (livenessCollector.Collect c w).1 = (inRecoveryCollector.Collect c' w').1) := by
  have h1 : (livenessCollector.Collect c w).1
      = (match (c.Alive w).1 with
         | (_, some _) => -1
         | (true, none) => 1
         | (false, none) => 0) := by
    unfold livenessCollector.Collect
    rcases c.Alive w with ⟨⟨r, err⟩, w1⟩
    cases r <;> cases err <;> rfl
  have h2 : (inRecoveryCollector.Collect c' w').1
      = (match (c'.InRecovery w').1 with
         | (_, some _) => -1
         | (true, none) => 1
         | (false, none) => 0) := by
    unfold inRecoveryCollector.Collect
    rcases c'.InRecovery w' with ⟨⟨r, err⟩, w1⟩
    cases r <;> cases err <;> rfl
  refine ⟨h1, h2, ?_⟩
  intro heq
  rw [h1, h2, heq]

/-- C24, for a replica in recovery: both probes answer `(true, nil)` and both gauges
are 1. -/
theorem collectors_agree_witness :
    (livenessCollector.Collect (mockCluster replicaScript) []).1
      = (inRecoveryCollector.Collect (mockCluster replicaScript) []).1 :=
  (collectors_agree (mockCluster replicaScript) (mockCluster replicaScript) [] []).2.2
    (by decide)

/-- C25 fails on the code.  The handler that `postFunc` builds answers a `POST` request
with 405 and does not call the operation; it is a `GET` request that calls the operation
once, answered with 200 when it succeeds and 500 when it fails.  `stopHandler`,
`startHandler` and `promoteHandler` are `postFunc` of `Stop`, `Start` and `Promote`. -/
theorem postFunc_rejects_POST {σ : Type} (c : Cluster σ) (f : σ → Option GoError × σ)
    (w : σ) :
    postFunc f ResponseWriter.fresh { Method := MethodPost } w
      = ({ status := some 405, header := [], body := "Method Not Allowed" }, w)
    ∧ (postFunc f ResponseWriter.fresh { Method := MethodGet } w).2 = (f w).2
    ∧ (postFunc f ResponseWriter.fresh { Method := MethodGet } w).1.status
        = some (if (f w).1 = none then 200 else 500)
    ∧ stopHandler c = postFunc c.Stop
    ∧ startHandler c = postFunc c.Start
    ∧ promoteHandler c = postFunc c.Promote
    ∧ stopHandler (mockCluster calmScript) ResponseWriter.fresh { Method := MethodPost } []
        = ({ status := some 405, header := [], body := "Method Not Allowed" }, [])
    ∧ stopHandler (mockCluster calmScript) ResponseWriter.fresh { Method := MethodGet } []
        = ({ status := some 200, header := [], body := "" }, [.Stop none]) := by
  refine ⟨?_, ?_, ?_, rfl, rfl, rfl, by decide, by decide⟩
  · have hp : MethodPost ≠ MethodGet := by decide
    simp only [postFunc, hp, ne_eq, not_false_eq_true, if_true]
    rfl
  · have hg : ¬ (MethodGet ≠ MethodGet) := by simp
    simp only [postFunc, hg, if_false]
    rcases f w with ⟨e, w1⟩
    cases e <;> rfl
  · have hg : ¬ (MethodGet ≠ MethodGet) := by simp
    simp only [postFunc, hg, if_false]
    rcases f w with ⟨e, w1⟩
    cases e <;> rfl

/-- C26 fails on the code.  On a `GET` request whose probe succeeds, the handlers answer
200 with `Content-Type: application/json; charset=utf-8`, and the body starts with a
quotation mark that is never closed: it is the text `"` followed by the JSON object, not
the JSON object. -/
theorem getFunc_bodies_start_with_a_quote :
    aliveHandler (mockCluster calmScript) ResponseWriter.fresh { Method := MethodGet } []
      = ({ status := some 200,
           header := [("X-Content-Type-Options", "nosniff"),
                      ("Content-Type", "application/json; charset=utf-8")],
           body := "\"\x7b\"alive\":true\x7d" }, [.Alive true none])
    ∧ (inrecoveryHandler (mockCluster calmScript) ResponseWriter.fresh
          { Method := MethodGet } []).1.body = "\"\x7b\"inrecovery\":false\x7d"
    ∧ (versionHandler (fun (w : Unit) => ((13, 2, none), w)) ResponseWriter.fresh
          { Method := MethodGet } ()).1.body = "\"\x7b\"major\":13,\"minor\":2\x7d"
    ∧ "\"\x7b\"alive\":true\x7d" ≠ "\x7b\"alive\":true\x7d"
    ∧ "\"\x7b\"alive\":true\x7d" = "\"" ++ "\x7b\"alive\":true\x7d"
    ∧ (aliveHandler (mockCluster failedPromotionScript) ResponseWriter.fresh
          { Method := MethodPost } []).1.status = some 405
    ∧ (aliveHandler (mockCluster flakyProbeScript) ResponseWriter.fresh
          { Method := MethodGet } []).1.status = some 500 := by
  decide

/-! ## The version of the server -/

/-- C27 fails on the code.  When the answer `s` of `SELECT version()` holds no match of
the pattern, `Version` does not return an error: the index expression `m[0]` panics.
When `s` holds a match whose two numbers fit an `int`, `Version` returns them with no
error. -/
theorem Version_panics_without_match (s : String) (g1 g2 : List Char) (major minor : Int) :
    (firstSubmatch s.toList = none →
      (cluster.Version (answering s) ()).1
        = .panicked "runtime error: index out of range [0] with length 0")
    ∧ (firstSubmatch s.toList = some (g1, g2) → Atoi g1 = (major, none) →
        Atoi g2 = (minor, none) →
        (cluster.Version (answering s) ()).1 = .returned (major, minor, none)) := by
  constructor
  · intro h
    simp only [cluster.Version, answering, h]
  · intro h h1 h2
    simp only [cluster.Version, answering, h, h1, h2]

/-- C27, at the answer of a server that is not PostgreSQL. -/
theorem Version_panics_without_match_witness :
    (cluster.Version (answering "CockroachDB CCL v21.1.0 (x86_64-unknown-linux-gnu)") ()).1
      = .panicked "runtime error: index out of range [0] with length 0" :=
  (Version_panics_without_match "CockroachDB CCL v21.1.0 (x86_64-unknown-linux-gnu)"
    [] [] 0 0).1 (by decide)

end PgCluster
